import Mathlib

/-!
# Telegram-serverless: the manager, the gateway and the sidecar

A shallow embedding of the manager service of `uchebnick/tg-serverless`
(`manager/internal/{models,storage,kafka,kubernetes,telegram,bot,handlers}`),
of its gateway
(`tg_gateway/internal/{webhook,storage,kafka,telegram,outgoing}`) and of the
read path of its sidecar (`tg_proxy/internal/{models,kafka,handlers}`).

Conventions of the embedding.

* Go `string` is `String`; Go `int32` is `Int` (the code only compares and
  copies replica bounds, it never does arithmetic on them); `time.Time` is a
  `Nat` timestamp; Go `error` is `Option String` (`none` is `nil`) and a
  `(T, error)` result is `Except String T`.
* Every call that leaves the process (Redis, Kafka, Kubernetes, Telegram,
  the clock, the random source) takes its outcome from an explicit
  environment record, so that a theorem quantifies over every behaviour of
  the collaborators.  A call that fails leaves the state of its collaborator
  as it was; what earlier calls of the same method wrote stays (`SaveBot`
  is three commands, each of which can be the one that fails).
* The collaborators' state is carried in a `World`; every method the
  `Service` invokes on the storage, on the Kafka admin and on the Telegram
  client, and every request it sends to the Kubernetes API, is appended to
  `World.trace`.
* `json.Marshal` followed by `json.Unmarshal` of a `BotConfig` is the
  identity: the store keeps the record itself under `bot:config:<id>`.
* In the gateway a string that is sliced by byte offsets is the list of its
  bytes and a slice out of range is `none`; a loop that runs until its context
  is done is run over a finite course of turns given from outside; the
  package variable `apiResp` is threaded through `CallMethod` as state.
* Where the code hands a text to `encoding/json`, the text is the JSON value
  it denotes (`Json`): a number is the decimal it denotes, with or without
  fraction and exponent, and a string is a `String` or, when it has a
  surrogate escape without its partner, the list of its UTF-16 code units.
  `json.Unmarshal` into a struct stores the members of an object one after
  the other, matching keys with field names without regard to case, and the
  conversion of a number to `float64` and back is a parameter (`FloatCodec`).
-/

namespace TgServerless

/-! ## `manager/internal/models/bot.go` -/

/-- The persisted bot record (`models.BotConfig`). -/
structure BotConfig where
  botID : String
  botToken : String
  botName : String
  workerImage : String
  minReplicas : Int
  maxReplicas : Int
  envVars : List (String × String)
  createdAt : Nat
  updatedAt : Nat
  status : String
deriving DecidableEq, Repr

/-- The body of `POST /bots` (`models.CreateBotRequest`). -/
structure CreateBotRequest where
  botToken : String
  botName : String
  workerImage : String
  minReplicas : Int
  maxReplicas : Int
  envVars : List (String × String)
deriving DecidableEq, Repr

/-- The topic pair of a bot (`models.KafkaTopics`). -/
structure KafkaTopics where
  incoming : String
  outgoing : String
deriving DecidableEq, Repr

/-- The answer of `POST /bots` (`models.CreateBotResponse`). -/
structure CreateBotResponse where
  botID : String
  status : String
  kafkaTopics : KafkaTopics
  webhookURL : String
deriving DecidableEq, Repr

/-- The body of `PATCH /bots/:bot_id/replicas`; a `nil` pointer is `none`. -/
structure UpdateReplicasRequest where
  minReplicas : Option Int
  maxReplicas : Option Int
deriving DecidableEq, Repr

/-- The replica triple of a status answer (`models.Replicas`). -/
structure Replicas where
  current : Int
  min : Int
  max : Int
deriving DecidableEq, Repr

/-- The answer of `GET /bots/:bot_id` (`models.BotStatusResponse`). -/
structure BotStatusResponse where
  botID : String
  botName : String
  status : String
  replicas : Replicas
  kafkaLag : Int
  createdAt : Nat
deriving DecidableEq, Repr

/-! ## `Service.validateCreateRequest` (`bot/service.go`, lines 251-271) -/

/-- The checks of `validateCreateRequest`, in the order of the source; the
result is the error, `none` when the request is accepted. -/
def validateCreateRequest (req : CreateBotRequest) : Option String :=
  if req.botToken = "" then some "bot_token is required"
  else if req.botName = "" then some "bot_name is required"
  else if req.workerImage = "" then some "worker_image is required"
  else if req.minReplicas < 0 then some "min_replicas must be >= 0"
  else if req.maxReplicas < 1 then some "max_replicas must be >= 1"
  else if req.minReplicas > req.maxReplicas then
    some "min_replicas must be <= max_replicas"
  else none

/-! ## `Service.generateBotID` (`bot/service.go`, lines 245-249) -/

/-- One digit of `hex.EncodeToString`: the table `"0123456789abcdef"`. -/
def hexDigit (n : Nat) : Char :=
  "0123456789abcdef".data.getD n '0'

/-- The function `hex.EncodeToString` on a byte slice; a list element stands
for the byte `b % 256`. -/
def hexEncode : List Nat → List Char
  | [] => []
  | b :: bs => hexDigit (b % 256 / 16) :: hexDigit (b % 16) :: hexEncode bs

/-- The id built from the 8 bytes `b` that `rand.Read` filled in. -/
def generateBotID (b : List Nat) : String :=
  "bot_" ++ String.mk (hexEncode b)

/-! ## The key-value store (Redis)

The store is one key space.  A key holds a string or a set.  The string that
`SaveBot` writes under `bot:config:<id>` is `json.Marshal` of the record and
`GetBot` reads it back with `json.Unmarshal`; the embedding keeps the record
itself (`RedisValue.json`), every other string is `RedisValue.str` and does
not decode to a record. -/

/-- A value held by a Redis key. -/
inductive RedisValue
  | json (cfg : BotConfig)
  | str (s : String)
  | set (members : List String)
deriving DecidableEq, Repr

/-- The key space: `none` is a key that does not exist. -/
abbrev Store := String → Option RedisValue

/-- The store without any key. -/
def Store.empty : Store := fun _ => none

/-- The command `SET k v`. -/
def Store.put (kv : Store) (k : String) (v : RedisValue) : Store :=
  fun k' => if k' = k then some v else kv k'

/-- The command `DEL k`. -/
def Store.del (kv : Store) (k : String) : Store :=
  fun k' => if k' = k then none else kv k'

/-- The command `SADD k m`; `none` is the `WRONGTYPE` error of a key that
holds a string. -/
def Store.sadd (kv : Store) (k m : String) : Option Store :=
  match kv k with
  | none => some (kv.put k (.set [m]))
  | some (.set ms) => some (kv.put k (.set (if m ∈ ms then ms else ms ++ [m])))
  | some _ => none

/-- The command `SREM k m`; a set that becomes empty is removed, `none` is
the `WRONGTYPE` error. -/
def Store.srem (kv : Store) (k m : String) : Option Store :=
  match kv k with
  | none => some kv
  | some (.set ms) =>
    let ms' := ms.filter (fun x => x ≠ m)
    some (if ms' = [] then kv.del k else kv.put k (.set ms'))
  | some _ => none

/-- The command `SMEMBERS k`; `none` is the `WRONGTYPE` error. -/
def Store.smembers (kv : Store) (k : String) : Option (List String) :=
  match kv k with
  | none => some []
  | some (.set ms) => some ms
  | some _ => none

/-- The error text of a command applied to a key of the wrong kind. -/
def wrongType : String :=
  "WRONGTYPE Operation against a key holding the wrong kind of value"

/-- The key `fmt.Sprintf("bot:config:%s", botID)`. -/
def configKey (botID : String) : String := "bot:config:" ++ botID

/-- The key `fmt.Sprintf("bot:token:%s", botToken)`. -/
def tokenKey (botToken : String) : String := "bot:token:" ++ botToken

/-- The key of the set of all bot ids. -/
def allKey : String := "bots:all"

/-! ## `manager/internal/storage/redis.go` -/

/-- The outcome of the three commands of `SaveBot`: `some err` is a command
that fails with `err` (and writes nothing). -/
structure SaveEnv where
  setConfig : Option String
  setToken : Option String
  sadd : Option String
deriving DecidableEq, Repr

/-- The function `RedisStorage.SaveBot` (lines 31-52): three commands one after the
other, each returning at its error; what was written before stays. -/
def RedisStorage.SaveBot (e : SaveEnv) (botConfig : BotConfig) (kv : Store) :
    Store × Option String :=
  match e.setConfig with
  | some err => (kv, some ("failed to save bot config: " ++ err))
  | none =>
    let kv1 := kv.put (configKey botConfig.botID) (.json botConfig)
    match e.setToken with
    | some err => (kv1, some ("failed to save token mapping: " ++ err))
    | none =>
      let kv2 := kv1.put (tokenKey botConfig.botToken) (.str botConfig.botID)
      match e.sadd with
      | some err => (kv2, some ("failed to add bot to list: " ++ err))
      | none =>
        match kv2.sadd allKey botConfig.botID with
        | none => (kv2, some ("failed to add bot to list: " ++ wrongType))
        | some kv3 => (kv3, none)

/-- The function `RedisStorage.GetBot` (lines 55-71); `get` is the transport error of the
`GET` command, if any. -/
def RedisStorage.GetBot (get : Option String) (botID : String) (kv : Store) :
    Except String BotConfig :=
  match get with
  | some err => .error ("failed to get bot config: " ++ err)
  | none =>
    match kv (configKey botID) with
    | none => .error "bot not found"
    | some (.json botConfig) => .ok botConfig
    | some (.str _) => .error "failed to unmarshal bot config: invalid character"
    | some (.set _) => .error ("failed to get bot config: " ++ wrongType)

/-- The function `RedisStorage.DeleteBot` (lines 74-85): one pipeline of `DEL`, `DEL`,
`SREM`.  `exec = some err` is a pipeline that could not be sent. -/
def RedisStorage.DeleteBot (exec : Option String) (botID botToken : String)
    (kv : Store) : Store × Option String :=
  match exec with
  | some err => (kv, some err)
  | none =>
    let kv2 := (kv.del (configKey botID)).del (tokenKey botToken)
    match kv2.srem allKey botID with
    | none => (kv2, some wrongType)
    | some kv3 => (kv3, none)

/-- The function `RedisStorage.ListBots` (lines 88-94). -/
def RedisStorage.ListBots (smembers : Option String) (kv : Store) :
    Except String (List String) :=
  match smembers with
  | some err => .error ("failed to list bots: " ++ err)
  | none =>
    match kv.smembers allKey with
    | none => .error ("failed to list bots: " ++ wrongType)
    | some ids => .ok ids

/-- The outcome of the commands of `UpdateBotStatus`. -/
structure StatusEnv where
  get : Option String
  save : SaveEnv
deriving DecidableEq, Repr

/-- The function `RedisStorage.UpdateBotStatus` (lines 96-104): load, set the status,
save. -/
def RedisStorage.UpdateBotStatus (e : StatusEnv) (botID status : String)
    (kv : Store) : Store × Option String :=
  match RedisStorage.GetBot e.get botID kv with
  | .error err => (kv, some err)
  | .ok botConfig => RedisStorage.SaveBot e.save { botConfig with status := status } kv

/-! ## The collaborators: state and trace -/

/-- A call that leaves the `Service`: a method of the storage, of the Kafka
admin or of the Telegram client, or a request to the Kubernetes API. -/
inductive Call
  | storageSaveBot (botConfig : BotConfig)
  | storageGetBot (botID : String)
  | storageUpdateBotStatus (botID status : String)
  | storageDeleteBot (botID botToken : String)
  | storageListBots
  | kafkaCreateTopics (botID : String)
  | kafkaDeleteTopics (botID : String)
  | k8sCreateSecret (name : String)
  | k8sCreateDeployment (name : String)
  | k8sCreateScaledObject (name : String)
  | k8sGetSecret (name : String)
  | k8sDeleteScaledObject (name : String)
  | k8sDeleteDeployment (name : String)
  | k8sDeleteSecret (name : String)
  | k8sGetScaledObject (name : String)
  | k8sPutScaledObject (name : String) (minReplicas maxReplicas : Option Int)
  | k8sGetDeployment (name : String)
  | tgSetWebhook (botToken webhookURL : String) (certificate : List Nat)
  | tgDeleteWebhook (botToken : String)
deriving DecidableEq, Repr

/-- The state of the four resource domains, and the calls made so far. -/
structure World where
  kv : Store
  topics : List String
  secrets : List String
  deployments : List String
  scaledObjects : List (String × Int × Int)
  webhooks : List (String × String)
  trace : List Call

/-- The world before anything happened. -/
def World.empty : World :=
  { kv := Store.empty, topics := [], secrets := [], deployments := [],
    scaledObjects := [], webhooks := [], trace := [] }

/-- Append a call to the trace. -/
def World.log (w : World) (c : Call) : World :=
  { w with trace := w.trace ++ [c] }

/-- Add a name to a set of names kept as a list. -/
def addName (n : String) (ns : List String) : List String :=
  if n ∈ ns then ns else ns ++ [n]

/-- Remove a name from a set of names kept as a list. -/
def removeName (n : String) (ns : List String) : List String :=
  ns.filter (fun x => x ≠ n)

/-! ### The storage, called by the service -/

/-- The call `s.storage.SaveBot(ctx, botConfig)`. -/
def World.saveBot (w : World) (e : SaveEnv) (botConfig : BotConfig) :
    World × Option String :=
  let r := RedisStorage.SaveBot e botConfig w.kv
  ({ w with kv := r.1, trace := w.trace ++ [.storageSaveBot botConfig] }, r.2)

/-- The call `s.storage.GetBot(ctx, botID)`. -/
def World.getBot (w : World) (get : Option String) (botID : String) :
    World × Except String BotConfig :=
  (w.log (.storageGetBot botID), RedisStorage.GetBot get botID w.kv)

/-- The call `s.storage.UpdateBotStatus(ctx, botID, status)`. -/
def World.updateBotStatus (w : World) (e : StatusEnv) (botID status : String) :
    World × Option String :=
  let r := RedisStorage.UpdateBotStatus e botID status w.kv
  ({ w with kv := r.1, trace := w.trace ++ [.storageUpdateBotStatus botID status] }, r.2)

/-- The call `s.storage.DeleteBot(ctx, botID, botToken)`. -/
def World.deleteBot (w : World) (exec : Option String) (botID botToken : String) :
    World × Option String :=
  let r := RedisStorage.DeleteBot exec botID botToken w.kv
  ({ w with kv := r.1, trace := w.trace ++ [.storageDeleteBot botID botToken] }, r.2)

/-- The call `s.storage.ListBots(ctx)`. -/
def World.listBots (w : World) (smembers : Option String) :
    World × Except String (List String) :=
  (w.log .storageListBots, RedisStorage.ListBots smembers w.kv)

/-! ## `manager/internal/kafka/admin.go` -/

/-- The topic `fmt.Sprintf("bot_%s_incoming", botID)`. -/
def incomingTopic (botID : String) : String := "bot_" ++ botID ++ "_incoming"

/-- The topic `fmt.Sprintf("bot_%s_outgoing", botID)`. -/
def outgoingTopic (botID : String) : String := "bot_" ++ botID ++ "_outgoing"

/-- The outcome of the four calls an admin method makes to the cluster: the
dial of the first broker, the controller lookup, the dial of the controller
and the request itself.  A failed call changes nothing on the cluster. -/
structure KafkaEnv where
  dial : Option String
  controller : Option String
  dialController : Option String
  request : Option String
deriving DecidableEq, Repr

/-- The function `Admin.CreateTopics` (lines 23-68). -/
def Admin.CreateTopics (e : KafkaEnv) (botID : String) (w : World) :
    World × Option String :=
  let w1 := w.log (.kafkaCreateTopics botID)
  match e.dial with
  | some err => (w1, some ("failed to dial kafka: " ++ err))
  | none =>
    match e.controller with
    | some err => (w1, some ("failed to get controller: " ++ err))
    | none =>
      match e.dialController with
      | some err => (w1, some ("failed to dial controller: " ++ err))
      | none =>
        match e.request with
        | some err => (w1, some ("failed to create topics: " ++ err))
        | none =>
          ({ w1 with topics :=
               addName (outgoingTopic botID) (addName (incomingTopic botID) w1.topics) },
           none)

/-- The function `Admin.DeleteTopics` (lines 70-102). -/
def Admin.DeleteTopics (e : KafkaEnv) (botID : String) (w : World) :
    World × Option String :=
  let w1 := w.log (.kafkaDeleteTopics botID)
  match e.dial with
  | some err => (w1, some ("failed to dial kafka: " ++ err))
  | none =>
    match e.controller with
    | some err => (w1, some ("failed to get controller: " ++ err))
    | none =>
      match e.dialController with
      | some err => (w1, some ("failed to dial controller: " ++ err))
      | none =>
        match e.request with
        | some err => (w1, some ("failed to delete topics: " ++ err))
        | none =>
          ({ w1 with topics :=
               removeName (outgoingTopic botID) (removeName (incomingTopic botID) w1.topics) },
           none)

/-! ## `manager/internal/kubernetes/{client,deployment,keda}.go` -/

/-- An error of the Kubernetes API, as far as the code tells errors apart
(`errors.IsAlreadyExists`, `errors.IsNotFound`). -/
inductive ApiError
  | alreadyExists
  | notFound
  | other (msg : String)
deriving DecidableEq, Repr

/-- The text of an API error. -/
def ApiError.msg : ApiError → String
  | .alreadyExists => "already exists"
  | .notFound => "not found"
  | .other m => m

/-- The name `fmt.Sprintf("bot-%s-secrets", botID)`. -/
def secretName (botID : String) : String := "bot-" ++ botID ++ "-secrets"

/-- The name `fmt.Sprintf("bot-%s", botID)`. -/
def deploymentName (botID : String) : String := "bot-" ++ botID

/-- The name `fmt.Sprintf("bot-%s-scaler", botID)`. -/
def scaledObjectName (botID : String) : String := "bot-" ++ botID ++ "-scaler"

/-- The function `Client.createSecret` (deployment.go, lines 32-64): an error other than
"already exists" is returned. -/
def Client.createSecret (r : Option ApiError) (botConfig : BotConfig) (w : World) :
    World × Option String :=
  let w1 := w.log (.k8sCreateSecret (secretName botConfig.botID))
  match r with
  | none => ({ w1 with secrets := addName (secretName botConfig.botID) w1.secrets }, none)
  | some .alreadyExists => (w1, none)
  | some err => (w1, some err.msg)

/-- The function `Client.createDeployment` (deployment.go, lines 66-227). -/
def Client.createDeployment (r : Option ApiError) (botConfig : BotConfig) (w : World) :
    World × Option String :=
  let w1 := w.log (.k8sCreateDeployment (deploymentName botConfig.botID))
  match r with
  | none =>
    ({ w1 with deployments := addName (deploymentName botConfig.botID) w1.deployments }, none)
  | some .alreadyExists => (w1, none)
  | some err => (w1, some err.msg)

/-- The outcome of the two requests of `CreateBotResources`, and of
`DeleteBotResources`. -/
structure ResourcesEnv where
  secret : Option ApiError
  deployment : Option ApiError
deriving DecidableEq, Repr

/-- The function `Client.CreateBotResources` (deployment.go, lines 16-30). -/
def Client.CreateBotResources (e : ResourcesEnv) (botConfig : BotConfig) (w : World) :
    World × Option String :=
  match Client.createSecret e.secret botConfig w with
  | (w1, some err) => (w1, some ("failed to create secret: " ++ err))
  | (w1, none) =>
    match Client.createDeployment e.deployment botConfig w1 with
    | (w2, some err) => (w2, some ("failed to create deployment: " ++ err))
    | (w2, none) => (w2, none)

/-- The function `Client.DeleteBotResources` (deployment.go, lines 229-246): the
deployment first; an error other than "not found" returns at once, so the
secret is then not removed. -/
def Client.DeleteBotResources (e : ResourcesEnv) (botID : String) (w : World) :
    World × Option String :=
  let w1 := w.log (.k8sDeleteDeployment (deploymentName botID))
  let afterDeployment : World × Option String :=
    match e.deployment with
    | none => ({ w1 with deployments := removeName (deploymentName botID) w1.deployments }, none)
    | some .notFound => (w1, none)
    | some err => (w1, some ("failed to delete deployment: " ++ err.msg))
  match afterDeployment with
  | (w2, some err) => (w2, some err)
  | (w2, none) =>
    let w3 := w2.log (.k8sDeleteSecret (secretName botID))
    match e.secret with
    | none => ({ w3 with secrets := removeName (secretName botID) w3.secrets }, none)
    | some .notFound => (w3, none)
    | some err => (w3, some ("failed to delete secret: " ++ err.msg))

/-- The function `Client.GetDeploymentStatus` (deployment.go, lines 249-258): the ready
replica count the API reports, or its error. -/
def Client.GetDeploymentStatus (r : Except String Int) (botID : String) (w : World) :
    World × Except String Int :=
  (w.log (.k8sGetDeployment (deploymentName botID)), r)

/-- The outcome of `GetSecret`: the error of the request, if any, and the
bytes under the key `ca.crt`, if the secret has that key. -/
structure SecretEnv where
  get : Option String
  caCrt : Option (List Nat)
deriving DecidableEq, Repr

/-- The function `Client.GetSecret` (client.go, lines 60-72). -/
def Client.GetSecret (e : SecretEnv) (name : String) (w : World) :
    World × Except String (List Nat) :=
  let w1 := w.log (.k8sGetSecret name)
  match e.get with
  | some err => (w1, .error ("failed to get secret " ++ name ++ ": " ++ err))
  | none =>
    match e.caCrt with
    | none => (w1, .error ("secret " ++ name ++ " does not contain \x27ca.crt\x27 key"))
    | some data => (w1, .ok data)

/-- The outcome of the steps of `CreateScaledObject`. -/
structure ScalerCreateEnv where
  parse : Option String
  execute : Option String
  unmarshal : Option String
  post : Option ApiError
deriving DecidableEq, Repr

/-- The function `Client.CreateScaledObject` (keda.go, lines 60-110). -/
def Client.CreateScaledObject (e : ScalerCreateEnv) (botConfig : BotConfig) (w : World) :
    World × Option String :=
  match e.parse with
  | some err => (w, some ("failed to parse template: " ++ err))
  | none =>
    match e.execute with
    | some err => (w, some ("failed to execute template: " ++ err))
    | none =>
      match e.unmarshal with
      | some err => (w, some ("failed to unmarshal yaml: " ++ err))
      | none =>
        let w1 := w.log (.k8sCreateScaledObject (scaledObjectName botConfig.botID))
        match e.post with
        | none =>
          ({ w1 with scaledObjects :=
               if (w1.scaledObjects.map Prod.fst).contains (scaledObjectName botConfig.botID)
               then w1.scaledObjects
               else w1.scaledObjects ++
                 [(scaledObjectName botConfig.botID, botConfig.minReplicas,
                   botConfig.maxReplicas)] },
           none)
        | some .alreadyExists => (w1, none)
        | some err => (w1, some ("failed to create scaledobject: " ++ err.msg))

/-- The function `Client.DeleteScaledObject` (keda.go, lines 113-131). -/
def Client.DeleteScaledObject (r : Option ApiError) (botID : String) (w : World) :
    World × Option String :=
  let w1 := w.log (.k8sDeleteScaledObject (scaledObjectName botID))
  match r with
  | none =>
    ({ w1 with scaledObjects :=
         w1.scaledObjects.filter (fun o => o.1 ≠ scaledObjectName botID) }, none)
  | some .notFound => (w1, none)
  | some err => (w1, some ("failed to delete scaledobject: " ++ err.msg))

/-- The outcome of the steps of `UpdateScaledObject`. -/
structure ScalerUpdateEnv where
  get : Option String
  raw : Option String
  unmarshal : Option String
  specFound : Bool
  setSpec : Option String
  marshal : Option String
  put : Option String
deriving DecidableEq, Repr

/-- The function `Client.UpdateScaledObject` (keda.go, lines 134-197): read the object,
overwrite the bounds that are given, write it back. -/
def Client.UpdateScaledObject (e : ScalerUpdateEnv) (botID : String)
    (minReplicas maxReplicas : Option Int) (w : World) : World × Option String :=
  let w1 := w.log (.k8sGetScaledObject (scaledObjectName botID))
  match e.get with
  | some err => (w1, some ("failed to get scaledobject: " ++ err))
  | none =>
    match e.raw with
    | some err => (w1, some ("failed to get raw body: " ++ err))
    | none =>
      match e.unmarshal with
      | some err => (w1, some ("failed to unmarshal scaledobject: " ++ err))
      | none =>
        if e.specFound = false then (w1, some "spec not found in scaledobject")
        else
          match e.setSpec with
          | some err => (w1, some ("failed to set spec: " ++ err))
          | none =>
            match e.marshal with
            | some err => (w1, some ("failed to marshal updated object: " ++ err))
            | none =>
              let w2 := w1.log
                (.k8sPutScaledObject (scaledObjectName botID) minReplicas maxReplicas)
              match e.put with
              | some err => (w2, some ("failed to update scaledobject: " ++ err))
              | none =>
                ({ w2 with scaledObjects := w2.scaledObjects.map (fun o =>
                     if o.1 = scaledObjectName botID
                     then (o.1, minReplicas.getD o.2.1, maxReplicas.getD o.2.2)
                     else o) },
                 none)

/-! ## `manager/internal/telegram/webhook.go` -/

/-- The function `Client.SetWebhook` (lines 31-78); `r` is the error it returns, if any. -/
def Telegram.SetWebhook (r : Option String) (botToken webhookURL : String)
    (certificate : List Nat) (w : World) : World × Option String :=
  let w1 := w.log (.tgSetWebhook botToken webhookURL certificate)
  match r with
  | some err => (w1, some err)
  | none =>
    ({ w1 with webhooks :=
         w1.webhooks.filter (fun h => h.1 ≠ botToken) ++ [(botToken, webhookURL)] }, none)

/-- The function `Client.DeleteWebhook` (lines 81-115); `r` is the error it returns, if
any. -/
def Telegram.DeleteWebhook (r : Option String) (botToken : String) (w : World) :
    World × Option String :=
  let w1 := w.log (.tgDeleteWebhook botToken)
  match r with
  | some err => (w1, some err)
  | none => ({ w1 with webhooks := w1.webhooks.filter (fun h => h.1 ≠ botToken) }, none)

/-! ## `manager/internal/bot/service.go` -/

/-- The configuration of the service (`bot.Service`); its collaborators are
in the `World`. -/
structure Service where
  gatewayURL : String
  kafkaBrokers : String
  tlsCaSecretName : String
deriving DecidableEq, Repr

/-- Everything `CreateBot` takes from outside: the 8 random bytes, the two
readings of the clock and the outcome of each call to a collaborator. -/
structure CreateEnv where
  rnd : List Nat
  createdAt : Nat
  updatedAt : Nat
  save : SaveEnv
  topics : KafkaEnv
  resources : ResourcesEnv
  scaler : ScalerCreateEnv
  caSecret : SecretEnv
  setWebhook : Option String
  status : StatusEnv
deriving DecidableEq, Repr

/-- The test `strings.HasPrefix(s.gatewayURL, "https://")`. -/
def Service.isHttps (s : Service) : Bool :=
  "https://".data.isPrefixOf s.gatewayURL.data

/-- The record `CreateBot` builds from the request (lines 59-70). -/
def newBotConfig (e : CreateEnv) (req : CreateBotRequest) : BotConfig :=
  { botID := generateBotID e.rnd
    botToken := req.botToken
    botName := req.botName
    workerImage := req.workerImage
    minReplicas := req.minReplicas
    maxReplicas := req.maxReplicas
    envVars := req.envVars
    createdAt := e.createdAt
    updatedAt := e.updatedAt
    status := "creating" }

/-- The webhook step of `CreateBot` (lines 95-113): nothing is called unless
the gateway URL starts with `https://`; the errors are only logged. -/
def Service.registerWebhook (s : Service) (e : CreateEnv) (req : CreateBotRequest)
    (webhookURL : String) (w : World) : World :=
  if s.isHttps then
    let fetched : World × List Nat :=
      if s.tlsCaSecretName ≠ "" then
        match Client.GetSecret e.caSecret s.tlsCaSecretName w with
        | (w1, .ok caCert) => (w1, caCert)
        | (w1, .error _) => (w1, [])
      else (w, [])
    (Telegram.SetWebhook e.setWebhook req.botToken webhookURL fetched.2 fetched.1).1
  else w

/-- The function `Service.CreateBot` (lines 52-131). -/
def Service.CreateBot (s : Service) (e : CreateEnv) (req : CreateBotRequest) (w : World) :
    World × Except String CreateBotResponse :=
  let botID := generateBotID e.rnd
  match validateCreateRequest req with
  | some err => (w, .error ("invalid request: " ++ err))
  | none =>
    let botConfig := newBotConfig e req
    match w.saveBot e.save botConfig with
    | (w1, some err) => (w1, .error ("failed to save bot config: " ++ err))
    | (w1, none) =>
      match Admin.CreateTopics e.topics botID w1 with
      | (w2, some err) =>
        ((w2.updateBotStatus e.status botID "failed").1,
         .error ("failed to create kafka topics: " ++ err))
      | (w2, none) =>
        match Client.CreateBotResources e.resources botConfig w2 with
        | (w3, some err) =>
          ((w3.updateBotStatus e.status botID "failed").1,
           .error ("failed to create k8s resources: " ++ err))
        | (w3, none) =>
          match Client.CreateScaledObject e.scaler botConfig w3 with
          | (w4, some err) =>
            ((w4.updateBotStatus e.status botID "failed").1,
             .error ("failed to create scaledobject: " ++ err))
          | (w4, none) =>
            let webhookURL := s.gatewayURL ++ "/webhook/" ++ req.botToken
            let w5 := s.registerWebhook e req webhookURL w4
            let w6 := (w5.updateBotStatus e.status botID "running").1
            (w6, .ok
              { botID := botID
                status := "created"
                kafkaTopics :=
                  { incoming := incomingTopic botID, outgoing := outgoingTopic botID }
                webhookURL := webhookURL })

/-- The outcome of each call `DeleteBot` makes. -/
structure DeleteEnv where
  get : Option String
  status : StatusEnv
  deleteWebhook : Option String
  scaler : Option ApiError
  resources : ResourcesEnv
  topics : KafkaEnv
  exec : Option String
deriving DecidableEq, Repr

/-- The function `Service.DeleteBot` (lines 133-167): only the first load and the last
removal return an error; the steps between them are logged. -/
def Service.DeleteBot (_s : Service) (e : DeleteEnv) (botID : String) (w : World) :
    World × Option String :=
  match w.getBot e.get botID with
  | (w0, .error err) => (w0, some ("bot not found: " ++ err))
  | (w0, .ok botConfig) =>
    let w1 := (w0.updateBotStatus e.status botID "deleting").1
    let w2 := (Telegram.DeleteWebhook e.deleteWebhook botConfig.botToken w1).1
    let w3 := (Client.DeleteScaledObject e.scaler botID w2).1
    let w4 := (Client.DeleteBotResources e.resources botID w3).1
    let w5 := (Admin.DeleteTopics e.topics botID w4).1
    match w5.deleteBot e.exec botID botConfig.botToken with
    | (w6, some err) => (w6, some ("failed to delete bot from storage: " ++ err))
    | (w6, none) => (w6, none)

/-- The outcome of each call `GetBot` makes. -/
structure GetEnv where
  get : Option String
  deployment : Except String Int

/-- The function `Service.GetBot` (lines 170-197). -/
def Service.GetBot (_s : Service) (e : GetEnv) (botID : String) (w : World) :
    World × Except String BotStatusResponse :=
  match w.getBot e.get botID with
  | (w1, .error err) => (w1, .error err)
  | (w1, .ok botConfig) =>
    let r := Client.GetDeploymentStatus e.deployment botID w1
    let currentReplicas : Int :=
      match r.2 with
      | .ok n => n
      | .error _ => 0
    (r.1, .ok
      { botID := botConfig.botID
        botName := botConfig.botName
        status := botConfig.status
        replicas :=
          { current := currentReplicas
            min := botConfig.minReplicas
            max := botConfig.maxReplicas }
        kafkaLag := 0
        createdAt := botConfig.createdAt })

/-- The outcome of each call `UpdateReplicas` makes, and its reading of the
clock. -/
structure UpdateEnv where
  get : Option String
  updatedAt : Nat
  save : SaveEnv
  scaler : ScalerUpdateEnv
deriving DecidableEq, Repr

/-- The record `UpdateReplicas` saves (lines 205-212): a bound that is not
`nil` replaces the stored one, then `UpdatedAt` is set. -/
def applyReplicas (e : UpdateEnv) (req : UpdateReplicasRequest) (botConfig : BotConfig) :
    BotConfig :=
  let botConfig1 : BotConfig :=
    match req.minReplicas with
    | some m => { botConfig with minReplicas := m }
    | none => botConfig
  let botConfig2 : BotConfig :=
    match req.maxReplicas with
    | some m => { botConfig1 with maxReplicas := m }
    | none => botConfig1
  { botConfig2 with updatedAt := e.updatedAt }

/-- The function `Service.UpdateReplicas` (lines 199-224). -/
def Service.UpdateReplicas (_s : Service) (e : UpdateEnv) (botID : String)
    (req : UpdateReplicasRequest) (w : World) : World × Option String :=
  match w.getBot e.get botID with
  | (w0, .error err) => (w0, some err)
  | (w0, .ok botConfig) =>
    match w0.saveBot e.save (applyReplicas e req botConfig) with
    | (w1, some err) => (w1, some ("failed to save bot config: " ++ err))
    | (w1, none) =>
      match Client.UpdateScaledObject e.scaler botID req.minReplicas req.maxReplicas w1 with
      | (w2, some err) => (w2, some ("failed to update scaledobject: " ++ err))
      | (w2, none) => (w2, none)

/-- The function `Service.ListBots` (lines 226-243); `each` gives the outcome of the
`GetBot` of each id. -/
def Service.ListBots (s : Service) (smembers : Option String) (each : String → GetEnv)
    (w : World) : World × Except String (List BotStatusResponse) :=
  match w.listBots smembers with
  | (w1, .error err) => (w1, .error err)
  | (w1, .ok botIDs) =>
    let r := botIDs.foldl
      (fun (acc : World × List BotStatusResponse) botID =>
        match s.GetBot (each botID) botID acc.1 with
        | (w2, .error _) => (w2, acc.2)
        | (w2, .ok bot) => (w2, acc.2 ++ [bot]))
      (w1, [])
    (r.1, .ok r.2)

/-! ## `manager/internal/handlers/handlers.go` -/

/-- The JSON body of an answer. -/
inductive Body
  | error (msg : String)
  | message (msg : String)
  | created (r : CreateBotResponse)
  | bot (r : BotStatusResponse)
  | bots (rs : List BotStatusResponse)
deriving DecidableEq, Repr

/-- An HTTP answer: status code and body. -/
structure HttpResponse where
  status : Nat
  body : Body
deriving DecidableEq, Repr

/-- The function `Handlers.CreateBot` (lines 23-36); `body = none` is a body that
`BodyParser` rejects. -/
def Handlers.CreateBot (s : Service) (e : CreateEnv) (body : Option CreateBotRequest)
    (w : World) : World × HttpResponse :=
  match body with
  | none => (w, { status := 400, body := .error "invalid request body" })
  | some req =>
    match s.CreateBot e req w with
    | (w1, .error err) => (w1, { status := 500, body := .error err })
    | (w1, .ok response) => (w1, { status := 201, body := .created response })

/-- The function `Handlers.GetBot` (lines 39-49). -/
def Handlers.GetBot (s : Service) (e : GetEnv) (botID : String) (w : World) :
    World × HttpResponse :=
  match s.GetBot e botID w with
  | (w1, .error _) => (w1, { status := 404, body := .error "bot not found" })
  | (w1, .ok response) => (w1, { status := 200, body := .bot response })

/-- The function `Handlers.DeleteBot` (lines 52-61). -/
def Handlers.DeleteBot (s : Service) (e : DeleteEnv) (botID : String) (w : World) :
    World × HttpResponse :=
  match s.DeleteBot e botID w with
  | (w1, some err) => (w1, { status := 500, body := .error err })
  | (w1, none) => (w1, { status := 200, body := .message "bot deleted" })

/-- The function `Handlers.UpdateReplicas` (lines 64-78); `body = none` is a body that
`BodyParser` rejects. -/
def Handlers.UpdateReplicas (s : Service) (e : UpdateEnv) (botID : String)
    (body : Option UpdateReplicasRequest) (w : World) : World × HttpResponse :=
  match body with
  | none => (w, { status := 400, body := .error "invalid request body" })
  | some req =>
    match s.UpdateReplicas e botID req w with
    | (w1, some err) => (w1, { status := 500, body := .error err })
    | (w1, none) => (w1, { status := 200, body := .message "replicas updated" })

/-- The function `Handlers.ListBots` (lines 81-89). -/
def Handlers.ListBots (s : Service) (smembers : Option String) (each : String → GetEnv)
    (w : World) : World × HttpResponse :=
  match s.ListBots smembers each w with
  | (w1, .error _) => (w1, { status := 500, body := .error "failed to list bots" })
  | (w1, .ok bots) => (w1, { status := 200, body := .bots bots })

/-! ## Sequences of operations -/

/-- One call of the manager, with everything it takes from outside. -/
inductive Op
  | create (e : CreateEnv) (req : CreateBotRequest)
  | delete (e : DeleteEnv) (botID : String)
  | updateReplicas (e : UpdateEnv) (botID : String) (req : UpdateReplicasRequest)
  | updateStatus (e : StatusEnv) (botID status : String)
deriving DecidableEq, Repr

/-- The world after one call. -/
def Service.step (s : Service) (w : World) : Op → World
  | .create e req => (s.CreateBot e req w).1
  | .delete e botID => (s.DeleteBot e botID w).1
  | .updateReplicas e botID req => (s.UpdateReplicas e botID req w).1
  | .updateStatus e botID status => (w.updateBotStatus e botID status).1

/-- The world after a sequence of calls. -/
def Service.run (s : Service) : World → List Op → World
  | w, [] => w
  | w, op :: ops => Service.run s (s.step w op) ops

/-- The calls `CreateBot`, `DeleteBot` and `UpdateReplicas` (the operations
of the HTTP interface that write). -/
def Op.isApi : Op → Bool
  | .create _ _ => true
  | .delete _ _ => true
  | .updateReplicas _ _ _ => true
  | .updateStatus _ _ _ => false

/-! ## The properties of the store -/

/-- The members of `bots:all`. -/
def Store.members (kv : Store) : List String := (kv.smembers allKey).getD []

/-- The token index points to every record that is being created or is
running: `TokenIndex[record.bot_token] = record.bot_id`. -/
def TokenIndexHolds (kv : Store) : Prop :=
  ∀ id cfg, kv (configKey id) = some (.json cfg) →
    (cfg.status = "creating" ∨ cfg.status = "running") →
    kv (tokenKey cfg.botToken) = some (.str cfg.botID)

/-- The bot set, the records and the token index agree: an id is in
`bots:all` exactly when its `bot:config:` key exists, no two token keys hold
the same id, and a token key holds the id of a record with that token. -/
def StoreConsistent (kv : Store) : Prop :=
  (∀ id, id ∈ kv.members ↔ (kv (configKey id)).isSome = true) ∧
  (∀ t1 t2 b, kv (tokenKey t1) = some (.str b) → kv (tokenKey t2) = some (.str b) →
    t1 = t2) ∧
  (∀ t b, kv (tokenKey t) = some (.str b) →
    ∃ cfg, kv (configKey b) = some (.json cfg) ∧ cfg.botToken = t)

/-- Every call of the sequence `ops`, run from `w`, satisfies `P` in the
world it starts from. -/
def Service.Admissible (s : Service) (P : World → Op → Prop) : World → List Op → Prop
  | _, [] => True
  | w, op :: ops => P w op ∧ Service.Admissible s P (s.step w op) ops

/-- The condition on a `CreateBot` call under which the token index is kept:
the write of the token key does not fail, and no record in the store has the
token of the request. -/
def TokenUnused (w : World) : Op → Prop
  | .create e req =>
    e.save.setToken = none ∧
    ∀ id cfg, w.kv (configKey id) = some (.json cfg) → cfg.botToken ≠ req.botToken
  | _ => True

/-- The condition on a `CreateBot` call under which the store stays
consistent: the writes of the token key and of the bot set do not fail, and
the generated id is not yet a key of the store. -/
def SavedWhole (w : World) : Op → Prop
  | .create e _ =>
    e.save.setToken = none ∧ e.save.sadd = none ∧
    w.kv (configKey (generateBotID e.rnd)) = none
  | _ => True

/-! ## Concrete inputs -/

/-- A `SaveBot` whose three commands succeed. -/
def okSave : SaveEnv := { setConfig := none, setToken := none, sadd := none }

/-- An admin call whose four steps succeed. -/
def okKafka : KafkaEnv :=
  { dial := none, controller := none, dialController := none, request := none }

/-- A status update whose commands succeed. -/
def okStatus : StatusEnv := { get := none, save := okSave }

/-- A `CreateBot` in which every collaborator succeeds, with the random
bytes `rnd`. -/
def okCreate (rnd : List Nat) : CreateEnv :=
  { rnd := rnd, createdAt := 100, updatedAt := 100, save := okSave, topics := okKafka,
    resources := { secret := none, deployment := none },
    scaler := { parse := none, execute := none, unmarshal := none, post := none },
    caSecret := { get := none, caCrt := some [] },
    setWebhook := none, status := okStatus }

/-- A `DeleteBot` in which every collaborator succeeds. -/
def okDelete : DeleteEnv :=
  { get := none, status := okStatus, deleteWebhook := none, scaler := none,
    resources := { secret := none, deployment := none }, topics := okKafka, exec := none }

/-- An `UpdateReplicas` in which every collaborator succeeds. -/
def okUpdate : UpdateEnv :=
  { get := none, updatedAt := 200, save := okSave,
    scaler := { get := none, raw := none, unmarshal := none, specFound := true,
                setSpec := none, marshal := none, put := none } }

/-- A service behind a public gateway, without a CA secret. -/
def demoService : Service :=
  { gatewayURL := "https://gw.example", kafkaBrokers := "kafka:9092", tlsCaSecretName := "" }

/-- The request of the scenario "happy create". -/
def demoRequest : CreateBotRequest :=
  { botToken := "T", botName := "N", workerImage := "img:1", minReplicas := 1,
    maxReplicas := 3, envVars := [] }

/-- Two lists of random bytes and the ids made from them. -/
def rndA : List Nat := [0, 0, 0, 0, 0, 0, 0, 10]

/-- The second list of random bytes. -/
def rndB : List Nat := [0, 0, 0, 0, 0, 0, 0, 11]

/-- The id made from `rndA`. -/
def idA : String := "bot_000000000000000a"

/-- The id made from `rndB`. -/
def idB : String := "bot_000000000000000b"

/-- A `CreateBot` in which topic creation fails and the status update cannot
load the record. -/
def topicsFailEnv : CreateEnv :=
  { okCreate rndA with
    topics := { okKafka with request := some "boom" }
    status := { get := some "timeout", save := okSave } }

/-- A `CreateBot` in which topic creation fails and nothing else. -/
def topicsOnlyFailEnv : CreateEnv :=
  { okCreate rndA with topics := { okKafka with request := some "boom" } }

/-- A `CreateBot` in which only the last status update fails. -/
def statusFailEnv : CreateEnv :=
  { okCreate rndA with status := { get := some "timeout", save := okSave } }

/-- A `CreateBot` whose write of the token key fails. -/
def tokenFailEnv : CreateEnv :=
  { okCreate rndA with save := { okSave with setToken := some "timeout" } }

/-- The request `demoRequest` with another token. -/
def otherRequest : CreateBotRequest := { demoRequest with botToken := "U" }

/-- A `CreateBot` whose `SADD` fails. -/
def saddFailEnv : CreateEnv :=
  { okCreate rndA with save := { okSave with sadd := some "timeout" } }

/-- A `DeleteBot` whose first load fails in transport. -/
def getFailDelete : DeleteEnv := { okDelete with get := some "timeout" }

/-- A `DeleteBot` in which the deletion of the deployment fails. -/
def deploymentFailDelete : DeleteEnv :=
  { okDelete with resources := { secret := none, deployment := some (.other "boom") } }

/-- A `DeleteBot` in which the admin cannot reach the brokers. -/
def topicsFailDelete : DeleteEnv :=
  { okDelete with topics := { okKafka with dial := some "refused" } }

/-- The record `CreateBot` writes for `demoRequest` and `rndA`, with the
given status. -/
def recordA (status : String) : BotConfig :=
  { botID := idA, botToken := "T", botName := "N", workerImage := "img:1",
    minReplicas := 1, maxReplicas := 3, envVars := [], createdAt := 100,
    updatedAt := 100, status := status }

/-- The answer of `CreateBot` for `demoRequest` and `rndA`. -/
def responseA : CreateBotResponse :=
  { botID := idA, status := "created",
    kafkaTopics := { incoming := "bot_bot_000000000000000a_incoming",
                     outgoing := "bot_bot_000000000000000a_outgoing" },
    webhookURL := "https://gw.example/webhook/T" }

/-- The world after the bot of `demoRequest` was created without any
failure. -/
def worldA : World := (demoService.CreateBot (okCreate rndA) demoRequest World.empty).1

/-- A valid request with the bounds (0, 1). -/
def narrowRequest : CreateBotRequest := { demoRequest with minReplicas := 0, maxReplicas := 1 }

/-- The body `{"min_replicas": 5}`. -/
def raiseMin : UpdateReplicasRequest := { minReplicas := some 5, maxReplicas := none }

/-- The body `{"max_replicas": 5}` of the scenario "replica update". -/
def raiseMax : UpdateReplicasRequest := { minReplicas := none, maxReplicas := some 5 }

/-- A `CreateBot` in which the CA-certificate fetch and `setWebhook` fail. -/
def webhookFailEnv : CreateEnv :=
  { okCreate rndA with
    caSecret := { get := some "forbidden", caCrt := none }
    setWebhook := some "failed to set webhook: Unauthorized" }

/-- An `UpdateReplicas` in which the autoscaler cannot be read. -/
def patchFailUpdate : UpdateEnv :=
  { okUpdate with scaler := { okUpdate.scaler with get := some "boom" } }

/-- A `GetBot` whose load succeeds and whose workload has two ready
replicas. -/
def readyGet : GetEnv := { get := none, deployment := .ok 2 }

/-- The status of the bot of `demoRequest` after `raiseMax`. -/
def statusA : BotStatusResponse :=
  { botID := idA, botName := "N", status := "running",
    replicas := { current := 2, min := 1, max := 5 }, kafkaLag := 0, createdAt := 100 }

/-- A service behind a public gateway that passes a CA certificate. -/
def tlsService : Service :=
  { gatewayURL := "https://gw.example", kafkaBrokers := "kafka:9092",
    tlsCaSecretName := "gateway-ca" }

/-- Every record is stored under its own id and indexed by its token. -/
def RecordsIndexed (kv : Store) : Prop :=
  ∀ id cfg, kv (configKey id) = some (.json cfg) →
    cfg.botID = id ∧ kv (tokenKey cfg.botToken) = some (.str id)

/-- The form of `StoreConsistent` that every step keeps: the bot set and the
records agree, a token key holds the id of a record with that token, a record
is stored under its own id, and `bots:all` is a set. -/
def StoreWellFormed (kv : Store) : Prop :=
  (∀ id, id ∈ kv.members ↔ (kv (configKey id)).isSome = true) ∧
  (∀ t b, kv (tokenKey t) = some (.str b) →
    ∃ cfg, kv (configKey b) = some (.json cfg) ∧ cfg.botToken = t) ∧
  (∀ id cfg, kv (configKey id) = some (.json cfg) → cfg.botID = id) ∧
  (kv.smembers allKey).isSome = true

/-! ## The gateway: strings that are sliced

Where the gateway slices a string by byte offsets (`maskToken`,
`GetAllOutgoingTopics`) the string is the list of its bytes, an index is an
`Int` as in Go, and a slice expression that is out of range (a run-time panic)
is `none`. -/

/-- The bytes of an ASCII literal. -/
def ascii (s : String) : List Nat := s.data.map Char.toNat

/-- The slice expression `s[lo:hi]` of Go; `none` is the panic of an index out
of range. -/
def goSlice (s : List Nat) (lo hi : Int) : Option (List Nat) :=
  if 0 ≤ lo ∧ lo ≤ hi ∧ hi ≤ (s.length : Int) then
    some ((s.take hi.toNat).drop lo.toNat)
  else none

/-- The function `maskToken` (`tg_gateway/internal/webhook/handler.go`, lines
75-80); `none` is a panic. -/
def Gateway.maskToken (token : List Nat) : Option (List Nat) :=
  if (token.length : Int) < 10 then some (ascii "***")
  else
    match goSlice token 0 5 with
    | none => none
    | some head =>
      match goSlice token ((token.length : Int) - 5) token.length with
      | none => none
      | some tail => some (head ++ ascii "***" ++ tail)

/-- The test of line 97 of `tg_gateway/internal/kafka/consumer.go`:
`len(topic) > 8 && topic[:4] == "bot_" && topic[len(topic)-9:] == "_outgoing"`,
with the short-circuit evaluation of `&&`; `none` is a panic. -/
def Gateway.isOutgoingTopic (topic : List Nat) : Option Bool :=
  if (topic.length : Int) > 8 then
    match goSlice topic 0 4 with
    | none => none
    | some head =>
      if head = ascii "bot_" then
        match goSlice topic ((topic.length : Int) - 9) topic.length with
        | none => none
        | some tail => some (decide (tail = ascii "_outgoing"))
      else some false
  else some false

/-- The loop of lines 94-100: the topics that pass the test are put into
`topicMap`.  The map is kept as the list of its keys, a key being added at its
first occurrence; `none` is a panic. -/
def Gateway.collectOutgoing : List (List Nat) → List (List Nat) → Option (List (List Nat))
  | [], topicMap => some topicMap
  | topic :: partitions, topicMap =>
    match Gateway.isOutgoingTopic topic with
    | none => none
    | some true =>
      Gateway.collectOutgoing partitions
        (if topic ∈ topicMap then topicMap else topicMap ++ [topic])
    | some false => Gateway.collectOutgoing partitions topicMap

/-- The outcome of the two calls of `GetAllOutgoingTopics` to the cluster, and
the topic of each partition that `ReadPartitions` returns. -/
structure ListingEnv where
  dial : Option String
  readPartitions : Option String
  partitions : List (List Nat)
deriving DecidableEq, Repr

/-- The function `TopicManager.GetAllOutgoingTopics` (consumer.go, lines
82-109).  Go ranges over `topicMap` in an order that is not specified; the
list returned here is one such order.  `none` is a panic. -/
def Gateway.TopicManager.GetAllOutgoingTopics (e : ListingEnv) :
    Option (Except String (List (List Nat))) :=
  match e.dial with
  | some err => some (.error ("failed to dial kafka: " ++ err))
  | none =>
    match e.readPartitions with
    | some err => some (.error ("failed to read partitions: " ++ err))
    | none =>
      match Gateway.collectOutgoing e.partitions [] with
      | none => none
      | some topics => some (.ok topics)

/-- The name starts with `bot_` (`strings.HasPrefix`). -/
def startsWithBot (topic : List Nat) : Bool := (ascii "bot_").isPrefixOf topic

/-- The name ends with `_outgoing` (`strings.HasSuffix`). -/
def endsWithOutgoing (topic : List Nat) : Bool := (ascii "_outgoing").isSuffixOf topic

/-! ## Decimal numbers -/

/-- The verb `%d` of `fmt.Sprintf` on an integer. -/
def sprintfD : Int → String
  | .ofNat m => Nat.repr m
  | .negSucc m => "-" ++ Nat.repr (m + 1)

/-- The value of a string of decimal digits read after the value `acc`;
`none` when a character is not a digit. -/
def parseDigits : Nat → List Char → Option Nat
  | acc, [] => some acc
  | acc, c :: cs =>
    if 48 ≤ c.toNat ∧ c.toNat ≤ 57 then parseDigits (10 * acc + (c.toNat - 48)) cs else none

/-- The reading of a decimal integer, as `strconv.Atoi` does it for a string
with an optional minus sign: `none` is a string that is not a number. -/
def parseDecimal (s : String) : Option Int :=
  match s.data with
  | [] => none
  | '-' :: cs =>
    if cs = [] then none
    else
      match parseDigits 0 cs with
      | some n => some (-(n : Int))
      | none => none
  | cs =>
    match parseDigits 0 cs with
    | some n => some (n : Int)
    | none => none

/-! ## `tg_gateway/internal/storage/redis.go` -/

/-- The command `GET k`, as `Result()` returns it: the string the key holds,
`redis: nil` for a key that does not exist, the `WRONGTYPE` error for a key
that holds a set.  `encode` is the text of a record (`json.Marshal`), which
is what a key written by `SaveBot` holds. -/
def Store.get (encode : BotConfig → String) (kv : Store) (k : String) :
    Except String String :=
  match kv k with
  | none => .error "redis: nil"
  | some (.str s) => .ok s
  | some (.json cfg) => .ok (encode cfg)
  | some (.set _) => .error wrongType

/-- The function `RedisStorage.GetBotIDByToken` of the gateway (lines 29-36);
`get` is the transport error of the command, if any. -/
def Gateway.RedisStorage.GetBotIDByToken (encode : BotConfig → String)
    (get : Option String) (token : String) (kv : Store) : Except String String :=
  match get with
  | some err => .error ("failed to get bot_id for token: " ++ err)
  | none =>
    match Store.get encode kv (tokenKey token) with
    | .error err => .error ("failed to get bot_id for token: " ++ err)
    | .ok botID => .ok botID

/-! ## `tg_gateway/internal/kafka/producer.go` and `webhook/handler.go`

The declarations of `models.TelegramUpdate` and `models.IncomingMessage` of
the gateway are not among the sources.  The handler reads one field of the
update, `UpdateID`, and prints it with `%d`; the rest of the update is kept
as `content`. -/

/-- The type `models.TelegramUpdate`, as far as the handler uses it. -/
structure TelegramUpdate where
  updateID : Int
  content : String
deriving DecidableEq, Repr

/-- The type `models.IncomingMessage`: the literal of lines 52-55. -/
structure IncomingMessage where
  botID : String
  update : TelegramUpdate
deriving DecidableEq, Repr

/-- The `kafka.Message` built by `PublishMessage` (lines 42-47); `value`
stands for the bytes `json.Marshal` gives for it. -/
structure KafkaMessage where
  topic : String
  key : String
  value : IncomingMessage
  time : Nat
deriving DecidableEq, Repr

/-- A call of `PublishMessage`, with its arguments. -/
structure PublishCall where
  topic : String
  key : String
  value : IncomingMessage
deriving DecidableEq, Repr

/-- What the gateway handler works on: the store it reads, the calls of
`PublishMessage` made so far and the messages the writer has accepted. -/
structure GatewayWorld where
  kv : Store
  publishCalls : List PublishCall
  written : List KafkaMessage

/-- The outcome of the steps of `PublishMessage`: `json.Marshal`, the clock,
`WriteMessages`. -/
structure PublishEnv where
  marshal : Option String
  now : Nat
  write : Option String
deriving DecidableEq, Repr

/-- The function `Producer.PublishMessage` (lines 36-54).  A write that fails
leaves the writer as it was. -/
def Producer.PublishMessage (e : PublishEnv) (topic key : String) (value : IncomingMessage)
    (w : GatewayWorld) : GatewayWorld × Option String :=
  let w1 : GatewayWorld :=
    { w with publishCalls := w.publishCalls ++ [{ topic := topic, key := key, value := value }] }
  match e.marshal with
  | some err => (w1, some ("failed to marshal message: " ++ err))
  | none =>
    let msg : KafkaMessage := { topic := topic, key := key, value := value, time := e.now }
    match e.write with
    | some err => (w1, some ("failed to write message to kafka: " ++ err))
    | none => ({ w1 with written := w1.written ++ [msg] }, none)

/-- The outcome of the calls of `HandleWebhook`. -/
structure WebhookEnv where
  get : Option String
  publish : PublishEnv
deriving DecidableEq, Repr

/-- An answer sent with `SendString`: status code and text. -/
structure TextResponse where
  status : Nat
  body : String
deriving DecidableEq, Repr

/-- The function `Handler.HandleWebhook` (lines 30-73); `botToken` is the path
parameter, `body = none` is a body that `BodyParser` rejects. -/
def Handler.HandleWebhook (encode : BotConfig → String) (e : WebhookEnv) (botToken : String)
    (body : Option TelegramUpdate) (w : GatewayWorld) : GatewayWorld × TextResponse :=
  if botToken = "" then (w, { status := 400, body := "bot_token is required" })
  else
    match body with
    | none => (w, { status := 400, body := "invalid json" })
    | some update =>
      match Gateway.RedisStorage.GetBotIDByToken encode e.get botToken w.kv with
      | .error _ => (w, { status := 404, body := "bot not found" })
      | .ok botID =>
        let incomingMsg : IncomingMessage := { botID := botID, update := update }
        let topic := "bot_" ++ botID ++ "_incoming"
        let key := sprintfD update.updateID
        match Producer.PublishMessage e.publish topic key incomingMsg w with
        | (w1, some _) => (w1, { status := 500, body := "internal error" })
        | (w1, none) => (w1, { status := 200, body := "ok" })

/-- The entry `TokenIndex[token]`: the string the key `bot:token:<token>`
holds, `none` when the token is not in the index. -/
def tokenIndex (encode : BotConfig → String) (kv : Store) (token : String) : Option String :=
  match kv (tokenKey token) with
  | some (.str s) => some s
  | some (.json cfg) => some (encode cfg)
  | _ => none

/-- A publish whose steps succeed. -/
def okPublish : PublishEnv := { marshal := none, now := 0, write := none }

/-- A publish refused by the writer. -/
def writeFailPublish : PublishEnv := { marshal := none, now := 0, write := some "closed" }

/-- A store whose token index holds the token `T` of the bot `bot_a`. -/
def indexStore : Store := Store.empty.put (tokenKey "T") (.str "bot_a")

/-- The gateway before any request, over `indexStore`. -/
def gatewayA : GatewayWorld := { kv := indexStore, publishCalls := [], written := [] }

/-- An update with the identifier 7. -/
def updateA : TelegramUpdate := { updateID := 7, content := "" }

/-- A text for records; no record is read in the examples. -/
def noEncode : BotConfig → String := fun _ => ""

/-- A request whose calls all succeed. -/
def okWebhook : WebhookEnv := { get := none, publish := okPublish }

/-- A request during which the store cannot be reached. -/
def downWebhook : WebhookEnv := { get := some "connection refused", publish := okPublish }

/-! ## `tg_gateway/internal/telegram/client.go` -/

/-- The package variable `apiResp` (lines 20-25): one value shared by every
call of `CallMethod`. -/
structure ApiResp where
  ok : Bool
  result : String
  description : String
  errorCode : Int
deriving DecidableEq, Repr

/-- The value of `apiResp` when the program starts. -/
def ApiResp.zero : ApiResp := { ok := false, result := "", description := "", errorCode := 0 }

/-- A typed member of the JSON body, as `json.Unmarshal` meets it: not in the
body (or `null`), a value of the type of the field, or a value of another
JSON type. -/
inductive Field (α : Type)
  | absent
  | value (a : α)
  | mismatch
deriving DecidableEq, Repr

/-- The body of an answer as `json.Unmarshal` reads it into `apiResp`: not
a JSON text or not an object (`invalid`, with the error), or an object with
its members `ok`, `result`, `description`, `error_code`.  The member `result`
is a `json.RawMessage`, which takes the text of any JSON value. -/
inductive Decoded
  | invalid (err : String)
  | object (ok : Field Bool) (result : Option String) (description : Field String)
      (errorCode : Field Int)
deriving DecidableEq, Repr

/-- The value of a field after `json.Unmarshal`: only a member that is in the
body with a value of the right type is stored. -/
def Field.assign {α : Type} (f : Field α) (old : α) : α :=
  match f with
  | .value a => a
  | _ => old

/-- The member has a value of another JSON type. -/
def Field.isMismatch {α : Type} : Field α → Bool
  | .mismatch => true
  | _ => false

/-- The call `json.Unmarshal(respBody, &apiResp)` (line 75): a text that is
not an object is an error and stores nothing; in an object every member that
fits is stored, a member of the wrong type is skipped and reported at the
end; a field without a member keeps the value it had. -/
def unmarshalApiResp (d : Decoded) (g : ApiResp) : ApiResp × Option String :=
  match d with
  | .invalid err => (g, some err)
  | .object ok result description errorCode =>
    ({ ok := ok.assign g.ok
       result := result.getD g.result
       description := description.assign g.description
       errorCode := errorCode.assign g.errorCode },
     if ok.isMismatch || description.isMismatch || errorCode.isMismatch then
       some "json: cannot unmarshal into Go struct field"
     else none)

/-- An answer of the Bot API: status code and body. -/
structure HttpReply where
  statusCode : Int
  body : String
deriving DecidableEq, Repr

/-- A request sent to the Bot API. -/
structure HttpRequest where
  url : String
  body : String
deriving DecidableEq, Repr

/-- The outcome of the steps of `CallMethod`: `json.Marshal` of the
parameters, `http.NewRequest`, `httpClient.Do`, `io.ReadAll`. -/
structure CallEnv where
  marshal : Option String
  newRequest : Option String
  send : Except String HttpReply
  read : Option String

/-- What `CallMethod` works on: the package variable and the requests handed
to `httpClient.Do` so far. -/
structure TelegramState where
  apiResp : ApiResp
  requests : List HttpRequest
deriving DecidableEq, Repr

/-- The function `Client.CallMethod` of the gateway (lines 37-84); `params` is
the JSON text of the parameter map, `none` for a `nil` map; `decode` is the
reading of a body by `json.Unmarshal`. -/
def Gateway.Client.CallMethod (baseURL : String) (decode : String → Decoded) (e : CallEnv)
    (botToken method : String) (params : Option String) (st : TelegramState) :
    TelegramState × Except String String :=
  let url := baseURL ++ "/bot" ++ botToken ++ "/" ++ method
  let marshalled : Except String String :=
    match params with
    | none => .ok ""
    | some p =>
      match e.marshal with
      | some err => .error err
      | none => .ok p
  match marshalled with
  | .error err => (st, .error ("failed to marshal params: " ++ err))
  | .ok reqBody =>
    match e.newRequest with
    | some err => (st, .error ("failed to create request: " ++ err))
    | none =>
      let st1 : TelegramState :=
        { st with requests := st.requests ++ [{ url := url, body := reqBody }] }
      match e.send with
      | .error err => (st1, .error ("failed to execute request: " ++ err))
      | .ok resp =>
        match e.read with
        | some err => (st1, .error ("failed to read response: " ++ err))
        | none =>
          if resp.statusCode ≠ 200 then
            (st1, .error ("telegram handlers returned status " ++ sprintfD resp.statusCode ++
              ": " ++ resp.body))
          else
            match unmarshalApiResp (decode resp.body) st1.apiResp with
            | (g, some err) =>
              ({ st1 with apiResp := g }, .error ("failed to unmarshal response: " ++ err))
            | (g, none) =>
              if !g.ok then
                ({ st1 with apiResp := g },
                 .error ("telegram handlers error [" ++ sprintfD g.errorCode ++ "]: " ++
                   g.description))
              else ({ st1 with apiResp := g }, .ok g.result)

/-- The state before the first call. -/
def TelegramState.start : TelegramState := { apiResp := ApiResp.zero, requests := [] }

/-- A call that gets the answer `resp`. -/
def answered (resp : HttpReply) : CallEnv :=
  { marshal := none, newRequest := none, send := .ok resp, read := none }

/-- The body `\x7b"ok":true,"result":\x7b\x7d,"description":7\x7d`. -/
def oddBody : String := "\x7b\"ok\":true,\"result\":\x7b\x7d,\"description\":7\x7d"

/-- The body `\x7b"ok":true,"result":\x7b\x7d\x7d`. -/
def fineBody : String := "\x7b\"ok\":true,\"result\":\x7b\x7d\x7d"

/-- The reading of the two bodies above; every other text is taken as not
being JSON. -/
def demoDecode (body : String) : Decoded :=
  if body = oddBody then .object (.value true) (some "\x7b\x7d") .mismatch .absent
  else if body = fineBody then .object (.value true) (some "\x7b\x7d") .absent .absent
  else .invalid "invalid character"

/-! ## `tg_gateway/internal/kafka/consumer.go`: `ConsumeMessages` -/

/-- What one turn of the loop of `ConsumeMessages` meets: the context is
done, `FetchMessage` fails, or `FetchMessage` gives a message, whose
`CommitMessages` will have the outcome `commit`. -/
inductive Tick (μ : Type)
  | cancelled
  | fetchError (err : String)
  | message (msg : μ) (commit : Option String)
deriving DecidableEq, Repr

/-- What the loop does, in order: the log of a failed fetch, the sleep of one
second, a call of the handler (with the error it returned), a call of
`CommitMessages` (with its outcome). -/
inductive ConsumerEvent (μ : Type)
  | fetchFailed (err : String)
  | slept
  | handled (msg : μ) (err : Option String)
  | committed (msg : μ) (err : Option String)
deriving DecidableEq, Repr

/-- The function `Consumer.ConsumeMessages` (lines 33-64), run over the turns
of `script`: the state of the handler at the end, what the loop did, and the
value returned (`ctx.Err()`), `none` when the script ends with the loop still
running. -/
def Consumer.ConsumeMessages {σ μ : Type} (handler : μ → σ → σ × Option String) :
    List (Tick μ) → σ → σ × List (ConsumerEvent μ) × Option String
  | [], st => (st, [], none)
  | .cancelled :: _, st => (st, [], some "context canceled")
  | .fetchError err :: script, st =>
    let r := Consumer.ConsumeMessages handler script st
    (r.1, [.fetchFailed err, .slept] ++ r.2.1, r.2.2)
  | .message msg commit :: script, st =>
    let h := handler msg st
    let r := Consumer.ConsumeMessages handler script h.1
    (r.1, [.handled msg h.2, .committed msg commit] ++ r.2.1, r.2.2)

/-- The messages fetched before the context is done, each with the outcome of
its commit. -/
def fetched {μ : Type} : List (Tick μ) → List (μ × Option String)
  | [] => []
  | .cancelled :: _ => []
  | .fetchError _ :: script => fetched script
  | .message msg commit :: script => (msg, commit) :: fetched script

/-- The event is a call of the handler or a commit. -/
def ConsumerEvent.isProcessing {μ : Type} : ConsumerEvent μ → Bool
  | .handled _ _ => true
  | .committed _ _ => true
  | _ => false

/-- The message of a commit. -/
def ConsumerEvent.commitOf {μ : Type} : ConsumerEvent μ → Option μ
  | .committed msg _ => some msg
  | _ => none

/-! ## `tg_gateway/internal/outgoing/processor.go`: `handleMessage`

The declaration of `models.OutgoingCommand` of the gateway is not among the
sources; `handleMessage` uses its fields `BotToken`, `Method` and `Params`. -/

/-- The type `models.OutgoingCommand`, as `handleMessage` uses it; `params` is
the JSON text of the parameter map, `none` for a `nil` map. -/
structure OutgoingCommand where
  botToken : String
  method : String
  params : Option String
deriving DecidableEq, Repr

/-- A message of an egress topic together with the outcome of the call of the
Bot API made for it. -/
structure EgressMessage where
  topic : String
  offset : Nat
  value : String
  call : CallEnv

/-- The function `Processor.handleMessage` (lines 94-117); `unmarshal` is the
reading of the value of a message by `json.Unmarshal`. -/
def Processor.handleMessage (baseURL : String) (decode : String → Decoded)
    (unmarshal : String → Except String OutgoingCommand) (msg : EgressMessage)
    (st : TelegramState) : TelegramState × Option String :=
  match unmarshal msg.value with
  | .error err => (st, some ("failed to unmarshal command: " ++ err))
  | .ok cmd =>
    match Gateway.Client.CallMethod baseURL decode msg.call cmd.botToken cmd.method
      cmd.params st with
    | (st1, .error err) => (st1, some err)
    | (st1, .ok _) => (st1, none)

/-- A reading of message values: `getMe` is a command, everything else is not
JSON. -/
def demoUnmarshal (value : String) : Except String OutgoingCommand :=
  if value = "getMe" then .ok { botToken := "T", method := "getMe", params := none }
  else .error "invalid character"

/-- Three turns: a command the Bot API accepts, a value that is not a
command, a command the Bot API answers with status 400; then the context is
done, and the message after it is never fetched. -/
def demoScript : List (Tick EgressMessage) :=
  [ .message { topic := "bot_a_outgoing", offset := 0, value := "getMe"
               call := answered { statusCode := 200, body := fineBody } } none,
    .message { topic := "bot_a_outgoing", offset := 1, value := "?"
               call := answered { statusCode := 200, body := fineBody } } none,
    .fetchError "timeout",
    .message { topic := "bot_a_outgoing", offset := 2, value := "getMe"
               call := answered { statusCode := 400, body := "bad" } } (some "rebalance"),
    .cancelled,
    .message { topic := "bot_a_outgoing", offset := 3, value := "getMe"
               call := answered { statusCode := 200, body := fineBody } } none ]

/-- The handler of the processor over the demonstration readings. -/
def demoHandler : EgressMessage → TelegramState → TelegramState × Option String :=
  Processor.handleMessage "https://api.telegram.org" demoDecode demoUnmarshal

/-! ## `NewConsumer` (`kafka/consumer.go`) and `discoverAndSubscribe`
(`outgoing/processor.go`) -/

/-- The `kafka.ReaderConfig` literal of `NewConsumer` (lines 18-25).  The
fields `Topic` and `GroupTopics` are not in the literal and keep their zero
value; `commitInterval` is in nanoseconds, `startOffset` is
`kafka.LastOffset`. -/
structure ReaderConfig where
  brokers : List String
  groupID : String
  groupTopics : List (List Nat)
  topic : List Nat
  minBytes : Nat
  maxBytes : Nat
  commitInterval : Nat
  startOffset : Int
deriving DecidableEq, Repr

/-- A `*kafkapkg.Consumer`: the configuration of its reader, and `serial`, the
number of consumers made before it, which tells two consumers apart. -/
structure Gateway.Consumer where
  reader : ReaderConfig
  serial : Nat
deriving DecidableEq, Repr

/-- The function `NewConsumer` (lines 17-31); the reader is the one
`kafka.NewReader` makes for the configuration. -/
def Gateway.NewConsumer (brokers : List String) (groupID : String)
    (_topics : List (List Nat)) (serial : Nat) : Gateway.Consumer :=
  { reader :=
      { brokers := brokers
        groupID := groupID
        groupTopics := []
        topic := []
        minBytes := 10000
        maxBytes := 10000000
        commitInterval := 1000000000
        startOffset := -1 }
    serial := serial }

/-- The `Processor`: its brokers and group, the map `consumers` (one pair per
key), the consume tasks started so far and the number of consumers made so
far. -/
structure Processor where
  brokers : List String
  groupID : String
  consumers : List (List Nat × Gateway.Consumer)
  started : List (List Nat × Gateway.Consumer)
  allocated : Nat
deriving DecidableEq, Repr

/-- The function `NewProcessor` (lines 28-38). -/
def NewProcessor (brokers : List String) (groupID : String) : Processor :=
  { brokers := brokers, groupID := groupID, consumers := [], started := [], allocated := 0 }

/-- The keys of the map `consumers`. -/
def Processor.keys (p : Processor) : List (List Nat) := p.consumers.map Prod.fst

/-- The consumer the map holds for a topic (`p.consumers[topic]`). -/
def Processor.consumer (p : Processor) (topic : List Nat) : Option Gateway.Consumer :=
  (p.consumers.find? (fun entry => decide (entry.1 = topic))).map Prod.snd

/-- The loop of `discoverAndSubscribe` over the topics listed (lines 76-89):
a topic that is not a key gets a new consumer, which is stored under it and
handed to a new consume task. -/
def Processor.subscribe : List (List Nat) → Processor → Processor
  | [], p => p
  | topic :: topics, p =>
    match p.consumer topic with
    | some _ => Processor.subscribe topics p
    | none =>
      let consumer := Gateway.NewConsumer p.brokers p.groupID [topic] p.allocated
      Processor.subscribe topics
        { p with
          consumers := p.consumers ++ [(topic, consumer)]
          started := p.started ++ [(topic, consumer)]
          allocated := p.allocated + 1 }

/-- The function `Processor.discoverAndSubscribe` (lines 67-92); `none` is a
panic of the listing. -/
def Processor.discoverAndSubscribe (e : ListingEnv) (p : Processor) :
    Option (Processor × Option String) :=
  match Gateway.TopicManager.GetAllOutgoingTopics e with
  | none => none
  | some (.error err) => some (p, some err)
  | some (.ok topics) => some (Processor.subscribe topics p, none)

/-- Successive calls of `discoverAndSubscribe`, one per listing (the call of
`Start` and the ticks of `periodicTopicDiscovery`); a failed listing is
logged and the next tick follows. -/
def Processor.discoveries : List ListingEnv → Processor → Option Processor
  | [], p => some p
  | e :: es, p =>
    match Processor.discoverAndSubscribe e p with
    | none => none
    | some (p1, _) => Processor.discoveries es p1

/-- The listing succeeds and shows the topic, which has the egress form. -/
def ListingEnv.shows (e : ListingEnv) (topic : List Nat) : Prop :=
  e.dial = none ∧ e.readPartitions = none ∧ topic ∈ e.partitions ∧
    startsWithBot topic = true ∧ endsWithOutgoing topic = true

/-- A listing that succeeds with the given partitions. -/
def listing (partitions : List (List Nat)) : ListingEnv :=
  { dial := none, readPartitions := none, partitions := partitions }

/-- The processor of the gateway before its first discovery. -/
def demoProcessor : Processor := NewProcessor ["kafka:9092"] "tg-gateway-outgoing"

/-! ## The status of a record over time -/

/-- The status of the persisted record of a bot; `none` when the store holds
no record for it (the bot is absent). -/
def Store.status (kv : Store) (botID : String) : Option String :=
  match kv (configKey botID) with
  | some (.json cfg) => some cfg.status
  | _ => none

/-- The six transitions of the life cycle: absent to `creating`, `creating`
to `running` or `failed`, `running` or `failed` to `deleting`, `deleting` to
absent. -/
def legalTransition (a b : Option String) : Bool :=
  decide ((a = none ∧ b = some "creating") ∨
    (a = some "creating" ∧ b = some "running") ∨
    (a = some "creating" ∧ b = some "failed") ∨
    (a = some "running" ∧ b = some "deleting") ∨
    (a = some "failed" ∧ b = some "deleting") ∨
    (a = some "deleting" ∧ b = none))

/-- From the store `kv` to the store `kv1` the status of every bot stays as
it is or moves along one transition of the life cycle. -/
def StatusMoves (kv kv1 : Store) : Prop :=
  ∀ botID, kv1.status botID = kv.status botID ∨
    legalTransition (kv.status botID) (kv1.status botID) = true

/-- The store after each call of the storage that writes, in the order in
which one operation makes them: `SaveBot` and the status update of
`CreateBot`; the status update and the `DeleteBot` of `DeleteBot`; the
`SaveBot` of `UpdateReplicas`.  Each of these calls writes at most one record
key, once. -/
def Service.kvPath (s : Service) (w : World) : Op → List Store
  | .create e req =>
    match validateCreateRequest req with
    | some _ => []
    | none => [(w.saveBot e.save (newBotConfig e req)).1.kv, (s.CreateBot e req w).1.kv]
  | .delete e botID =>
    match w.getBot e.get botID with
    | (_, .error _) => []
    | (w0, .ok _) =>
      [(w0.updateBotStatus e.status botID "deleting").1.kv, (s.DeleteBot e botID w).1.kv]
  | .updateReplicas e botID req => [(s.UpdateReplicas e botID req w).1.kv]
  | .updateStatus e botID status => [(w.updateBotStatus e botID status).1.kv]

/-- The stores a sequence of calls goes through. -/
def Service.runPath (s : Service) : World → List Op → List Store
  | _, [] => []
  | w, op :: ops => s.kvPath w op ++ Service.runPath s (s.step w op) ops

/-- The condition on a call under which the status of every record follows
the life cycle: the call is one of the HTTP interface; in `CreateBot` the
generated id is not yet a key of the store and the writes of the token key and
of the bot set do not fail; in `CreateBot` and `DeleteBot` the status update
reads and writes the record without failure. -/
def StatusWritesOk (w : World) : Op → Prop
  | .create e _ =>
    e.save.setToken = none ∧ e.save.sadd = none ∧
    w.kv (configKey (generateBotID e.rnd)) = none ∧
    e.status.get = none ∧ e.status.save.setConfig = none
  | .delete e _ => e.status.get = none ∧ e.status.save.setConfig = none
  | .updateReplicas _ _ _ => True
  | .updateStatus _ _ _ => False

/-- At rest every record is `running`, `failed` or `deleting`. -/
def Settled (kv : Store) : Prop :=
  ∀ botID st, kv.status botID = some st → st = "running" ∨ st = "failed" ∨ st = "deleting"

/-- A `DeleteBot` whose status update cannot load the record. -/
def statusFailDelete : DeleteEnv :=
  { okDelete with status := { get := some "timeout", save := okSave } }

/-! ## Inputs of the read operations -/

/-- The request `demoRequest` without a token. -/
def tokenlessRequest : CreateBotRequest := { demoRequest with botToken := "" }

/-- The answer of `GetBot` built from a loaded record and the outcome of the
status lookup (lines 183-194 of `bot/service.go`). -/
def statusResponse (botConfig : BotConfig) (deployment : Except String Int) :
    BotStatusResponse :=
  { botID := botConfig.botID
    botName := botConfig.botName
    status := botConfig.status
    replicas :=
      { current :=
          match deployment with
          | .ok n => n
          | .error _ => 0
        min := botConfig.minReplicas
        max := botConfig.maxReplicas }
    kafkaLag := 0
    createdAt := botConfig.createdAt }

/-- The entry of `ListBots` for one id: the answer of `GetBot`, if it
succeeds. -/
def listEntry (s : Service) (each : String → GetEnv) (w : World) (botID : String) :
    Option BotStatusResponse :=
  match (s.GetBot (each botID) botID w).2 with
  | .ok bot => some bot
  | .error _ => none

/-! ## The calls of the webhook step -/

/-- The call is a `SetWebhook` of the Telegram client. -/
def Call.isSetWebhook : Call → Bool
  | .tgSetWebhook _ _ _ => true
  | _ => false

/-- The call is a `GetSecret` of the Kubernetes client. -/
def Call.isGetSecret : Call → Bool
  | .k8sGetSecret _ => true
  | _ => false

/-- The calls that neither register a webhook nor fetch a secret. -/
def Call.isQuiet (c : Call) : Bool := !c.isSetWebhook && !c.isGetSecret

/-- A service whose gateway has no TLS. -/
def plainService : Service :=
  { gatewayURL := "http://gw.example", kafkaBrokers := "kafka:9092",
    tlsCaSecretName := "gateway-ca" }

/-- A service without a gateway URL. -/
def blankService : Service :=
  { gatewayURL := "", kafkaBrokers := "kafka:9092", tlsCaSecretName := "gateway-ca" }

/-- From `w` to `w1` the trace grows by calls that are all quiet. -/
def QuietSteps (w w1 : World) : Prop :=
  ∃ calls, w1.trace = w.trace ++ calls ∧ ∀ c, c ∈ calls → c.isQuiet = true

/-! ## Answers of the Bot API with members left out -/

/-- The body `\x7b\x7d`. -/
def emptyBody : String := "\x7b\x7d"

/-- The body `\x7b"ok":false\x7d`. -/
def refusedBody : String := "\x7b\"ok\":false\x7d"

/-- The body `\x7b"ok":false,"error_code":403,"description":"blocked"\x7d`. -/
def blockedBody : String :=
  "\x7b\"ok\":false,\"error_code\":403,\"description\":\"blocked\"\x7d"

/-- The body `\x7b"ok":true,"result":\x7b"id":1\x7d\x7d`. -/
def meBody : String := "\x7b\"ok\":true,\"result\":\x7b\"id\":1\x7d\x7d"

/-- The reading of the four bodies above by `json.Unmarshal`; every other
text is taken as not being JSON. -/
def memberDecode (body : String) : Decoded :=
  if body = emptyBody then .object .absent none .absent .absent
  else if body = refusedBody then .object (.value false) none .absent .absent
  else if body = blockedBody then
    .object (.value false) none (.value "blocked") (.value 403)
  else if body = meBody then .object (.value true) (some "\x7b\"id\":1\x7d") .absent .absent
  else .invalid "invalid character"

/-- The state after one call of `getMe` for the token `T` that got the answer
`resp`, from the start of the program. -/
def afterCall (resp : HttpReply) : TelegramState :=
  (Gateway.Client.CallMethod "https://api.telegram.org" memberDecode (answered resp)
    "T" "getMe" none TelegramState.start).1

/-! ## JSON values and `encoding/json`

A JSON text is kept as the value it denotes.  A number is the decimal it
denotes: `num n` is a number written as an integer, `real m e` is a number
written with a fraction or an exponent, `m` times ten to the `e`
(`55.75` is `real 5575 (-2)`).  A string is a `String`; a string with a
surrogate escape that has no partner (`"\ud800"`), which is not the text of
any `String`, is `ustr` of its UTF-16 code units.  The members of an object
are kept in the order of the text, and an object may repeat a key; a key is
a `String` (an object with a key that has a surrogate escape without its
partner is outside the model). -/

/-- A JSON value. -/
inductive Json
  | null
  | bool (b : Bool)
  | num (n : Int)
  | real (mantissa : Int) (exponent : Int)
  | str (s : String)
  | ustr (units : List Nat)
  | arr (items : List Json)
  | obj (members : List (String × Json))
deriving Repr

/-- A number of a JSON text: `mantissa` times ten to the `exponent`. -/
structure Decimal where
  mantissa : Int
  exponent : Int
deriving DecidableEq, Repr

/-- A finite `float64`: `mantissa` times two to the `exponent`. -/
structure Binary64 where
  mantissa : Int
  exponent : Int
deriving DecidableEq, Repr

/-- Two decimals denote the same number. -/
def Decimal.sameValue (a b : Decimal) : Bool :=
  a.mantissa * 10 ^ (a.exponent - min a.exponent b.exponent).toNat ==
    b.mantissa * 10 ^ (b.exponent - min a.exponent b.exponent).toNat

/-- The number `Marshal` prints, as a JSON value: an integer when it has
neither fraction nor exponent. -/
def Json.ofDecimal (d : Decimal) : Json :=
  if d.exponent = 0 then .num d.mantissa else .real d.mantissa d.exponent

/-- A code unit is the first half of a surrogate pair. -/
def isHighSurrogate (u : Nat) : Bool := decide (0xD800 ≤ u) && decide (u < 0xDC00)

/-- A code unit is the second half of a surrogate pair. -/
def isLowSurrogate (u : Nat) : Bool := decide (0xDC00 ≤ u) && decide (u < 0xE000)

/-- The characters `Unmarshal` reads from the UTF-16 code units of a JSON
string: a surrogate pair is one character, and a surrogate without its
partner is replaced by U+FFFD. -/
def repairUnits : List Nat → List Char
  | [] => []
  | [u] => [if isHighSurrogate u || isLowSurrogate u then Char.ofNat 0xFFFD else Char.ofNat u]
  | u :: v :: rest =>
    if isHighSurrogate u && isLowSurrogate v then
      Char.ofNat (0x10000 + (u - 0xD800) * 0x400 + (v - 0xDC00)) :: repairUnits rest
    else
      (if isHighSurrogate u || isLowSurrogate u then Char.ofNat 0xFFFD else Char.ofNat u) ::
        repairUnits (v :: rest)

/-- The UTF-16 code units of a character. -/
def unitsOfChar (ch : Char) : List Nat :=
  if ch.toNat < 0x10000 then [ch.toNat]
  else [0xD800 + (ch.toNat - 0x10000) / 0x400, 0xDC00 + (ch.toNat - 0x10000) % 0x400]

/-- The UTF-16 code units of a string. -/
def utf16Units (s : String) : List Nat := s.data.flatMap unitsOfChar

/-- A value that `json.Unmarshal` stores in an `interface\x7b\x7d`: `nil`, a
`bool`, a `float64`, a `string`, a `[]interface\x7b\x7d` or a
`map[string]interface\x7b\x7d`.  A map is the list of its entries by increasing
key, one entry per key. -/
inductive GoValue
  | nil
  | bool (b : Bool)
  | float64 (f : Binary64)
  | string (s : String)
  | slice (items : List GoValue)
  | map (entries : List (String × GoValue))
deriving Repr

/-- The two conversions of `encoding/json` between a number of a JSON text
and a `float64`: `parse` is `strconv.ParseFloat` (`none`: out of range, an
error of `Unmarshal`), `format` is the number `Marshal` prints. -/
structure FloatCodec where
  parse : Decimal → Option Binary64
  format : Binary64 → Decimal

/-- The order of keys in the output of `Marshal` (`sort.Strings`): byte by
byte; code points stand for the bytes, which gives the same order. -/
def bytesLt : List Nat → List Nat → Bool
  | _, [] => false
  | [], _ :: _ => true
  | a :: as, b :: bs => decide (a < b) || (decide (a = b) && bytesLt as bs)

/-- The comparison `k < k1` of two keys. -/
def keyLt (k k1 : String) : Bool :=
  bytesLt (k.data.map Char.toNat) (k1.data.map Char.toNat)

/-- The assignment `m[k] = v` on a map. -/
def mapAssign {α : Type} (k : String) (v : α) : List (String × α) → List (String × α)
  | [] => [(k, v)]
  | (k1, v1) :: rest =>
    if keyLt k k1 = true then (k, v) :: (k1, v1) :: rest
    else if k = k1 then (k, v) :: rest
    else (k1, v1) :: mapAssign k v rest

/-- The value under a key, the first one if the key is repeated. -/
def lookupKey {α : Type} (k : String) : List (String × α) → Option α
  | [] => none
  | (k1, v1) :: rest => if k1 = k then some v1 else lookupKey k rest

mutual
/-- The function `json.Unmarshal` into an `interface\x7b\x7d`. -/
def Json.decode (c : FloatCodec) : Json → Option GoValue
  | .null => some .nil
  | .bool b => some (.bool b)
  | .num n =>
    match c.parse ⟨n, 0⟩ with
    | some f => some (.float64 f)
    | none => none
  | .real m e =>
    match c.parse ⟨m, e⟩ with
    | some f => some (.float64 f)
    | none => none
  | .str s => some (.string s)
  | .ustr units => some (.string (String.mk (repairUnits units)))
  | .arr items =>
    match decodeItems c items with
    | some vs => some (.slice vs)
    | none => none
  | .obj members =>
    match decodeMembers c members [] with
    | some m => some (.map m)
    | none => none
/-- The items of an array, decoded in order. -/
def decodeItems (c : FloatCodec) : List Json → Option (List GoValue)
  | [] => some []
  | item :: items =>
    match item.decode c with
    | none => none
    | some v =>
      match decodeItems c items with
      | some vs => some (v :: vs)
      | none => none
/-- The members of an object, assigned to the map `m` one after the other: a
later member with the same key replaces the earlier one. -/
def decodeMembers (c : FloatCodec) :
    List (String × Json) → List (String × GoValue) → Option (List (String × GoValue))
  | [], m => some m
  | (k, v) :: members, m =>
    match v.decode c with
    | none => none
    | some x => decodeMembers c members (mapAssign k x m)
end

mutual
/-- The function `json.Marshal` on a value of an `interface\x7b\x7d`. -/
def GoValue.encode (c : FloatCodec) : GoValue → Json
  | .nil => .null
  | .bool b => .bool b
  | .float64 f => Json.ofDecimal (c.format f)
  | .string s => .str s
  | .slice items => .arr (encodeItems c items)
  | .map entries => .obj (encodeEntries c entries)
/-- The items of a slice, encoded in order. -/
def encodeItems (c : FloatCodec) : List GoValue → List Json
  | [] => []
  | item :: items => item.encode c :: encodeItems c items
/-- The entries of a map, encoded by increasing key. -/
def encodeEntries (c : FloatCodec) : List (String × GoValue) → List (String × Json)
  | [] => []
  | (k, v) :: entries => (k, v.encode c) :: encodeEntries c entries
end

mutual
/-- The JSON value `a` is the JSON value `b` up to the order of the members
of objects: literals are equal, numbers denote the same number, strings have
the same code units, arrays have the same items in the same order, and an
object of `a` has as many members as the one of `b`, each of them found in
`b` under its key with the same value. -/
def Json.sameAs : Json → Json → Bool
  | .null, .null => true
  | .bool a, .bool b => a == b
  | .num a, .num b => Decimal.sameValue ⟨a, 0⟩ ⟨b, 0⟩
  | .num a, .real m e => Decimal.sameValue ⟨a, 0⟩ ⟨m, e⟩
  | .real m e, .num b => Decimal.sameValue ⟨m, e⟩ ⟨b, 0⟩
  | .real m e, .real m1 e1 => Decimal.sameValue ⟨m, e⟩ ⟨m1, e1⟩
  | .str a, .str b => a == b
  | .str a, .ustr v => utf16Units a == v
  | .ustr u, .str b => u == utf16Units b
  | .ustr u, .ustr v => u == v
  | .arr a, .arr b => sameItems a b
  | .obj a, .obj b => a.length == b.length && sameMembers a b
  | _, _ => false
/-- The items of two arrays, compared in order. -/
def sameItems : List Json → List Json → Bool
  | [], [] => true
  | x :: xs, y :: ys => x.sameAs y && sameItems xs ys
  | _, _ => false
/-- Every member of the first list is found in the second one. -/
def sameMembers : List (String × Json) → List (String × Json) → Bool
  | [], _ => true
  | (k, v) :: members, b =>
    (match lookupKey k b with
     | some v1 => v.sameAs v1
     | none => false) && sameMembers members b
end

mutual
/-- No object of the value repeats a key, every number of the value is
given back, as a number, by the conversion to `float64` and back, and every
string is given back by the conversion to a string of Go and back (it has
no surrogate without its partner). -/
def Json.plain (c : FloatCodec) : Json → Bool
  | .num n =>
    match c.parse ⟨n, 0⟩ with
    | some f => Decimal.sameValue ⟨n, 0⟩ (c.format f)
    | none => false
  | .real m e =>
    match c.parse ⟨m, e⟩ with
    | some f => Decimal.sameValue ⟨m, e⟩ (c.format f)
    | none => false
  | .ustr units => units == utf16Units (String.mk (repairUnits units))
  | .arr items => plainItems c items
  | .obj members => plainMembers c members
  | _ => true
/-- The items of an array are plain. -/
def plainItems (c : FloatCodec) : List Json → Bool
  | [] => true
  | item :: items => item.plain c && plainItems c items
/-- The members of an object are plain and no key is repeated. -/
def plainMembers (c : FloatCodec) : List (String × Json) → Bool
  | [] => true
  | (k, v) :: members =>
    v.plain c && (lookupKey k members).isNone && plainMembers c members
end

mutual
/-- The number of arrays and objects that are open at the deepest place of
the value. -/
def Json.depth : Json → Nat
  | .arr items => depthItems items + 1
  | .obj members => depthMembers members + 1
  | _ => 0
/-- The depth of the deepest item. -/
def depthItems : List Json → Nat
  | [] => 0
  | item :: items => max item.depth (depthItems items)
/-- The depth of the deepest member. -/
def depthMembers : List (String × Json) → Nat
  | [] => 0
  | (_, v) :: members => max v.depth (depthMembers members)
end

/-- The constant `maxNestingDepth` of `encoding/json`: a text with more open
arrays and objects at one place is refused ("exceeded max depth"). -/
def maxNestingDepth : Nat := 10000

/-! ## `models.OutgoingCommand` (`tg_proxy/internal/models/models.go`, lines 46-50) -/

/-- The struct `OutgoingCommand` after `json.Unmarshal`: `params` is the map,
`none` for a `nil` map. -/
structure CommandFields where
  botToken : String
  method : String
  params : Option (List (String × GoValue))

/-- The zero value of `OutgoingCommand`. -/
def CommandFields.zero : CommandFields := { botToken := "", method := "", params := none }

/-- The key of a member as the decoder matches it with a field name: without
regard to the case of the letters. -/
def foldKey (k : String) : List Char := k.data.map Char.toLower

/-- One member of the object stored in the struct: a string in `bot_token` or
`method`, an object in `params` (its members are assigned to the map the
field holds, or to a new map); `null` leaves a string as it is and sets the
map to `nil`; a member of another type is an error; a member with another key
is skipped. -/
def CommandFields.assign (c : FloatCodec) (cmd : CommandFields) (k : String) (v : Json) :
    Option CommandFields :=
  if foldKey k = "bot_token".data then
    match v with
    | .str s => some { cmd with botToken := s }
    | .ustr units => some { cmd with botToken := String.mk (repairUnits units) }
    | .null => some cmd
    | _ => none
  else if foldKey k = "method".data then
    match v with
    | .str s => some { cmd with method := s }
    | .ustr units => some { cmd with method := String.mk (repairUnits units) }
    | .null => some cmd
    | _ => none
  else if foldKey k = "params".data then
    match v with
    | .obj members =>
      match decodeMembers c members (cmd.params.getD []) with
      | some m => some { cmd with params := some m }
      | none => none
    | .null => some { cmd with params := none }
    | _ => none
  else some cmd

/-- The members of the object, stored one after the other. -/
def CommandFields.assignAll (c : FloatCodec) :
    List (String × Json) → CommandFields → Option CommandFields
  | [], cmd => some cmd
  | (k, v) :: members, cmd =>
    match cmd.assign c k v with
    | none => none
    | some cmd1 => CommandFields.assignAll c members cmd1

/-- The call `json.Unmarshal(msg.Value, &cmd)` of `handleMessage` on a JSON
text: a text that is nested too deep is refused before anything is stored;
an object is stored member by member, `null` stores nothing, every other
value is an error. -/
def unmarshalCommand (c : FloatCodec) (j : Json) : Except String CommandFields :=
  if maxNestingDepth < j.depth then .error "exceeded max depth"
  else
    match j with
    | .obj members =>
      match CommandFields.assignAll c members CommandFields.zero with
      | some cmd => .ok cmd
      | none => .error "json: cannot unmarshal into Go struct field of OutgoingCommand"
    | .null => .ok CommandFields.zero
    | _ => .error "json: cannot unmarshal into Go value of type models.OutgoingCommand"

/-- The function `json.Marshal` on an `OutgoingCommand`: the three fields in
the order of the struct, under the names of their tags. -/
def marshalCommand (c : FloatCodec) (cmd : CommandFields) : Json :=
  .obj [("bot_token", .str cmd.botToken), ("method", .str cmd.method),
    ("params",
      match cmd.params with
      | none => .null
      | some m => .obj (encodeEntries c m))]

/-- The six orders of three members. -/
def orders {α : Type} (a b c : α) : List (List α) :=
  [[a, b, c], [a, c, b], [b, a, c], [b, c, a], [c, a, b], [c, b, a]]

/-- The number of significant bits of a natural number. -/
def bitLength : Nat → Nat → Nat
  | 0, _ => 0
  | fuel + 1, n => if n = 0 then 0 else bitLength fuel (n / 2) + 1

/-- The number of decimal digits of a natural number. -/
def decLength : Nat → Nat → Nat
  | 0, _ => 0
  | fuel + 1, n => if n = 0 then 0 else decLength fuel (n / 10) + 1

/-- The numerator of `p / (q * base ^ k)`. -/
def scaledNum (base p : Nat) (k : Int) : Nat := if k < 0 then p * base ^ (-k).toNat else p

/-- The denominator of `p / (q * base ^ k)`. -/
def scaledDen (base q : Nat) (k : Int) : Nat := if k < 0 then q else q * base ^ k.toNat

/-- The quotient `num / den` rounded to the nearest integer, a tie going to
the even one. -/
def roundHalfEven (num den : Nat) : Nat :=
  if den < 2 * (num % den) ∨ (2 * (num % den) = den ∧ (num / den) % 2 = 1) then num / den + 1
  else num / den

/-- The `float64` nearest to the fraction `p / q` (`q` is positive), a tie
going to the even mantissa: a mantissa of 53 bits and an exponent of at least
-1074 (below 2^-1022 the mantissa is shorter, and zero is the mantissa 0
with the exponent 0); `none` when the result would be 2^1024 or more. -/
def nearestBinary64 (p q : Nat) : Option (Nat × Int) :=
  if p = 0 then some (0, 0)
  else
    let k0 : Int := (bitLength p p : Int) - (bitLength q q : Int) - 53
    let k1 : Int := if k0 < -1074 then -1074 else k0
    let k : Int := if 2 ^ 53 * scaledDen 2 q k1 ≤ scaledNum 2 p k1 then k1 + 1 else k1
    let m := roundHalfEven (scaledNum 2 p k) (scaledDen 2 q k)
    let m1 := if m = 2 ^ 53 then 2 ^ 52 else m
    let k2 : Int := if m = 2 ^ 53 then k + 1 else k
    if m = 0 then some (0, 0) else if 971 < k2 then none else some (m1, k2)

/-- The function `strconv.ParseFloat(s, 64)` on the number a text denotes:
the nearest `float64`, with the sign of the number; `none` is the error
"value out of range". -/
def parseFloat64 (d : Decimal) : Option Binary64 :=
  match nearestBinary64 (scaledNum 10 d.mantissa.natAbs (-d.exponent))
      (scaledDen 10 1 (-d.exponent)) with
  | some (m, k) => some ⟨if d.mantissa < 0 then -(m : Int) else (m : Int), k⟩
  | none => none

/-- The decimal of `digits` significant digits nearest to the fraction
`p / q` (`p` and `q` are positive). -/
def nearestDecimal (p q digits : Nat) : Nat × Int :=
  let t0 : Int := (decLength p p : Int) - (decLength q q : Int) - digits
  let t : Int := if 10 ^ digits * scaledDen 10 q t0 ≤ scaledNum 10 p t0 then t0 + 1 else t0
  let m := roundHalfEven (scaledNum 10 p t) (scaledDen 10 q t)
  if m = 10 ^ digits then (10 ^ (digits - 1), t + 1) else (m, t)

/-- The decimal with the fewest significant digits, from `digits` on, that
`parseFloat64` reads as the `float64` of mantissa `m` and exponent `k`; with
`digits + fuel` digits the search stops. -/
def shortestDecimal (m : Nat) (k : Int) : Nat → Nat → Nat × Int
  | 0, digits => nearestDecimal (scaledNum 2 m (-k)) (scaledDen 2 1 (-k)) digits
  | fuel + 1, digits =>
    let c := nearestDecimal (scaledNum 2 m (-k)) (scaledDen 2 1 (-k)) digits
    if parseFloat64 ⟨c.1, c.2⟩ = some ⟨m, k⟩ then c else shortestDecimal m k fuel (digits + 1)

/-- The number `Marshal` prints for a `float64`
(`strconv.AppendFloat(b, f, fmt, -1, 64)`): the fewest digits, at most 17,
that read back as the same `float64` (for each number of digits the decimal
nearest to the `float64` is tried); an integer below 10^21 is printed with
all its digits and without exponent. -/
def formatFloat64 (f : Binary64) : Decimal :=
  if f.mantissa = 0 then ⟨0, 0⟩
  else
    let c := shortestDecimal f.mantissa.natAbs f.exponent 16 1
    let sign : Int := if f.mantissa < 0 then -1 else 1
    if 0 ≤ c.2 ∧ c.1 * 10 ^ c.2.toNat < 10 ^ 21 then ⟨sign * (c.1 * 10 ^ c.2.toNat : Nat), 0⟩
    else ⟨sign * (c.1 : Nat), c.2⟩

/-- The conversions of Go between the numbers of a text and `float64`. -/
def float64Codec : FloatCodec := { parse := parseFloat64, format := formatFloat64 }

/-- The value of `depth` arrays, one inside the other, around `null`. -/
def nestedArrays : Nat → Json
  | 0 => .null
  | depth + 1 => .arr [nestedArrays depth]

/-- The command `sendMessage` with the parameters `params`. -/
def sendCommand (params : List (String × Json)) : Json :=
  .obj [("bot_token", .str "T"), ("method", .str "sendMessage"), ("params", .obj params)]

/-- Decoding and encoding again; `none` when `Unmarshal` returns an error. -/
def reencode (c : FloatCodec) (j : Json) : Option Json :=
  match unmarshalCommand c j with
  | .ok cmd => some (marshalCommand c cmd)
  | .error _ => none

/-! ## The sidecar: `tg_proxy/internal/{models,kafka,handlers}` -/

/-- The struct `TelegramUpdate` (models.go, lines 5-11) after
`json.Unmarshal`.  The three pointer fields hold the object of their member
(`none` is `nil`); the fields inside them are not looked at here.  The field
`Raw` has the tag `-` and is never read from a text. -/
structure ProxyUpdate where
  updateID : Int
  message : Option Json
  callback : Option Json
  inlineQuery : Option Json

/-- The zero value of `TelegramUpdate`. -/
def ProxyUpdate.zero : ProxyUpdate :=
  { updateID := 0, message := none, callback := none, inlineQuery := none }

/-- A pointer field stored from a member: an object that fits the struct of
the field (`fits`) is kept, `null` gives `nil`, everything else is an
error. -/
def storeStruct (fits : Json → Bool) (v : Json) : Option (Option Json) :=
  match v with
  | .obj members => if fits (.obj members) = true then some (some (.obj members)) else none
  | .null => some none
  | _ => none

/-- One member of the object stored in the struct: an integer that an `int`
holds in `update_id`, an object in `message`, `callback_query` or
`inline_query`; a member with another key is skipped. -/
def ProxyUpdate.assign (fits : String → Json → Bool) (u : ProxyUpdate) (k : String)
    (v : Json) : Option ProxyUpdate :=
  if foldKey k = "update_id".data then
    match v with
    | .num n =>
      if -9223372036854775808 ≤ n ∧ n ≤ 9223372036854775807 then some { u with updateID := n }
      else none
    | .null => some u
    | _ => none
  else if foldKey k = "message".data then
    match storeStruct (fits "message") v with
    | some p => some { u with message := p }
    | none => none
  else if foldKey k = "callback_query".data then
    match storeStruct (fits "callback_query") v with
    | some p => some { u with callback := p }
    | none => none
  else if foldKey k = "inline_query".data then
    match storeStruct (fits "inline_query") v with
    | some p => some { u with inlineQuery := p }
    | none => none
  else some u

/-- The members of the object, stored one after the other. -/
def ProxyUpdate.assignAll (fits : String → Json → Bool) :
    List (String × Json) → ProxyUpdate → Option ProxyUpdate
  | [], u => some u
  | (k, v) :: members, u =>
    match u.assign fits k v with
    | none => none
    | some u1 => ProxyUpdate.assignAll fits members u1

/-- The call `json.Unmarshal(msg.Value, &incoming)` of `GetUpdates` (line 42);
`payload = none` is a value that is not a JSON text. -/
def unmarshalUpdate (fits : String → Json → Bool) (payload : Option Json) :
    Except String ProxyUpdate :=
  match payload with
  | none => .error "invalid character"
  | some (.obj members) =>
    match ProxyUpdate.assignAll fits members ProxyUpdate.zero with
    | some u => .ok u
    | none => .error "json: cannot unmarshal into Go struct field of TelegramUpdate"
  | some .null => .ok ProxyUpdate.zero
  | some _ => .error "json: cannot unmarshal into Go value of type models.TelegramUpdate"

/-- A message of the ingress topic: its offset and its value, read as a JSON
text. -/
structure TopicMessage where
  offset : Int
  payload : Option Json

/-- The outcome of the calls of `ReadAllMessages`: `DialLeader`,
`ReadOffsets` (with the high water mark) and the successive `ReadMessage`; when
the list is used up, `ReadMessage` times out. -/
structure ReadEnv where
  dial : Option String
  offsets : Except String Int
  reads : List (Except String TopicMessage)

/-- The loop of `ReadAllMessages` (consumer.go, lines 61-84): it ends at the
first error and after the message at the high water mark. -/
def readLoop (highWaterMark : Int) : List (Except String TopicMessage) → List TopicMessage
  | [] => []
  | .error _ :: _ => []
  | .ok msg :: reads =>
    if msg.offset ≥ highWaterMark - 1 then [msg] else msg :: readLoop highWaterMark reads

/-- The function `Consumer.ReadAllMessages` of the sidecar (consumer.go, lines
42-88). -/
def Proxy.Consumer.ReadAllMessages (e : ReadEnv) : Except String (List TopicMessage) :=
  match e.dial with
  | some err => .error err
  | none =>
    match e.offsets with
    | .error err => .error err
    | .ok highWaterMark => .ok (readLoop highWaterMark e.reads)

/-- The loop of `GetUpdates` (lines 39-49): a message that does not unmarshal
is skipped. -/
def collectUpdates (fits : String → Json → Bool) : List TopicMessage → List ProxyUpdate
  | [] => []
  | msg :: messages =>
    match unmarshalUpdate fits msg.payload with
    | .error _ => collectUpdates fits messages
    | .ok incoming => incoming :: collectUpdates fits messages

/-- The answer of `GetUpdates`: the status code, `ok`, and the error code and
description or the result. -/
inductive UpdatesResponse
  | failed (status : Nat) (errorCode : Nat) (description : String)
  | updates (status : Nat) (result : List ProxyUpdate)

/-- The function `Handlers.GetUpdates` of the sidecar (handlers.go, lines
28-60). -/
def Proxy.Handlers.GetUpdates (fits : String → Json → Bool) (e : ReadEnv) : UpdatesResponse :=
  match Proxy.Consumer.ReadAllMessages e with
  | .error _ => .failed 500 500 "Failed to read messages"
  | .ok messages => .updates 200 (collectUpdates fits messages)

/-- The inbound envelope of the bot `botID` around the update `update`. -/
def envelope (botID : String) (update : Json) : Json :=
  .obj [("bot_id", .str botID), ("update", update)]

/-- The update 7 with a message, as Telegram sends it. -/
def updateSeven : Json :=
  .obj [("update_id", .num 7),
    ("message", .obj [("message_id", .num 1), ("chat", .obj [("id", .num 5)]),
      ("text", .str "hi")])]

/-- A read of the topic that gives the two messages and then times out. -/
def twoReads (first second : Json) : ReadEnv :=
  { dial := none, offsets := .ok 2
    reads := [.ok { offset := 0, payload := some first },
              .ok { offset := 1, payload := some second }] }

/-- Every object fits its struct. -/
def allFit : String → Json → Bool := fun _ _ => true

/-! ## Keys -/

theorem configKey_inj {a b : String} (h : configKey a = configKey b) : a = b := by
  have h1 := congrArg String.data h
  simp [configKey] at h1
  exact String.ext h1

theorem tokenKey_inj {a b : String} (h : tokenKey a = tokenKey b) : a = b := by
  have h1 := congrArg String.data h
  simp [tokenKey] at h1
  exact String.ext h1

theorem configKey_ne_tokenKey (a b : String) : configKey a ≠ tokenKey b := by
  intro h
  have h1 := congrArg (fun s => s.data.take 5) h
  simp [configKey, tokenKey] at h1

theorem tokenKey_ne_configKey (a b : String) : tokenKey a ≠ configKey b :=
  fun h => configKey_ne_tokenKey b a h.symm

theorem configKey_ne_allKey (a : String) : configKey a ≠ allKey := by
  intro h
  have h1 := congrArg (fun s => s.data.take 4) h
  simp [configKey, allKey] at h1

theorem tokenKey_ne_allKey (a : String) : tokenKey a ≠ allKey := by
  intro h
  have h1 := congrArg (fun s => s.data.take 4) h
  simp [tokenKey, allKey] at h1

theorem allKey_ne_configKey (a : String) : allKey ≠ configKey a :=
  fun h => configKey_ne_allKey a h.symm

theorem allKey_ne_tokenKey (a : String) : allKey ≠ tokenKey a :=
  fun h => tokenKey_ne_allKey a h.symm

/-! ## The store commands, key by key -/

theorem Store.put_same (kv : Store) (k : String) (v : RedisValue) : kv.put k v k = some v := by
  simp [Store.put]

theorem Store.put_other (kv : Store) {k k' : String} (v : RedisValue) (h : k' ≠ k) :
    kv.put k v k' = kv k' := by
  simp [Store.put, h]

theorem Store.del_same (kv : Store) (k : String) : kv.del k k = none := by
  simp [Store.del]

theorem Store.del_other (kv : Store) {k k' : String} (h : k' ≠ k) : kv.del k k' = kv k' := by
  simp [Store.del, h]

theorem Store.sadd_other {kv kv' : Store} {k m : String} (h : kv.sadd k m = some kv')
    {k' : String} (hk : k' ≠ k) : kv' k' = kv k' := by
  unfold Store.sadd at h
  split at h
  · cases h; exact Store.put_other _ _ hk
  · cases h; exact Store.put_other _ _ hk
  · cases h

theorem Store.srem_other {kv kv' : Store} {k m : String} (h : kv.srem k m = some kv')
    {k' : String} (hk : k' ≠ k) : kv' k' = kv k' := by
  unfold Store.srem at h
  split at h
  · cases h; rfl
  · cases h
    split
    · exact Store.del_other _ hk
    · exact Store.put_other _ _ hk
  · cases h

/-! ## What `SaveBot` and `DeleteBot` leave under each key -/

theorem RedisStorage.SaveBot_configKey (e : SaveEnv) (cfg : BotConfig) (kv : Store)
    (id : String) :
    (RedisStorage.SaveBot e cfg kv).1 (configKey id) =
      if e.setConfig = none ∧ id = cfg.botID then some (.json cfg) else kv (configKey id) := by
  have hne : id ≠ cfg.botID → configKey id ≠ configKey cfg.botID :=
    fun h hh => h (configKey_inj hh)
  unfold RedisStorage.SaveBot
  rcases e with ⟨_ | e1, _ | e2, _ | e3⟩
  · dsimp only
    split
    · by_cases h : id = cfg.botID
      · subst h
        simp [Store.put, configKey_ne_tokenKey]
      · simp [Store.put, configKey_ne_tokenKey, hne h, h]
    · rename_i kv3 h3
      show kv3 (configKey id) = _
      rw [Store.sadd_other h3 (configKey_ne_allKey id)]
      by_cases h : id = cfg.botID
      · subst h
        simp [Store.put, configKey_ne_tokenKey]
      · simp [Store.put, configKey_ne_tokenKey, hne h, h]
  all_goals
    by_cases h : id = cfg.botID
    · subst h
      simp [Store.put, configKey_ne_tokenKey]
    · simp [Store.put, configKey_ne_tokenKey, hne h, h]

theorem RedisStorage.SaveBot_tokenKey (e : SaveEnv) (cfg : BotConfig) (kv : Store)
    (t : String) :
    (RedisStorage.SaveBot e cfg kv).1 (tokenKey t) =
      if e.setConfig = none ∧ e.setToken = none ∧ t = cfg.botToken
      then some (.str cfg.botID) else kv (tokenKey t) := by
  have hne : t ≠ cfg.botToken → tokenKey t ≠ tokenKey cfg.botToken :=
    fun h hh => h (tokenKey_inj hh)
  unfold RedisStorage.SaveBot
  rcases e with ⟨_ | e1, _ | e2, _ | e3⟩
  · dsimp only
    split
    · by_cases h : t = cfg.botToken
      · subst h
        simp [Store.put]
      · simp [Store.put, tokenKey_ne_configKey, hne h, h]
    · rename_i kv3 h3
      show kv3 (tokenKey t) = _
      rw [Store.sadd_other h3 (tokenKey_ne_allKey t)]
      by_cases h : t = cfg.botToken
      · subst h
        simp [Store.put]
      · simp [Store.put, tokenKey_ne_configKey, hne h, h]
  all_goals
    by_cases h : t = cfg.botToken
    · subst h
      simp [Store.put, tokenKey_ne_configKey]
    · simp [Store.put, tokenKey_ne_configKey, hne h, h]

theorem RedisStorage.DeleteBot_configKey (exec : Option String) (botID botToken : String)
    (kv : Store) (id : String) :
    (RedisStorage.DeleteBot exec botID botToken kv).1 (configKey id) =
      if exec = none ∧ id = botID then none else kv (configKey id) := by
  have hne : id ≠ botID → configKey id ≠ configKey botID :=
    fun h hh => h (configKey_inj hh)
  unfold RedisStorage.DeleteBot
  rcases exec with _ | err
  · dsimp only
    split
    · by_cases h : id = botID
      · subst h
        simp [Store.del, configKey_ne_tokenKey]
      · simp [Store.del, configKey_ne_tokenKey, hne h, h]
    · rename_i kv3 h3
      show kv3 (configKey id) = _
      rw [Store.srem_other h3 (configKey_ne_allKey id)]
      by_cases h : id = botID
      · subst h
        simp [Store.del, configKey_ne_tokenKey]
      · simp [Store.del, configKey_ne_tokenKey, hne h, h]
  · simp

theorem RedisStorage.DeleteBot_tokenKey (exec : Option String) (botID botToken : String)
    (kv : Store) (t : String) :
    (RedisStorage.DeleteBot exec botID botToken kv).1 (tokenKey t) =
      if exec = none ∧ t = botToken then none else kv (tokenKey t) := by
  have hne : t ≠ botToken → tokenKey t ≠ tokenKey botToken :=
    fun h hh => h (tokenKey_inj hh)
  unfold RedisStorage.DeleteBot
  rcases exec with _ | err
  · dsimp only
    split
    · by_cases h : t = botToken
      · subst h
        simp [Store.del]
      · simp [Store.del, tokenKey_ne_configKey, hne h, h]
    · rename_i kv3 h3
      show kv3 (tokenKey t) = _
      rw [Store.srem_other h3 (tokenKey_ne_allKey t)]
      by_cases h : t = botToken
      · subst h
        simp [Store.del]
      · simp [Store.del, tokenKey_ne_configKey, hne h, h]
  · simp

theorem RedisStorage.SaveBot_members (e : SaveEnv) (cfg : BotConfig) (kv : Store)
    (ht : (kv.smembers allKey).isSome) (m : String) :
    ((RedisStorage.SaveBot e cfg kv).1.smembers allKey).isSome ∧
    (m ∈ (RedisStorage.SaveBot e cfg kv).1.members ↔
      m ∈ kv.members ∨
        (e.setConfig = none ∧ e.setToken = none ∧ e.sadd = none ∧ m = cfg.botID)) := by
  have hc : allKey ≠ configKey cfg.botID := allKey_ne_configKey _
  have hk : allKey ≠ tokenKey cfg.botToken := allKey_ne_tokenKey _
  unfold RedisStorage.SaveBot Store.members
  rcases e with ⟨_ | e1, _ | e2, _ | e3⟩
  · dsimp only
    unfold Store.sadd
    rw [Store.put_other _ _ hk, Store.put_other _ _ hc]
    unfold Store.smembers at ht ⊢
    rcases hv : kv allKey with _ | _ | _ | ms
    · simp [Store.put]
    · simp [hv] at ht
    · simp [hv] at ht
    · by_cases hm : cfg.botID ∈ ms
      · simp only [hm, if_true, Store.put_same]
        simp
        rintro rfl
        exact hm
      · simp [hm, Store.put]
  all_goals
    unfold Store.smembers at ht ⊢
    simp only [Store.put_other _ _ hk, Store.put_other _ _ hc]
    refine ⟨ht, ?_⟩
    simp

theorem RedisStorage.DeleteBot_members (exec : Option String) (botID botToken : String)
    (kv : Store) (ht : (kv.smembers allKey).isSome) (m : String) :
    ((RedisStorage.DeleteBot exec botID botToken kv).1.smembers allKey).isSome ∧
    (m ∈ (RedisStorage.DeleteBot exec botID botToken kv).1.members ↔
      m ∈ kv.members ∧ ¬ (exec = none ∧ m = botID)) := by
  have hc : allKey ≠ configKey botID := allKey_ne_configKey _
  have hk : allKey ≠ tokenKey botToken := allKey_ne_tokenKey _
  unfold RedisStorage.DeleteBot Store.members
  rcases exec with _ | err
  · dsimp only
    unfold Store.srem
    rw [Store.del_other _ hk, Store.del_other _ hc]
    unfold Store.smembers at ht ⊢
    rcases hv : kv allKey with _ | _ | _ | ms
    · simp [Store.del, hc, hk, hv]
    · simp [hv] at ht
    · simp [hv] at ht
    · dsimp only
      by_cases hm : ms.filter (fun x => decide (x ≠ botID)) = []
      · simp only [hm, if_true, Store.del_same]
        simp
        intro h1
        by_contra h2
        have : m ∈ ms.filter (fun x => decide (x ≠ botID)) := by
          simp [h1, h2]
        rw [hm] at this
        simp at this
      · simp only [hm, if_false, Store.put_same]
        simp
  · unfold Store.smembers at ht ⊢
    refine ⟨ht, ?_⟩
    simp

/-! ## The store is touched by the storage only -/

theorem Admin.CreateTopics_kv (e : KafkaEnv) (botID : String) (w : World) :
    (Admin.CreateTopics e botID w).1.kv = w.kv := by
  unfold Admin.CreateTopics
  repeat' split
  all_goals rfl

theorem Admin.DeleteTopics_kv (e : KafkaEnv) (botID : String) (w : World) :
    (Admin.DeleteTopics e botID w).1.kv = w.kv := by
  unfold Admin.DeleteTopics
  repeat' split
  all_goals rfl

theorem Client.CreateBotResources_kv (e : ResourcesEnv) (c : BotConfig) (w : World) :
    (Client.CreateBotResources e c w).1.kv = w.kv := by
  rcases e with ⟨_ | _ | _ | _, _ | _ | _ | _⟩ <;> rfl

theorem Client.DeleteBotResources_kv (e : ResourcesEnv) (botID : String) (w : World) :
    (Client.DeleteBotResources e botID w).1.kv = w.kv := by
  rcases e with ⟨_ | _ | _ | _, _ | _ | _ | _⟩ <;> rfl

theorem Client.CreateScaledObject_kv (e : ScalerCreateEnv) (c : BotConfig) (w : World) :
    (Client.CreateScaledObject e c w).1.kv = w.kv := by
  rcases e with ⟨_ | _, _ | _, _ | _, _ | _ | _ | _⟩ <;> rfl

theorem Client.DeleteScaledObject_kv (r : Option ApiError) (botID : String) (w : World) :
    (Client.DeleteScaledObject r botID w).1.kv = w.kv := by
  rcases r with _ | _ | _ | _ <;> rfl

theorem Client.UpdateScaledObject_kv (e : ScalerUpdateEnv) (botID : String)
    (mn mx : Option Int) (w : World) :
    (Client.UpdateScaledObject e botID mn mx w).1.kv = w.kv := by
  rcases e with ⟨_ | _, _ | _, _ | _, _ | _, _ | _, _ | _, _ | _⟩ <;> rfl

theorem Telegram.DeleteWebhook_kv (r : Option String) (t : String) (w : World) :
    (Telegram.DeleteWebhook r t w).1.kv = w.kv := by
  rcases r with _ | _ <;> rfl

theorem Service.registerWebhook_kv (s : Service) (e : CreateEnv) (req : CreateBotRequest)
    (url : String) (w : World) : (s.registerWebhook e req url w).kv = w.kv := by
  unfold Service.registerWebhook
  split
  · split
    · rcases e with ⟨_, _, _, _, _, _, _, ⟨_ | _, _ | _⟩, _ | _, _⟩ <;> rfl
    · rcases e with ⟨_, _, _, _, _, _, _, _, _ | _, _⟩ <;> rfl
  · rfl

theorem World.updateBotStatus_kv (w : World) (e : StatusEnv) (botID status : String) :
    (w.updateBotStatus e botID status).1.kv =
      (RedisStorage.UpdateBotStatus e botID status w.kv).1 := rfl

theorem Service.CreateBot_kv_invalid (s : Service) (e : CreateEnv) (req : CreateBotRequest)
    (w : World) {err : String} (hv : validateCreateRequest req = some err) :
    (s.CreateBot e req w).1.kv = w.kv := by
  unfold Service.CreateBot
  simp only [hv]

theorem Service.CreateBot_kv (s : Service) (e : CreateEnv) (req : CreateBotRequest)
    (w : World) (hv : validateCreateRequest req = none) :
    ∃ st, (s.CreateBot e req w).1.kv =
      if (RedisStorage.SaveBot e.save (newBotConfig e req) w.kv).2 = none then
        (RedisStorage.UpdateBotStatus e.status (generateBotID e.rnd) st
          (RedisStorage.SaveBot e.save (newBotConfig e req) w.kv).1).1
      else (RedisStorage.SaveBot e.save (newBotConfig e req) w.kv).1 := by
  unfold Service.CreateBot
  simp only [hv, World.saveBot]
  rcases hs : RedisStorage.SaveBot e.save (newBotConfig e req) w.kv with ⟨kv1, _ | err⟩
  · simp only [if_true]
    rcases h2 : Admin.CreateTopics e.topics (generateBotID e.rnd)
      { w with kv := kv1, trace := w.trace ++ [Call.storageSaveBot (newBotConfig e req)] }
      with ⟨w2, _ | err2⟩
    · have k2 := Admin.CreateTopics_kv e.topics (generateBotID e.rnd)
        { w with kv := kv1, trace := w.trace ++ [Call.storageSaveBot (newBotConfig e req)] }
      rw [h2] at k2
      dsimp only
      rcases h3 : Client.CreateBotResources e.resources (newBotConfig e req) w2
        with ⟨w3, _ | err3⟩
      · have k3 := Client.CreateBotResources_kv e.resources (newBotConfig e req) w2
        rw [h3] at k3
        dsimp only
        rcases h4 : Client.CreateScaledObject e.scaler (newBotConfig e req) w3
          with ⟨w4, _ | err4⟩
        · have k4 := Client.CreateScaledObject_kv e.scaler (newBotConfig e req) w3
          rw [h4] at k4
          refine ⟨"running", ?_⟩
          simp only [World.updateBotStatus_kv, Service.registerWebhook_kv]
          simp only at k2 k3 k4
          rw [k4, k3, k2]
        · have k4 := Client.CreateScaledObject_kv e.scaler (newBotConfig e req) w3
          rw [h4] at k4
          refine ⟨"failed", ?_⟩
          simp only [World.updateBotStatus_kv]
          simp only at k2 k3 k4
          rw [k4, k3, k2]
      · have k3 := Client.CreateBotResources_kv e.resources (newBotConfig e req) w2
        rw [h3] at k3
        refine ⟨"failed", ?_⟩
        simp only [World.updateBotStatus_kv]
        simp only at k2 k3
        rw [k3, k2]
    · have k2 := Admin.CreateTopics_kv e.topics (generateBotID e.rnd)
        { w with kv := kv1, trace := w.trace ++ [Call.storageSaveBot (newBotConfig e req)] }
      rw [h2] at k2
      refine ⟨"failed", ?_⟩
      simp only [World.updateBotStatus_kv]
      simp only at k2
      rw [k2]
  · refine ⟨"failed", ?_⟩
    simp

/-! ## The records and the token index -/

theorem RedisStorage.GetBot_ok {get : Option String} {botID : String} {kv : Store}
    {cfg : BotConfig} (h : RedisStorage.GetBot get botID kv = .ok cfg) :
    kv (configKey botID) = some (.json cfg) := by
  unfold RedisStorage.GetBot at h
  split at h
  · cases h
  · split at h
    · cases h
    · rename_i c hc
      cases h
      exact hc
    · cases h
    · cases h

theorem RecordsIndexed.indexed_saveBot {kv : Store} (hJ : RecordsIndexed kv) (e : SaveEnv)
    (cfg : BotConfig)
    (hfresh : ∀ id c, kv (configKey id) = some (.json c) → c.botToken = cfg.botToken →
      id = cfg.botID)
    (htok : e.setToken = none ∨ kv (tokenKey cfg.botToken) = some (.str cfg.botID)) :
    RecordsIndexed (RedisStorage.SaveBot e cfg kv).1 := by
  intro id c h
  rw [RedisStorage.SaveBot_configKey] at h
  rw [RedisStorage.SaveBot_tokenKey]
  split at h
  · rename_i hc
    obtain ⟨hc1, rfl⟩ := hc
    cases h
    refine ⟨rfl, ?_⟩
    split
    · rfl
    · rename_i hn
      rcases htok with ht | ht
      · exact absurd ⟨hc1, ht, rfl⟩ hn
      · exact ht
  · obtain ⟨h1, h2⟩ := hJ id c h
    refine ⟨h1, ?_⟩
    split
    · rename_i hc
      rw [hfresh id c h hc.2.2]
    · exact h2

theorem RecordsIndexed.indexed_updateBotStatus {kv : Store} (hJ : RecordsIndexed kv) (e : StatusEnv)
    (botID status : String) :
    RecordsIndexed (RedisStorage.UpdateBotStatus e botID status kv).1 := by
  unfold RedisStorage.UpdateBotStatus
  split
  · exact hJ
  · rename_i c hc
    have hr := RedisStorage.GetBot_ok hc
    obtain ⟨h1, h2⟩ := hJ botID c hr
    apply hJ.indexed_saveBot
    · intro id c' h' ht
      obtain ⟨_, h4⟩ := hJ id c' h'
      have ht' : c'.botToken = c.botToken := ht
      rw [ht', h2] at h4
      show id = c.botID
      rw [h1]
      injection h4 with h4
      injection h4 with h4
      exact h4.symm
    · right
      show kv (tokenKey c.botToken) = some (.str c.botID)
      rw [h1]; exact h2

theorem RecordsIndexed.indexed_deleteBot {kv : Store} (hJ : RecordsIndexed kv) (exec : Option String)
    {botID : String} {cfg : BotConfig} (hr : kv (configKey botID) = some (.json cfg)) :
    RecordsIndexed (RedisStorage.DeleteBot exec botID cfg.botToken kv).1 := by
  intro id c h
  rw [RedisStorage.DeleteBot_configKey] at h
  rw [RedisStorage.DeleteBot_tokenKey]
  split at h
  · cases h
  · rename_i hn
    obtain ⟨h1, h2⟩ := hJ id c h
    refine ⟨h1, ?_⟩
    split
    · rename_i hc
      exfalso
      apply hn
      refine ⟨hc.1, ?_⟩
      obtain ⟨_, h4⟩ := hJ botID cfg hr
      rw [hc.2, h4] at h2
      injection h2 with h2
      injection h2 with h2
      exact h2.symm
    · exact h2

/-- The record under an id keeps its token through a status update. -/
theorem RedisStorage.UpdateBotStatus_record {kv : Store} {botID : String} {cfg : BotConfig}
    (hr : kv (configKey botID) = some (.json cfg)) (e : StatusEnv) (status : String) :
    ∃ c, (RedisStorage.UpdateBotStatus e botID status kv).1 (configKey botID) = some (.json c) ∧
      c.botToken = cfg.botToken := by
  unfold RedisStorage.UpdateBotStatus
  split
  · exact ⟨cfg, hr, rfl⟩
  · rename_i c hc
    have hr' := RedisStorage.GetBot_ok hc
    rw [hr] at hr'
    cases hr'
    rw [RedisStorage.SaveBot_configKey]
    split
    · exact ⟨_, rfl, rfl⟩
    · exact ⟨cfg, hr, rfl⟩

/-! ## The store after a call of the service -/

theorem Service.DeleteBot_kv (s : Service) (e : DeleteEnv) (botID : String) (w : World) :
    (s.DeleteBot e botID w).1.kv =
      match RedisStorage.GetBot e.get botID w.kv with
      | .error _ => w.kv
      | .ok cfg =>
        (RedisStorage.DeleteBot e.exec botID cfg.botToken
          (RedisStorage.UpdateBotStatus e.status botID "deleting" w.kv).1).1 := by
  unfold Service.DeleteBot World.getBot
  rcases hg : RedisStorage.GetBot e.get botID w.kv with err | cfg
  · rfl
  · dsimp only
    have hk : ∀ w5 : World, w5.kv = (RedisStorage.UpdateBotStatus e.status botID "deleting" w.kv).1 →
        (match w5.deleteBot e.exec botID cfg.botToken with
          | (w6, some err) => (w6, some ("failed to delete bot from storage: " ++ err))
          | (w6, none) => (w6, none)).1.kv =
        (RedisStorage.DeleteBot e.exec botID cfg.botToken
          (RedisStorage.UpdateBotStatus e.status botID "deleting" w.kv).1).1 := by
      intro w5 h5
      unfold World.deleteBot
      rw [h5]
      rcases RedisStorage.DeleteBot e.exec botID cfg.botToken
        (RedisStorage.UpdateBotStatus e.status botID "deleting" w.kv).1 with ⟨kv6, _ | err⟩ <;> rfl
    apply hk
    rw [Admin.DeleteTopics_kv, Client.DeleteBotResources_kv, Client.DeleteScaledObject_kv,
      Telegram.DeleteWebhook_kv, World.updateBotStatus_kv]
    rfl

theorem applyReplicas_eq (e : UpdateEnv) (req : UpdateReplicasRequest) (cfg : BotConfig) :
    applyReplicas e req cfg =
      { cfg with
        minReplicas := req.minReplicas.getD cfg.minReplicas
        maxReplicas := req.maxReplicas.getD cfg.maxReplicas
        updatedAt := e.updatedAt } := by
  rcases req with ⟨_ | a, _ | b⟩ <;> rfl

theorem Service.UpdateReplicas_kv (s : Service) (e : UpdateEnv) (botID : String)
    (req : UpdateReplicasRequest) (w : World) :
    (s.UpdateReplicas e botID req w).1.kv =
      match RedisStorage.GetBot e.get botID w.kv with
      | .error _ => w.kv
      | .ok cfg => (RedisStorage.SaveBot e.save (applyReplicas e req cfg) w.kv).1 := by
  unfold Service.UpdateReplicas World.getBot
  rcases hg : RedisStorage.GetBot e.get botID w.kv with err | cfg
  · rfl
  · dsimp only
    unfold World.saveBot
    have hl : (w.log (Call.storageGetBot botID)).kv = w.kv := rfl
    rw [hl]
    rcases hs : RedisStorage.SaveBot e.save (applyReplicas e req cfg) w.kv with ⟨kv1, _ | err⟩
    · dsimp only
      have hk : ∀ w1 : World,
          (match Client.UpdateScaledObject e.scaler botID req.minReplicas req.maxReplicas w1 with
            | (w2, some err) => (w2, some ("failed to update scaledobject: " ++ err))
            | (w2, none) => (w2, none)).1.kv = w1.kv := by
        intro w1
        have := Client.UpdateScaledObject_kv e.scaler botID req.minReplicas req.maxReplicas w1
        rcases h : Client.UpdateScaledObject e.scaler botID req.minReplicas req.maxReplicas w1
          with ⟨w2, _ | err⟩
        all_goals
          rw [h] at this
          exact this
      exact hk _
    · rfl

theorem RecordsIndexed.indexed_empty : RecordsIndexed Store.empty := by
  intro id cfg h
  simp [Store.empty] at h

theorem RecordsIndexed.indexed_step (s : Service) {w : World} (hJ : RecordsIndexed w.kv) {op : Op}
    (hop : TokenUnused w op) : RecordsIndexed (s.step w op).kv := by
  cases op with
  | create e req =>
    show RecordsIndexed (s.CreateBot e req w).1.kv
    rcases hv : validateCreateRequest req with _ | err
    · obtain ⟨st, hst⟩ := s.CreateBot_kv e req w hv
      rw [hst]
      have hsave : RecordsIndexed (RedisStorage.SaveBot e.save (newBotConfig e req) w.kv).1 := by
        apply hJ.indexed_saveBot
        · intro id c hc ht
          exact absurd ht (hop.2 id c hc)
        · exact Or.inl hop.1
      split
      · exact hsave.indexed_updateBotStatus _ _ _
      · exact hsave
    · rw [s.CreateBot_kv_invalid e req w hv]
      exact hJ
  | delete e botID =>
    show RecordsIndexed (s.DeleteBot e botID w).1.kv
    rw [Service.DeleteBot_kv]
    split
    · exact hJ
    · rename_i cfg hg
      have hr := RedisStorage.GetBot_ok hg
      obtain ⟨c, hc, ht⟩ := RedisStorage.UpdateBotStatus_record hr e.status "deleting"
      rw [← ht]
      exact (hJ.indexed_updateBotStatus _ _ _).indexed_deleteBot _ hc
  | updateReplicas e botID req =>
    show RecordsIndexed (s.UpdateReplicas e botID req w).1.kv
    rw [Service.UpdateReplicas_kv]
    split
    · exact hJ
    · rename_i cfg hg
      have hr := RedisStorage.GetBot_ok hg
      obtain ⟨h1, h2⟩ := hJ botID cfg hr
      rw [applyReplicas_eq]
      apply hJ.indexed_saveBot
      · intro id c hc ht
        obtain ⟨_, h4⟩ := hJ id c hc
        have ht' : c.botToken = cfg.botToken := ht
        rw [ht', h2] at h4
        show id = cfg.botID
        rw [h1]
        injection h4 with h4
        injection h4 with h4
        exact h4.symm
      · right
        show w.kv (tokenKey cfg.botToken) = some (.str cfg.botID)
        rw [h1]; exact h2
  | updateStatus e botID status =>
    show RecordsIndexed (w.updateBotStatus e botID status).1.kv
    rw [World.updateBotStatus_kv]
    exact hJ.indexed_updateBotStatus _ _ _

theorem RecordsIndexed.indexed_run (s : Service) (ops : List Op) :
    ∀ w : World, RecordsIndexed w.kv → s.Admissible TokenUnused w ops →
      RecordsIndexed (s.run w ops).kv := by
  induction ops with
  | nil => intro w hJ _; exact hJ
  | cons op ops ih =>
    intro w hJ h
    exact ih _ (hJ.indexed_step s h.1) h.2

/-! ## The consistency of the store, step by step -/

theorem StoreWellFormed.wf_empty : StoreWellFormed Store.empty := by
  refine ⟨?_, ?_, ?_, ?_⟩
  · intro id
    simp [Store.members, Store.smembers, Store.empty]
  · intro t b h
    simp [Store.empty] at h
  · intro id cfg h
    simp [Store.empty] at h
  · simp [Store.smembers, Store.empty]

theorem StoreWellFormed.consistent {kv : Store} (h : StoreWellFormed kv) :
    StoreConsistent kv := by
  obtain ⟨ha, hc, _, _⟩ := h
  refine ⟨ha, ?_, hc⟩
  intro t1 t2 b h1 h2
  obtain ⟨c1, hc1, ht1⟩ := hc t1 b h1
  obtain ⟨c2, hc2, ht2⟩ := hc t2 b h2
  rw [hc1] at hc2
  cases hc2
  rw [← ht1, ← ht2]

/-- Saving a record over a stored record with the same id and token. -/
theorem StoreWellFormed.saveBot_existing {kv : Store} (hK : StoreWellFormed kv) (e : SaveEnv)
    (cfg c0 : BotConfig) (h0 : kv (configKey cfg.botID) = some (.json c0))
    (ht0 : c0.botToken = cfg.botToken) :
    StoreWellFormed (RedisStorage.SaveBot e cfg kv).1 := by
  obtain ⟨ha, hc, hj, hs⟩ := hK
  have hmem : cfg.botID ∈ kv.members := (ha _).2 (by rw [h0]; rfl)
  refine ⟨?_, ?_, ?_, ?_⟩
  · intro id
    rw [(RedisStorage.SaveBot_members e cfg kv hs id).2, RedisStorage.SaveBot_configKey]
    constructor
    · rintro (h | ⟨h1, _, _, rfl⟩)
      · split
        · rfl
        · exact (ha id).1 h
      · rw [if_pos ⟨h1, rfl⟩]; rfl
    · intro h
      split at h
      · rename_i hc'
        left
        rw [hc'.2]; exact hmem
      · exact Or.inl ((ha id).2 h)
  · intro t b h
    rw [RedisStorage.SaveBot_tokenKey] at h
    split at h
    · rename_i hc'
      cases h
      refine ⟨cfg, ?_, hc'.2.2.symm⟩
      rw [RedisStorage.SaveBot_configKey, if_pos ⟨hc'.1, rfl⟩]
    · obtain ⟨c, hcb, hct⟩ := hc t b h
      rw [RedisStorage.SaveBot_configKey]
      split
      · rename_i hc'
        refine ⟨cfg, rfl, ?_⟩
        rw [hc'.2, h0] at hcb
        cases hcb
        rw [← ht0]; exact hct
      · exact ⟨c, hcb, hct⟩
  · intro id c h
    rw [RedisStorage.SaveBot_configKey] at h
    split at h
    · rename_i hc'
      cases h
      exact hc'.2.symm
    · exact hj id c h
  · exact (RedisStorage.SaveBot_members e cfg kv hs "").1

/-- Saving a record under an id that is not in the store, when the writes of
the token key and of the bot set do not fail. -/
theorem StoreWellFormed.saveBot_new {kv : Store} (hK : StoreWellFormed kv) (e : SaveEnv)
    {cfg : BotConfig} (h0 : kv (configKey cfg.botID) = none)
    (h2 : e.setToken = none) (h3 : e.sadd = none) :
    StoreWellFormed (RedisStorage.SaveBot e cfg kv).1 := by
  obtain ⟨ha, hc, hj, hs⟩ := hK
  refine ⟨?_, ?_, ?_, ?_⟩
  · intro id
    rw [(RedisStorage.SaveBot_members e cfg kv hs id).2, RedisStorage.SaveBot_configKey]
    constructor
    · rintro (h | ⟨h1, _, _, rfl⟩)
      · split
        · rfl
        · exact (ha id).1 h
      · rw [if_pos ⟨h1, rfl⟩]; rfl
    · intro h
      split at h
      · rename_i hc'
        exact Or.inr ⟨hc'.1, h2, h3, hc'.2⟩
      · exact Or.inl ((ha id).2 h)
  · intro t b h
    rw [RedisStorage.SaveBot_tokenKey] at h
    split at h
    · rename_i hc'
      cases h
      refine ⟨cfg, ?_, hc'.2.2.symm⟩
      rw [RedisStorage.SaveBot_configKey, if_pos ⟨hc'.1, rfl⟩]
    · obtain ⟨c, hcb, hct⟩ := hc t b h
      rw [RedisStorage.SaveBot_configKey]
      split
      · rename_i hc'
        rw [hc'.2, h0] at hcb
        cases hcb
      · exact ⟨c, hcb, hct⟩
  · intro id c h
    rw [RedisStorage.SaveBot_configKey] at h
    split at h
    · rename_i hc'
      cases h
      exact hc'.2.symm
    · exact hj id c h
  · exact (RedisStorage.SaveBot_members e cfg kv hs "").1

theorem StoreWellFormed.wf_updateBotStatus {kv : Store} (hK : StoreWellFormed kv)
    (e : StatusEnv) (botID status : String) :
    StoreWellFormed (RedisStorage.UpdateBotStatus e botID status kv).1 := by
  unfold RedisStorage.UpdateBotStatus
  split
  · exact hK
  · rename_i c hc
    have hr := RedisStorage.GetBot_ok hc
    have hid := hK.2.2.1 botID c hr
    apply hK.saveBot_existing e.save _ c
    · show kv (configKey c.botID) = _
      rw [hid]; exact hr
    · rfl

theorem StoreWellFormed.wf_deleteBot {kv : Store} (hK : StoreWellFormed kv)
    (exec : Option String) {botID : String} {cfg : BotConfig}
    (hr : kv (configKey botID) = some (.json cfg)) :
    StoreWellFormed (RedisStorage.DeleteBot exec botID cfg.botToken kv).1 := by
  obtain ⟨ha, hc, hj, hs⟩ := hK
  refine ⟨?_, ?_, ?_, ?_⟩
  · intro id
    rw [(RedisStorage.DeleteBot_members exec botID cfg.botToken kv hs id).2,
      RedisStorage.DeleteBot_configKey]
    constructor
    · rintro ⟨h1, h2⟩
      rw [if_neg h2]
      exact (ha id).1 h1
    · intro h
      split at h
      · cases h
      · rename_i hn
        exact ⟨(ha id).2 h, hn⟩
  · intro t b h
    rw [RedisStorage.DeleteBot_tokenKey] at h
    split at h
    · cases h
    · rename_i hn
      obtain ⟨c, hcb, hct⟩ := hc t b h
      refine ⟨c, ?_, hct⟩
      rw [RedisStorage.DeleteBot_configKey]
      split
      · rename_i hc'
        exfalso
        apply hn
        refine ⟨hc'.1, ?_⟩
        rw [hc'.2, hr] at hcb
        cases hcb
        exact hct.symm
      · exact hcb
  · intro id c h
    rw [RedisStorage.DeleteBot_configKey] at h
    split at h
    · cases h
    · exact hj id c h
  · exact (RedisStorage.DeleteBot_members exec botID cfg.botToken kv hs "").1

theorem StoreWellFormed.wf_step (s : Service) {w : World} (hK : StoreWellFormed w.kv) {op : Op}
    (hop : SavedWhole w op) : StoreWellFormed (s.step w op).kv := by
  cases op with
  | create e req =>
    show StoreWellFormed (s.CreateBot e req w).1.kv
    rcases hv : validateCreateRequest req with _ | err
    · obtain ⟨st, hst⟩ := s.CreateBot_kv e req w hv
      rw [hst]
      have hsave : StoreWellFormed (RedisStorage.SaveBot e.save (newBotConfig e req) w.kv).1 :=
        hK.saveBot_new e.save hop.2.2 hop.1 hop.2.1
      split
      · exact hsave.wf_updateBotStatus _ _ _
      · exact hsave
    · rw [s.CreateBot_kv_invalid e req w hv]
      exact hK
  | delete e botID =>
    show StoreWellFormed (s.DeleteBot e botID w).1.kv
    rw [Service.DeleteBot_kv]
    split
    · exact hK
    · rename_i cfg hg
      have hr := RedisStorage.GetBot_ok hg
      obtain ⟨c, hc, ht⟩ := RedisStorage.UpdateBotStatus_record hr e.status "deleting"
      rw [← ht]
      exact (hK.wf_updateBotStatus _ _ _).wf_deleteBot _ hc
  | updateReplicas e botID req =>
    show StoreWellFormed (s.UpdateReplicas e botID req w).1.kv
    rw [Service.UpdateReplicas_kv]
    split
    · exact hK
    · rename_i cfg hg
      have hr := RedisStorage.GetBot_ok hg
      have hid := hK.2.2.1 botID cfg hr
      rw [applyReplicas_eq]
      apply hK.saveBot_existing e.save _ cfg
      · show w.kv (configKey cfg.botID) = _
        rw [hid]; exact hr
      · rfl
  | updateStatus e botID status =>
    show StoreWellFormed (w.updateBotStatus e botID status).1.kv
    rw [World.updateBotStatus_kv]
    exact hK.wf_updateBotStatus _ _ _

theorem StoreWellFormed.wf_run (s : Service) (ops : List Op) :
    ∀ w : World, StoreWellFormed w.kv → s.Admissible SavedWhole w ops →
      StoreWellFormed (s.run w ops).kv := by
  induction ops with
  | nil => intro w hK _; exact hK
  | cons op ops ih =>
    intro w hK h
    exact ih _ (hK.wf_step s h.1) h.2

/-! ## `CreateBot`, case by case -/

theorem Service.CreateBot_topics_fail (s : Service) (e : CreateEnv) (req : CreateBotRequest)
    {w w1 w2 : World} {err : String}
    (hv : validateCreateRequest req = none)
    (hs : w.saveBot e.save (newBotConfig e req) = (w1, none))
    (ht : Admin.CreateTopics e.topics (generateBotID e.rnd) w1 = (w2, some err)) :
    s.CreateBot e req w =
      ((w2.updateBotStatus e.status (generateBotID e.rnd) "failed").1,
       .error ("failed to create kafka topics: " ++ err)) := by
  unfold Service.CreateBot
  simp only [hv, hs, ht]

theorem Service.CreateBot_resources_fail (s : Service) (e : CreateEnv)
    (req : CreateBotRequest) {w w1 w2 w3 : World} {err : String}
    (hv : validateCreateRequest req = none)
    (hs : w.saveBot e.save (newBotConfig e req) = (w1, none))
    (ht : Admin.CreateTopics e.topics (generateBotID e.rnd) w1 = (w2, none))
    (hr : Client.CreateBotResources e.resources (newBotConfig e req) w2 = (w3, some err)) :
    s.CreateBot e req w =
      ((w3.updateBotStatus e.status (generateBotID e.rnd) "failed").1,
       .error ("failed to create k8s resources: " ++ err)) := by
  unfold Service.CreateBot
  simp only [hv, hs, ht, hr]

theorem Service.CreateBot_scaler_fail (s : Service) (e : CreateEnv)
    (req : CreateBotRequest) {w w1 w2 w3 w4 : World} {err : String}
    (hv : validateCreateRequest req = none)
    (hs : w.saveBot e.save (newBotConfig e req) = (w1, none))
    (ht : Admin.CreateTopics e.topics (generateBotID e.rnd) w1 = (w2, none))
    (hr : Client.CreateBotResources e.resources (newBotConfig e req) w2 = (w3, none))
    (hc : Client.CreateScaledObject e.scaler (newBotConfig e req) w3 = (w4, some err)) :
    s.CreateBot e req w =
      ((w4.updateBotStatus e.status (generateBotID e.rnd) "failed").1,
       .error ("failed to create scaledobject: " ++ err)) := by
  unfold Service.CreateBot
  simp only [hv, hs, ht, hr, hc]

theorem Service.CreateBot_provisioned (s : Service) (e : CreateEnv)
    (req : CreateBotRequest) {w w1 w2 w3 w4 : World}
    (hv : validateCreateRequest req = none)
    (hs : w.saveBot e.save (newBotConfig e req) = (w1, none))
    (ht : Admin.CreateTopics e.topics (generateBotID e.rnd) w1 = (w2, none))
    (hr : Client.CreateBotResources e.resources (newBotConfig e req) w2 = (w3, none))
    (hc : Client.CreateScaledObject e.scaler (newBotConfig e req) w3 = (w4, none)) :
    s.CreateBot e req w =
      (((s.registerWebhook e req (s.gatewayURL ++ "/webhook/" ++ req.botToken) w4).updateBotStatus
          e.status (generateBotID e.rnd) "running").1,
       .ok
        { botID := generateBotID e.rnd
          status := "created"
          kafkaTopics :=
            { incoming := incomingTopic (generateBotID e.rnd)
              outgoing := outgoingTopic (generateBotID e.rnd) }
          webhookURL := s.gatewayURL ++ "/webhook/" ++ req.botToken }) := by
  unfold Service.CreateBot
  simp only [hv, hs, ht, hr, hc]

/-- After a `SaveBot` without error the record is under its key. -/
theorem RedisStorage.SaveBot_ok_record {e : SaveEnv} {cfg : BotConfig} {kv : Store}
    (h : (RedisStorage.SaveBot e cfg kv).2 = none) :
    (RedisStorage.SaveBot e cfg kv).1 (configKey cfg.botID) = some (.json cfg) ∧
    (RedisStorage.SaveBot e cfg kv).1 (tokenKey cfg.botToken) = some (.str cfg.botID) ∧
    cfg.botID ∈ (RedisStorage.SaveBot e cfg kv).1.members := by
  have he : e.setConfig = none ∧ e.setToken = none ∧ e.sadd = none := by
    unfold RedisStorage.SaveBot at h
    rcases e with ⟨_ | e1, _ | e2, _ | e3⟩ <;> simp at h ⊢
  have hset : (kv.smembers allKey).isSome = true := by
    unfold RedisStorage.SaveBot at h
    obtain ⟨h1, h2, h3⟩ := he
    simp only [h1, h2, h3] at h
    unfold Store.sadd at h
    rw [Store.put_other _ _ (allKey_ne_tokenKey _),
      Store.put_other _ _ (allKey_ne_configKey _)] at h
    unfold Store.smembers
    rcases hv : kv allKey with _ | _ | _ | ms
    · rfl
    · simp [hv] at h
    · simp [hv] at h
    · rfl
  refine ⟨?_, ?_, ?_⟩
  · rw [RedisStorage.SaveBot_configKey, if_pos ⟨he.1, rfl⟩]
  · rw [RedisStorage.SaveBot_tokenKey, if_pos ⟨he.1, he.2.1, rfl⟩]
  · rw [(RedisStorage.SaveBot_members e cfg kv hset _).2]
    exact Or.inr ⟨he.1, he.2.1, he.2.2, rfl⟩

/-- The record under a key after a status update whose load and whose write
of the record succeed. -/
theorem RedisStorage.UpdateBotStatus_status {kv : Store} {botID : String} {cfg : BotConfig}
    (hr : kv (configKey botID) = some (.json cfg)) (hid : cfg.botID = botID)
    (e : StatusEnv) (status : String) (hg : e.get = none) (hw : e.save.setConfig = none) :
    (RedisStorage.UpdateBotStatus e botID status kv).1 (configKey botID) =
      some (.json { cfg with status := status }) := by
  unfold RedisStorage.UpdateBotStatus RedisStorage.GetBot
  simp only [hg, hr]
  rw [RedisStorage.SaveBot_configKey, if_pos ⟨hw, hid.symm⟩]

/-! ## `DeleteBot`, step by step -/

theorem Service.DeleteBot_not_loaded (s : Service) (e : DeleteEnv) (botID : String)
    (w : World) {err : String} (hg : RedisStorage.GetBot e.get botID w.kv = .error err) :
    s.DeleteBot e botID w = (w.log (.storageGetBot botID), some ("bot not found: " ++ err)) := by
  unfold Service.DeleteBot World.getBot
  simp only [hg]

/-- The world in which `DeleteBot` removes the record: the one after the
status update and the four clean-up steps. -/
theorem Service.DeleteBot_loaded (s : Service) (e : DeleteEnv) (botID : String)
    (w : World) {cfg : BotConfig} (hg : RedisStorage.GetBot e.get botID w.kv = .ok cfg) :
    s.DeleteBot e botID w =
      (((Admin.DeleteTopics e.topics botID
          (Client.DeleteBotResources e.resources botID
            (Client.DeleteScaledObject e.scaler botID
              (Telegram.DeleteWebhook e.deleteWebhook cfg.botToken
                ((w.log (.storageGetBot botID)).updateBotStatus e.status botID
                  "deleting").1).1).1).1).1.deleteBot e.exec botID cfg.botToken).1,
       ((RedisStorage.DeleteBot e.exec botID cfg.botToken
          (RedisStorage.UpdateBotStatus e.status botID "deleting" w.kv).1).2).map
        (fun err => "failed to delete bot from storage: " ++ err)) := by
  unfold Service.DeleteBot World.getBot
  simp only [hg]
  unfold World.deleteBot
  simp only [Admin.DeleteTopics_kv, Client.DeleteBotResources_kv, Client.DeleteScaledObject_kv,
    Telegram.DeleteWebhook_kv, World.updateBotStatus_kv]
  have hl : (w.log (Call.storageGetBot botID)).kv = w.kv := rfl
  rw [hl]
  rcases RedisStorage.DeleteBot e.exec botID cfg.botToken
    (RedisStorage.UpdateBotStatus e.status botID "deleting" w.kv).1 with ⟨kv6, _ | err⟩ <;> rfl

theorem Admin.DeleteTopics_trace (e : KafkaEnv) (botID : String) (w : World) :
    (Admin.DeleteTopics e botID w).1.trace = w.trace ++ [.kafkaDeleteTopics botID] := by
  rcases e with ⟨_ | _, _ | _, _ | _, _ | _⟩ <;> rfl

theorem Client.DeleteScaledObject_trace (r : Option ApiError) (botID : String) (w : World) :
    (Client.DeleteScaledObject r botID w).1.trace =
      w.trace ++ [.k8sDeleteScaledObject (scaledObjectName botID)] := by
  rcases r with _ | _ | _ | _ <;> rfl

theorem Telegram.DeleteWebhook_trace (r : Option String) (t : String) (w : World) :
    (Telegram.DeleteWebhook r t w).1.trace = w.trace ++ [.tgDeleteWebhook t] := by
  rcases r with _ | _ <;> rfl

theorem Client.DeleteBotResources_trace (e : ResourcesEnv) (botID : String) (w : World) :
    (Client.DeleteBotResources e botID w).1.trace =
      w.trace ++ [.k8sDeleteDeployment (deploymentName botID)] ++
        (if e.deployment = none ∨ e.deployment = some .notFound
         then [.k8sDeleteSecret (secretName botID)] else []) := by
  rcases e with ⟨_ | _ | _ | _, _ | _ | _ | _⟩ <;> simp [Client.DeleteBotResources, World.log]

theorem Service.DeleteBot_trace (s : Service) (e : DeleteEnv) (botID : String)
    (w : World) {cfg : BotConfig} (hg : RedisStorage.GetBot e.get botID w.kv = .ok cfg) :
    (s.DeleteBot e botID w).1.trace =
      w.trace ++
        [.storageGetBot botID, .storageUpdateBotStatus botID "deleting",
         .tgDeleteWebhook cfg.botToken, .k8sDeleteScaledObject (scaledObjectName botID),
         .k8sDeleteDeployment (deploymentName botID)] ++
        (if e.resources.deployment = none ∨ e.resources.deployment = some .notFound
         then [.k8sDeleteSecret (secretName botID)] else []) ++
        [.kafkaDeleteTopics botID, .storageDeleteBot botID cfg.botToken] := by
  rw [s.DeleteBot_loaded e botID w hg]
  show (Admin.DeleteTopics _ _ _).1.trace ++ [_] = _
  rw [Admin.DeleteTopics_trace, Client.DeleteBotResources_trace, Client.DeleteScaledObject_trace,
    Telegram.DeleteWebhook_trace]
  show (((((w.trace ++ [_]) ++ [_]) ++ [_]) ++ [_]) ++ [_] ++ _ ++ [_]) ++ [_] = _
  simp only [List.append_assoc, List.singleton_append, List.cons_append, List.nil_append]

theorem World.saveBot_eq (w : World) (e : SaveEnv) (cfg : BotConfig) {w1 : World}
    {r : Option String} (h : w.saveBot e cfg = (w1, r)) :
    w1.kv = (RedisStorage.SaveBot e cfg w.kv).1 ∧ (RedisStorage.SaveBot e cfg w.kv).2 = r := by
  unfold World.saveBot at h
  cases h
  exact ⟨rfl, rfl⟩

/-- After a valid request is saved, `CreateBot` ends with one status update
on the saved store: to `running` when it answers, to `failed` when it returns
an error. -/
theorem Service.CreateBot_saved (s : Service) (e : CreateEnv) (req : CreateBotRequest)
    {w w1 : World} (hv : validateCreateRequest req = none)
    (hs : w.saveBot e.save (newBotConfig e req) = (w1, none)) :
    ((∃ r, (s.CreateBot e req w).2 = .ok r) ∧
      (s.CreateBot e req w).1.kv =
        (RedisStorage.UpdateBotStatus e.status (generateBotID e.rnd) "running" w1.kv).1) ∨
    ((∃ err, (s.CreateBot e req w).2 = .error err) ∧
      (s.CreateBot e req w).1.kv =
        (RedisStorage.UpdateBotStatus e.status (generateBotID e.rnd) "failed" w1.kv).1) := by
  rcases ht : Admin.CreateTopics e.topics (generateBotID e.rnd) w1 with ⟨w2, _ | err⟩
  · have k2 := Admin.CreateTopics_kv e.topics (generateBotID e.rnd) w1
    rw [ht] at k2
    rcases hr : Client.CreateBotResources e.resources (newBotConfig e req) w2 with ⟨w3, _ | err⟩
    · have k3 := Client.CreateBotResources_kv e.resources (newBotConfig e req) w2
      rw [hr] at k3
      rcases hc : Client.CreateScaledObject e.scaler (newBotConfig e req) w3 with ⟨w4, _ | err⟩
      · have k4 := Client.CreateScaledObject_kv e.scaler (newBotConfig e req) w3
        rw [hc] at k4
        rw [s.CreateBot_provisioned e req hv hs ht hr hc]
        left
        refine ⟨⟨_, rfl⟩, ?_⟩
        show (World.updateBotStatus _ _ _ _).1.kv = _
        rw [World.updateBotStatus_kv, Service.registerWebhook_kv,
          show w4.kv = w1.kv from k4.trans (k3.trans k2)]
      · have k4 := Client.CreateScaledObject_kv e.scaler (newBotConfig e req) w3
        rw [hc] at k4
        rw [s.CreateBot_scaler_fail e req hv hs ht hr hc]
        right
        refine ⟨⟨_, rfl⟩, ?_⟩
        show (World.updateBotStatus _ _ _ _).1.kv = _
        rw [World.updateBotStatus_kv, show w4.kv = w1.kv from k4.trans (k3.trans k2)]
    · have k3 := Client.CreateBotResources_kv e.resources (newBotConfig e req) w2
      rw [hr] at k3
      rw [s.CreateBot_resources_fail e req hv hs ht hr]
      right
      refine ⟨⟨_, rfl⟩, ?_⟩
      show (World.updateBotStatus _ _ _ _).1.kv = _
      rw [World.updateBotStatus_kv, show w3.kv = w1.kv from k3.trans k2]
  · have k2 := Admin.CreateTopics_kv e.topics (generateBotID e.rnd) w1
    rw [ht] at k2
    rw [s.CreateBot_topics_fail e req hv hs ht]
    right
    refine ⟨⟨_, rfl⟩, ?_⟩
    show (World.updateBotStatus _ _ _ _).1.kv = _
    rw [World.updateBotStatus_kv, show w2.kv = w1.kv from k2]

/-- The record in the store after a valid request is saved and `CreateBot`
has made its status update, when the load and the write of that update
succeed. -/
theorem Service.CreateBot_saved_status (s : Service) (e : CreateEnv) (req : CreateBotRequest)
    {w w1 : World} (hv : validateCreateRequest req = none)
    (hs : w.saveBot e.save (newBotConfig e req) = (w1, none))
    (hg : e.status.get = none) (hw : e.status.save.setConfig = none) :
    ((∃ r, (s.CreateBot e req w).2 = .ok r) ∧
      (s.CreateBot e req w).1.kv (configKey (generateBotID e.rnd)) =
        some (.json { newBotConfig e req with status := "running" })) ∨
    ((∃ err, (s.CreateBot e req w).2 = .error err) ∧
      (s.CreateBot e req w).1.kv (configKey (generateBotID e.rnd)) =
        some (.json { newBotConfig e req with status := "failed" })) := by
  obtain ⟨hk, hr⟩ := w.saveBot_eq e.save (newBotConfig e req) hs
  have hrec : w1.kv (configKey (generateBotID e.rnd)) = some (.json (newBotConfig e req)) := by
    rw [hk]
    exact (RedisStorage.SaveBot_ok_record hr).1
  rcases s.CreateBot_saved e req hv hs with ⟨h1, h2⟩ | ⟨h1, h2⟩
  · left
    refine ⟨h1, ?_⟩
    rw [h2]
    exact RedisStorage.UpdateBotStatus_status hrec rfl e.status "running" hg hw
  · right
    refine ⟨h1, ?_⟩
    rw [h2]
    exact RedisStorage.UpdateBotStatus_status hrec rfl e.status "failed" hg hw

theorem RedisStorage.DeleteBot_ok_exec {exec : Option String} {botID botToken : String}
    {kv : Store} (h : (RedisStorage.DeleteBot exec botID botToken kv).2 = none) :
    exec = none ∧ (kv.smembers allKey).isSome = true := by
  unfold RedisStorage.DeleteBot at h
  rcases exec with _ | err
  · refine ⟨rfl, ?_⟩
    dsimp only at h
    unfold Store.srem at h
    rw [Store.del_other _ (allKey_ne_tokenKey _), Store.del_other _ (allKey_ne_configKey _)] at h
    unfold Store.smembers
    rcases hv : kv allKey with _ | _ | _ | ms
    · rfl
    · simp [hv] at h
    · simp [hv] at h
    · rfl
  · simp at h

theorem Service.DeleteBot_ok_loaded (s : Service) (e : DeleteEnv) (botID : String) (w : World)
    (h : (s.DeleteBot e botID w).2 = none) :
    ∃ cfg, RedisStorage.GetBot e.get botID w.kv = .ok cfg ∧
      (RedisStorage.DeleteBot e.exec botID cfg.botToken
        (RedisStorage.UpdateBotStatus e.status botID "deleting" w.kv).1).2 = none := by
  rcases hg : RedisStorage.GetBot e.get botID w.kv with err | cfg
  · rw [s.DeleteBot_not_loaded e botID w hg] at h
    cases h
  · refine ⟨cfg, rfl, ?_⟩
    rw [s.DeleteBot_loaded e botID w hg] at h
    simpa using h

theorem removeName_not_mem (n : String) (ns : List String) : n ∉ removeName n ns := by
  simp [removeName]

theorem removeName_not_mem_of {n m : String} {ns : List String} (h : n ∉ ns) :
    n ∉ removeName m ns := by
  simp only [removeName, List.mem_filter, not_and]
  intro h'
  exact absurd h' h

theorem Admin.DeleteTopics_ok_topics (botID : String) (w : World) :
    incomingTopic botID ∉ (Admin.DeleteTopics okKafka botID w).1.topics ∧
    outgoingTopic botID ∉ (Admin.DeleteTopics okKafka botID w).1.topics := by
  constructor
  · exact removeName_not_mem_of (removeName_not_mem _ _)
  · exact removeName_not_mem _ _

theorem Service.CreateBot_ok (s : Service) (e : CreateEnv) (req : CreateBotRequest)
    (w : World) {resp : CreateBotResponse} (h : (s.CreateBot e req w).2 = .ok resp) :
    validateCreateRequest req = none ∧
    (w.saveBot e.save (newBotConfig e req)).2 = none ∧
    resp.botID = generateBotID e.rnd := by
  rcases hv : validateCreateRequest req with _ | err
  · rcases hs : w.saveBot e.save (newBotConfig e req) with ⟨w1, _ | err⟩
    · refine ⟨rfl, rfl, ?_⟩
      rcases ht : Admin.CreateTopics e.topics (generateBotID e.rnd) w1 with ⟨w2, _ | err⟩
      · rcases hr : Client.CreateBotResources e.resources (newBotConfig e req) w2
          with ⟨w3, _ | err⟩
        · rcases hc : Client.CreateScaledObject e.scaler (newBotConfig e req) w3
            with ⟨w4, _ | err⟩
          · rw [s.CreateBot_provisioned e req hv hs ht hr hc] at h
            cases h
            rfl
          · rw [s.CreateBot_scaler_fail e req hv hs ht hr hc] at h
            cases h
        · rw [s.CreateBot_resources_fail e req hv hs ht hr] at h
          cases h
      · rw [s.CreateBot_topics_fail e req hv hs ht] at h
        cases h
    · unfold Service.CreateBot at h
      simp only [hv, hs] at h
      cases h
  · unfold Service.CreateBot at h
    simp only [hv] at h
    cases h

/-! ## The slices of the gateway -/

theorem goSlice_head (s : List Nat) (n : Nat) (h : n ≤ s.length) :
    goSlice s 0 n = some (s.take n) := by
  unfold goSlice
  have h1 : (0 : Int) ≤ 0 ∧ (0 : Int) ≤ (n : Int) ∧ (n : Int) ≤ (s.length : Int) :=
    ⟨le_refl _, by omega, by omega⟩
  rw [if_pos h1]
  simp

theorem goSlice_tail (s : List Nat) (n : Nat) (h : n ≤ s.length) :
    goSlice s ((s.length : Int) - n) s.length = some (s.drop (s.length - n)) := by
  unfold goSlice
  have h1 : (0 : Int) ≤ (s.length : Int) - n ∧ (s.length : Int) - n ≤ (s.length : Int) ∧
      (s.length : Int) ≤ (s.length : Int) := ⟨by omega, by omega, le_refl _⟩
  rw [if_pos h1]
  have h2 : ((s.length : Int) - (n : Int)).toNat = s.length - n := by omega
  rw [h2]
  simp

theorem ascii_bot_length : (ascii "bot_").length = 4 := by decide
theorem ascii_outgoing_length : (ascii "_outgoing").length = 9 := by decide
theorem ascii_stars_length : (ascii "***").length = 3 := by decide

theorem Gateway.isOutgoingTopic_eq (topic : List Nat) :
    Gateway.isOutgoingTopic topic = some (startsWithBot topic && endsWithOutgoing topic) := by
  unfold Gateway.isOutgoingTopic startsWithBot endsWithOutgoing
  by_cases hlen : (topic.length : Int) > 8
  · have h9 : 9 ≤ topic.length := by omega
    have hp4 := goSlice_head topic 4 (by omega)
    simp only [Nat.cast_ofNat] at hp4
    rw [if_pos hlen, hp4]
    have hs := goSlice_tail topic 9 h9
    simp only [Nat.cast_ofNat] at hs
    rw [hs]
    dsimp only
    have hp : (ascii "bot_").isPrefixOf topic = decide (topic.take 4 = ascii "bot_") := by
      rw [Bool.eq_iff_iff]
      simp only [ List.isPrefixOf_iff_prefix, decide_eq_true_eq]
      rw [ List.prefix_iff_eq_take, ascii_bot_length]
      exact eq_comm
    have hq : (ascii "_outgoing").isSuffixOf topic =
        decide (topic.drop (topic.length - 9) = ascii "_outgoing") := by
      rw [Bool.eq_iff_iff]
      simp only [List.isSuffixOf_iff_suffix, decide_eq_true_eq]
      rw [List.suffix_iff_eq_drop, ascii_outgoing_length]
      exact eq_comm
    rw [hp, hq]
    by_cases h4 : topic.take 4 = ascii "bot_"
    · simp [h4]
    · simp [h4]
  · rw [if_neg hlen]
    have hq : (ascii "_outgoing").isSuffixOf topic = false := by
      rw [Bool.eq_false_iff]
      intro h
      rw [List.isSuffixOf_iff_suffix] at h
      have := h.length_le
      rw [ascii_outgoing_length] at this
      omega
    rw [hq]
    simp

theorem Gateway.collectOutgoing_spec (partitions : List (List Nat)) :
    ∀ topicMap : List (List Nat), topicMap.Nodup →
      ∃ topics, Gateway.collectOutgoing partitions topicMap = some topics ∧ topics.Nodup ∧
        ∀ t, t ∈ topics ↔
          t ∈ topicMap ∨ (t ∈ partitions ∧ startsWithBot t = true ∧ endsWithOutgoing t = true) := by
  induction partitions with
  | nil =>
    intro topicMap hnd
    exact ⟨topicMap, rfl, hnd, fun t => by simp⟩
  | cons topic rest ih =>
    intro topicMap hnd
    unfold Gateway.collectOutgoing
    rw [Gateway.isOutgoingTopic_eq]
    by_cases hm : (startsWithBot topic && endsWithOutgoing topic) = true
    · rw [hm]
      dsimp only
      have hm' : startsWithBot topic = true ∧ endsWithOutgoing topic = true := by
        simpa using hm
      by_cases hin : topic ∈ topicMap
      · rw [if_pos hin]
        obtain ⟨topics, h1, h2, h3⟩ := ih topicMap hnd
        refine ⟨topics, h1, h2, fun t => ?_⟩
        rw [h3 t]
        constructor
        · rintro (h | ⟨h, hb⟩)
          · exact Or.inl h
          · exact Or.inr ⟨List.mem_cons_of_mem _ h, hb⟩
        · rintro (h | ⟨h, hb⟩)
          · exact Or.inl h
          · rcases List.mem_cons.1 h with rfl | h
            · exact Or.inl hin
            · exact Or.inr ⟨h, hb⟩
      · rw [if_neg hin]
        have hnd' : (topicMap ++ [topic]).Nodup := by
          rw [List.nodup_append]
          refine ⟨hnd, List.nodup_singleton _, ?_⟩
          intro a ha hb
          rw [List.mem_singleton] at hb
          exact hin (hb ▸ ha)
        obtain ⟨topics, h1, h2, h3⟩ := ih (topicMap ++ [topic]) hnd'
        refine ⟨topics, h1, h2, fun t => ?_⟩
        rw [h3 t]
        constructor
        · rintro (h | ⟨h, hb⟩)
          · rcases List.mem_append.1 h with h | h
            · exact Or.inl h
            · rw [List.mem_singleton] at h
              subst h
              exact Or.inr ⟨List.mem_cons_self _ _, hm'⟩
          · exact Or.inr ⟨List.mem_cons_of_mem _ h, hb⟩
        · rintro (h | ⟨h, hb⟩)
          · exact Or.inl (List.mem_append_left _ h)
          · rcases List.mem_cons.1 h with rfl | h
            · exact Or.inl (List.mem_append_right _ (List.mem_singleton_self _))
            · exact Or.inr ⟨h, hb⟩
    · have hm2 : (startsWithBot topic && endsWithOutgoing topic) = false := by
        simpa using hm
      rw [hm2]
      dsimp only
      obtain ⟨topics, h1, h2, h3⟩ := ih topicMap hnd
      refine ⟨topics, h1, h2, fun t => ?_⟩
      rw [h3 t]
      constructor
      · rintro (h | ⟨h, hb⟩)
        · exact Or.inl h
        · exact Or.inr ⟨List.mem_cons_of_mem _ h, hb⟩
      · rintro (h | ⟨h, hb⟩)
        · exact Or.inl h
        · rcases List.mem_cons.1 h with rfl | h
          · exfalso
            rw [hb.1, hb.2] at hm2
            simp at hm2
          · exact Or.inr ⟨h, hb⟩

/-! ## Decimal strings -/

theorem digitChar_toNat (m : Nat) (h : m < 10) : (Nat.digitChar m).toNat = 48 + m := by
  interval_cases m <;> rfl

theorem parseDigits_cons_digit (acc m : Nat) (h : m < 10) (cs : List Char) :
    parseDigits acc (Nat.digitChar m :: cs) = parseDigits (10 * acc + m) cs := by
  have hd := digitChar_toNat m h
  rw [parseDigits, if_pos (by omega), hd]
  congr 1
  omega

theorem parseDigits_toDigitsCore (fuel : Nat) :
    ∀ n ds, n < fuel → parseDigits 0 (Nat.toDigitsCore 10 fuel n ds) = parseDigits n ds := by
  induction fuel with
  | zero => intro n ds h; omega
  | succ fuel ih =>
    intro n ds h
    unfold Nat.toDigitsCore
    dsimp only
    by_cases h0 : n / 10 = 0
    · rw [if_pos h0, parseDigits_cons_digit 0 (n % 10) (Nat.mod_lt _ (by decide))]
      congr 1
      omega
    · rw [if_neg h0, ih (n / 10) _ (by omega),
        parseDigits_cons_digit (n / 10) (n % 10) (Nat.mod_lt _ (by decide))]
      congr 1
      omega

theorem parseDigits_repr (n : Nat) : parseDigits 0 (Nat.repr n).data = some n := by
  have h : (Nat.repr n).data = Nat.toDigitsCore 10 (n + 1) n [] := rfl
  rw [h, parseDigits_toDigitsCore (n + 1) n [] (by omega)]
  rfl

theorem parseDigits_head (acc : Nat) (c : Char) (cs : List Char) (r : Nat)
    (h : parseDigits acc (c :: cs) = some r) : 48 ≤ c.toNat ∧ c.toNat ≤ 57 := by
  rw [parseDigits] at h
  by_contra hc
  rw [if_neg hc] at h
  cases h

theorem parseDecimal_sprintfD (n : Int) : parseDecimal (sprintfD n) = some n := by
  cases n with
  | ofNat m =>
    have hp := parseDigits_repr m
    unfold parseDecimal sprintfD
    dsimp only
    rcases hd : (Nat.repr m).data with _ | ⟨c, cs⟩
    · rw [hd] at hp
      have h0 : m = 0 := by
        have h1 : parseDigits 0 [] = some 0 := rfl
        rw [h1] at hp
        exact (Option.some.inj hp).symm
      subst h0
      revert hd
      decide
    · rw [hd] at hp
      have hc := parseDigits_head 0 c cs m hp
      have hne : c ≠ '-' := by
        intro h
        rw [h] at hc
        revert hc
        decide
      split
      · rename_i heq
        cases heq
      · rename_i heq
        cases heq
        exact absurd rfl hne
      · rw [hp]
        rfl
  | negSucc m =>
    have hp := parseDigits_repr (m + 1)
    unfold parseDecimal sprintfD
    have hd : ("-" ++ Nat.repr (m + 1)).data = '-' :: (Nat.repr (m + 1)).data := by
      rw [String.data_append]
      rfl
    rw [hd]
    have hne : (Nat.repr (m + 1)).data ≠ [] := by
      intro h
      rw [h] at hp
      cases hp
    split
    · rename_i heq
      cases heq
    · rename_i cs heq
      cases heq
      rw [if_neg hne, hp]
      rfl
    · rename_i hx
      exact absurd rfl (hx (Nat.repr (m + 1)).data)

/-! ## The webhook handler -/

theorem Gateway.RedisStorage.GetBotIDByToken_eq (encode : BotConfig → String) (token : String)
    (kv : Store) :
    Gateway.RedisStorage.GetBotIDByToken encode none token kv =
      match tokenIndex encode kv token with
      | some botID => .ok botID
      | none =>
        .error ("failed to get bot_id for token: " ++
          (if (kv (tokenKey token)).isSome then wrongType else "redis: nil")) := by
  unfold Gateway.RedisStorage.GetBotIDByToken Store.get tokenIndex
  rcases kv (tokenKey token) with _ | v
  · rfl
  · cases v <;> rfl

/-! ## The consumers map -/

theorem Processor.consumer_none_iff (p : Processor) (topic : List Nat) :
    p.consumer topic = none ↔ topic ∉ p.keys := by
  unfold Processor.consumer Processor.keys
  rw [Option.map_eq_none', List.find?_eq_none]
  simp only [decide_eq_true_eq, List.mem_map, not_exists, not_and]

theorem Processor.consumer_append (p : Processor) (extra : List (List Nat × Gateway.Consumer))
    (topic : List Nat) (h : topic ∈ p.keys) (q : Processor)
    (hq : q.consumers = p.consumers ++ extra) :
    q.consumer topic = p.consumer topic := by
  unfold Processor.consumer
  rw [hq, List.find?_append]
  rcases hf : p.consumers.find? (fun entry => decide (entry.1 = topic)) with _ | x
  · exfalso
    rw [List.find?_eq_none] at hf
    unfold Processor.keys at h
    rw [List.mem_map] at h
    obtain ⟨x, hx, hxe⟩ := h
    exact hf x hx (by simpa using hxe)
  · rw [hf]
    rfl

theorem Processor.subscribe_spec (topics : List (List Nat)) :
    ∀ p : Processor, ∃ added : List (List Nat × Gateway.Consumer),
      (Processor.subscribe topics p).consumers = p.consumers ++ added ∧
      (Processor.subscribe topics p).started = p.started ++ added ∧
      (Processor.subscribe topics p).allocated = p.allocated + added.length ∧
      (Processor.subscribe topics p).brokers = p.brokers ∧
      (Processor.subscribe topics p).groupID = p.groupID ∧
      (added.map Prod.fst).Nodup ∧
      (∀ t, t ∈ added.map Prod.fst ↔ t ∈ topics ∧ t ∉ p.keys) ∧
      (∀ entry, entry ∈ added → ∃ n, p.allocated ≤ n ∧
        entry.2 = Gateway.NewConsumer p.brokers p.groupID [entry.1] n) := by
  induction topics with
  | nil =>
    intro p
    exact ⟨[], by simp [Processor.subscribe], by simp [Processor.subscribe], rfl, rfl, rfl,
      List.nodup_nil, by simp, by simp⟩
  | cons topic topics ih =>
    intro p
    unfold Processor.subscribe
    rcases hc : p.consumer topic with _ | c
    · dsimp only
      have hnot : topic ∉ p.keys := (Processor.consumer_none_iff p topic).1 hc
      obtain ⟨added, h1, h2, h3, h4, h5, h6, h7, h8⟩ := ih
        { p with
          consumers := p.consumers ++
            [(topic, Gateway.NewConsumer p.brokers p.groupID [topic] p.allocated)]
          started := p.started ++
            [(topic, Gateway.NewConsumer p.brokers p.groupID [topic] p.allocated)]
          allocated := p.allocated + 1 }
      have hkeys : ∀ t, t ∈ Processor.keys
          { p with
            consumers := p.consumers ++
              [(topic, Gateway.NewConsumer p.brokers p.groupID [topic] p.allocated)]
            started := p.started ++
              [(topic, Gateway.NewConsumer p.brokers p.groupID [topic] p.allocated)]
            allocated := p.allocated + 1 } ↔ t ∈ p.keys ∨ t = topic := by
        intro t
        simp [Processor.keys]
      refine ⟨(topic, Gateway.NewConsumer p.brokers p.groupID [topic] p.allocated) :: added,
        ?_, ?_, ?_, h4, h5, ?_, ?_, ?_⟩
      · rw [h1]; simp
      · rw [h2]; simp
      · rw [h3]; simp; omega
      · rw [List.map_cons, List.nodup_cons]
        refine ⟨?_, h6⟩
        intro hin
        exact ((h7 topic).1 hin).2 ((hkeys topic).2 (Or.inr rfl))
      · intro t
        rw [List.map_cons, List.mem_cons, h7 t, hkeys t, List.mem_cons]
        constructor
        · rintro (h | ⟨h, hn⟩)
          · subst h
            exact ⟨Or.inl rfl, hnot⟩
          · exact ⟨Or.inr h, fun hk => hn (Or.inl hk)⟩
        · rintro ⟨h | h, hn⟩
          · exact Or.inl h
          · by_cases ht : t = topic
            · exact Or.inl ht
            · exact Or.inr ⟨h, fun hk => hk.elim hn ht⟩
      · intro entry hentry
        rcases List.mem_cons.1 hentry with h | h
        · subst h
          exact ⟨p.allocated, le_refl _, rfl⟩
        · obtain ⟨n, hn, he⟩ := h8 entry h
          exact ⟨n, by dsimp only at hn; omega, he⟩
    · dsimp only
      have hin : topic ∈ p.keys := by
        by_contra hnot
        rw [(Processor.consumer_none_iff p topic).2 hnot] at hc
        cases hc
      obtain ⟨added, h1, h2, h3, h4, h5, h6, h7, h8⟩ := ih p
      refine ⟨added, h1, h2, h3, h4, h5, h6, ?_, h8⟩
      intro t
      rw [h7 t, List.mem_cons]
      constructor
      · rintro ⟨h, hn⟩
        exact ⟨Or.inr h, hn⟩
      · rintro ⟨h | h, hn⟩
        · subst h
          exact absurd hin hn
        · exact ⟨h, hn⟩

theorem Processor.subscribe_keys (topics : List (List Nat)) (p : Processor) (t : List Nat) :
    t ∈ (Processor.subscribe topics p).keys ↔ t ∈ p.keys ∨ t ∈ topics := by
  obtain ⟨added, h1, _, _, _, _, _, h7, _⟩ := Processor.subscribe_spec topics p
  unfold Processor.keys at *
  rw [h1, List.map_append, List.mem_append, h7 t]
  constructor
  · rintro (h | ⟨h, _⟩)
    · exact Or.inl h
    · exact Or.inr h
  · rintro (h | h)
    · exact Or.inl h
    · by_cases hk : t ∈ List.map Prod.fst p.consumers
      · exact Or.inl hk
      · exact Or.inr ⟨h, hk⟩

theorem Processor.subscribe_known (topics : List (List Nat)) :
    ∀ p : Processor, (∀ t, t ∈ topics → t ∈ p.keys) → Processor.subscribe topics p = p := by
  induction topics with
  | nil => intro p _; rfl
  | cons topic topics ih =>
    intro p h
    unfold Processor.subscribe
    rcases hc : p.consumer topic with _ | c
    · exact absurd (h topic (List.mem_cons_self _ _)) ((Processor.consumer_none_iff p topic).1 hc)
    · exact ih p (fun t ht => h t (List.mem_cons_of_mem _ ht))

theorem Processor.discoverAndSubscribe_eq (e : ListingEnv) (p : Processor) :
    ∃ topics, topics.Nodup ∧
      (∀ t, t ∈ topics ↔
        t ∈ e.partitions ∧ startsWithBot t = true ∧ endsWithOutgoing t = true) ∧
      Processor.discoverAndSubscribe e p =
        some (match e.dial with
          | some err => (p, some ("failed to dial kafka: " ++ err))
          | none =>
            match e.readPartitions with
            | some err => (p, some ("failed to read partitions: " ++ err))
            | none => (Processor.subscribe topics p, none)) := by
  obtain ⟨topics, h1, h2, h3⟩ := Gateway.collectOutgoing_spec e.partitions [] List.nodup_nil
  refine ⟨topics, h2, fun t => by simpa using h3 t, ?_⟩
  unfold Processor.discoverAndSubscribe Gateway.TopicManager.GetAllOutgoingTopics
  rcases e.dial with _ | err
  · rcases e.readPartitions with _ | err
    · simp only [h1]
    · rfl
  · rfl

theorem Processor.discoverAndSubscribe_keys (e : ListingEnv) (p : Processor) :
    ∃ p1 err, Processor.discoverAndSubscribe e p = some (p1, err) ∧
      ∀ t, t ∈ p1.keys ↔ t ∈ p.keys ∨ e.shows t := by
  obtain ⟨topics, _, h2, h3⟩ := Processor.discoverAndSubscribe_eq e p
  unfold ListingEnv.shows
  rcases hd : e.dial with _ | err
  · rcases hr : e.readPartitions with _ | err
    · rw [hd, hr] at h3
      refine ⟨_, _, h3, fun t => ?_⟩
      rw [Processor.subscribe_keys, h2 t]
      simp
    · rw [hd, hr] at h3
      exact ⟨_, _, h3, fun t => by simp⟩
  · rw [hd] at h3
    exact ⟨_, _, h3, fun t => by simp⟩

theorem Processor.discoveries_keys (es : List ListingEnv) :
    ∀ p : Processor, ∃ p1, Processor.discoveries es p = some p1 ∧
      ∀ t, t ∈ p1.keys ↔ t ∈ p.keys ∨ ∃ e, e ∈ es ∧ e.shows t := by
  induction es with
  | nil =>
    intro p
    exact ⟨p, rfl, fun t => by simp⟩
  | cons e es ih =>
    intro p
    obtain ⟨p1, err, h1, h2⟩ := Processor.discoverAndSubscribe_keys e p
    obtain ⟨p2, h3, h4⟩ := ih p1
    refine ⟨p2, ?_, fun t => ?_⟩
    · unfold Processor.discoveries
      rw [h1]
      exact h3
    · rw [h4 t, h2 t]
      constructor
      · rintro ((h | h) | ⟨e1, he1, h⟩)
        · exact Or.inl h
        · exact Or.inr ⟨e, List.mem_cons_self _ _, h⟩
        · exact Or.inr ⟨e1, List.mem_cons_of_mem _ he1, h⟩
      · rintro (h | ⟨e1, he1, h⟩)
        · exact Or.inl (Or.inl h)
        · rcases List.mem_cons.1 he1 with rfl | he1
          · exact Or.inl (Or.inr h)
          · exact Or.inr ⟨e1, he1, h⟩

/-! ## The topics after `CreateBot` -/

theorem Client.CreateBotResources_topics (e : ResourcesEnv) (c : BotConfig) (w : World) :
    (Client.CreateBotResources e c w).1.topics = w.topics := by
  rcases e with ⟨_ | _ | _ | _, _ | _ | _ | _⟩ <;> rfl

theorem Client.CreateScaledObject_topics (e : ScalerCreateEnv) (c : BotConfig) (w : World) :
    (Client.CreateScaledObject e c w).1.topics = w.topics := by
  rcases e with ⟨_ | _, _ | _, _ | _, _ | _ | _ | _⟩ <;> rfl

theorem Service.registerWebhook_topics (s : Service) (e : CreateEnv) (req : CreateBotRequest)
    (url : String) (w : World) : (s.registerWebhook e req url w).topics = w.topics := by
  unfold Service.registerWebhook
  split
  · split
    · rcases e with ⟨_, _, _, _, _, _, _, ⟨_ | _, _ | _⟩, _ | _, _⟩ <;> rfl
    · rcases e with ⟨_, _, _, _, _, _, _, _, _ | _, _⟩ <;> rfl
  · rfl

theorem Admin.CreateTopics_ok_topics (e : KafkaEnv) (botID : String) {w w2 : World}
    (h : Admin.CreateTopics e botID w = (w2, none)) :
    w2.topics = addName (outgoingTopic botID) (addName (incomingTopic botID) w.topics) := by
  unfold Admin.CreateTopics at h
  rcases e with ⟨_ | _, _ | _, _ | _, _ | _⟩ <;> simp at h
  rw [← h]
  rfl

theorem Admin.CreateTopics_logged (e : KafkaEnv) (botID : String) (w : World) :
    Call.kafkaCreateTopics botID ∈ (Admin.CreateTopics e botID w).1.trace := by
  rcases e with ⟨_ | _, _ | _, _ | _, _ | _⟩ <;> simp [Admin.CreateTopics, World.log]

theorem Client.CreateBotResources_trace_mono (e : ResourcesEnv) (c : BotConfig) (w : World)
    (x : Call) (h : x ∈ w.trace) : x ∈ (Client.CreateBotResources e c w).1.trace := by
  rcases e with ⟨_ | _ | _ | _, _ | _ | _ | _⟩ <;>
    simp [Client.CreateBotResources, Client.createSecret, Client.createDeployment, World.log, h]

theorem Client.CreateScaledObject_trace_mono (e : ScalerCreateEnv) (c : BotConfig) (w : World)
    (x : Call) (h : x ∈ w.trace) : x ∈ (Client.CreateScaledObject e c w).1.trace := by
  rcases e with ⟨_ | _, _ | _, _ | _, _ | _ | _ | _⟩ <;>
    simp [Client.CreateScaledObject, World.log, h]

theorem Service.registerWebhook_trace_mono (s : Service) (e : CreateEnv)
    (req : CreateBotRequest) (url : String) (w : World) (x : Call) (h : x ∈ w.trace) :
    x ∈ (s.registerWebhook e req url w).trace := by
  unfold Service.registerWebhook
  split
  · split
    · rcases e with ⟨_, _, _, _, _, _, _, ⟨_ | _, _ | _⟩, _ | _, _⟩ <;>
        simp [Client.GetSecret, Telegram.SetWebhook, World.log, h]
    · rcases e with ⟨_, _, _, _, _, _, _, _, _ | _, _⟩ <;>
        simp [Telegram.SetWebhook, World.log, h]
  · exact h

theorem addName_mem (n : String) (ns : List String) (m : String) :
    m ∈ addName n ns ↔ m ∈ ns ∨ m = n := by
  unfold addName
  split
  · rename_i h
    constructor
    · exact Or.inl
    · rintro (h1 | rfl)
      · exact h1
      · exact h
  · simp

/-- After a `SaveBot` without error, the status update that follows leaves
the token key and the membership of the bot as they are, whatever its own
outcome. -/
theorem RedisStorage.UpdateBotStatus_after_save {e : SaveEnv} {cfg : BotConfig} {kv : Store}
    (h : (RedisStorage.SaveBot e cfg kv).2 = none) (se : StatusEnv) (status : String) :
    (RedisStorage.UpdateBotStatus se cfg.botID status (RedisStorage.SaveBot e cfg kv).1).1
        (tokenKey cfg.botToken) = some (.str cfg.botID) ∧
    cfg.botID ∈
      (RedisStorage.UpdateBotStatus se cfg.botID status (RedisStorage.SaveBot e cfg kv).1).1.members
    := by
  obtain ⟨h1, h2, h3⟩ := RedisStorage.SaveBot_ok_record h
  have hset : ((RedisStorage.SaveBot e cfg kv).1.smembers allKey).isSome = true := by
    unfold Store.members at h3
    rcases hv : (RedisStorage.SaveBot e cfg kv).1.smembers allKey with _ | ms
    · rw [hv] at h3
      simp at h3
    · rfl
  unfold RedisStorage.UpdateBotStatus
  rcases hg : RedisStorage.GetBot se.get cfg.botID (RedisStorage.SaveBot e cfg kv).1 with err | c
  · exact ⟨h2, h3⟩
  · have hc := RedisStorage.GetBot_ok hg
    rw [h1] at hc
    cases hc
    dsimp only
    refine ⟨?_, ?_⟩
    · rw [RedisStorage.SaveBot_tokenKey]
      split
      · rfl
      · exact h2
    · exact ((RedisStorage.SaveBot_members se.save { cfg with status := status } _ hset
        cfg.botID).2).2 (Or.inl h3)

/-! ## The status after a call of the storage -/

theorem Store.status_saveBot (e : SaveEnv) (cfg : BotConfig) (kv : Store) (id : String) :
    (RedisStorage.SaveBot e cfg kv).1.status id =
      if e.setConfig = none ∧ id = cfg.botID then some cfg.status else kv.status id := by
  unfold Store.status
  rw [RedisStorage.SaveBot_configKey]
  by_cases h : e.setConfig = none ∧ id = cfg.botID
  · rw [if_pos h, if_pos h]
  · rw [if_neg h, if_neg h]

theorem Store.status_deleteBot (exec : Option String) (botID botToken : String) (kv : Store)
    (id : String) :
    (RedisStorage.DeleteBot exec botID botToken kv).1.status id =
      if exec = none ∧ id = botID then none else kv.status id := by
  unfold Store.status
  rw [RedisStorage.DeleteBot_configKey]
  by_cases h : exec = none ∧ id = botID
  · rw [if_pos h, if_pos h]
  · rw [if_neg h, if_neg h]

theorem Store.status_updateBotStatus (e : StatusEnv) (botID st : String) (kv : Store)
    (hidx : ∀ c, kv (configKey botID) = some (.json c) → c.botID = botID) (id : String) :
    (RedisStorage.UpdateBotStatus e botID st kv).1.status id =
      if e.get = none ∧ e.save.setConfig = none ∧ id = botID ∧ (kv.status botID).isSome = true
      then some st else kv.status id := by
  unfold RedisStorage.UpdateBotStatus
  rcases hg : RedisStorage.GetBot e.get botID kv with err | c
  · dsimp only
    rw [if_neg]
    rintro ⟨h1, _, _, h4⟩
    unfold RedisStorage.GetBot at hg
    rw [h1] at hg
    unfold Store.status at h4
    rcases hv : kv (configKey botID) with _ | v
    · rw [hv] at h4
      cases h4
    · rw [hv] at hg h4
      cases v with
      | json c => cases hg
      | str _ => cases h4
      | set _ => cases h4
  · dsimp only
    have hr := RedisStorage.GetBot_ok hg
    have hid := hidx c hr
    have hget : e.get = none := by
      unfold RedisStorage.GetBot at hg
      rcases h : e.get with _ | err
      · rfl
      · rw [h] at hg
        cases hg
    have hsome : (kv.status botID).isSome = true := by
      unfold Store.status
      rw [hr]
      rfl
    rw [Store.status_saveBot]
    by_cases h : e.save.setConfig = none ∧ id = botID
    · rw [if_pos ⟨h.1, by rw [h.2]; exact hid.symm⟩, if_pos ⟨hget, h.1, h.2, hsome⟩]
    · rw [if_neg (fun hh => h ⟨hh.1, by rw [hh.2]; exact hid⟩),
        if_neg (fun hh => h ⟨hh.2.1, hh.2.2.1⟩)]

theorem RedisStorage.SaveBot_failed {e : SaveEnv} (cfg : BotConfig) {kv : Store}
    (h2 : e.setToken = none) (h3 : e.sadd = none)
    (hs : (kv.smembers allKey).isSome = true)
    (hf : (RedisStorage.SaveBot e cfg kv).2 ≠ none) :
    (RedisStorage.SaveBot e cfg kv).1 = kv := by
  unfold RedisStorage.SaveBot at hf ⊢
  rcases h1 : e.setConfig with _ | err
  · exfalso
    apply hf
    simp only [h1, h2, h3]
    unfold Store.sadd
    rw [Store.put_other _ _ (allKey_ne_tokenKey _), Store.put_other _ _ (allKey_ne_configKey _)]
    unfold Store.smembers at hs
    rcases hv : kv allKey with _ | v
    · rfl
    · rw [hv] at hs
      cases v with
      | json c => cases hs
      | str _ => cases hs
      | set _ => rfl
  · rfl

theorem StatusMoves.same (kv : Store) : StatusMoves kv kv := fun _ => Or.inl rfl

theorem StatusMoves.moves_of_status_eq {kv kv1 : Store} (h : ∀ id, kv1.status id = kv.status id) :
    StatusMoves kv kv1 := fun id => Or.inl (h id)

theorem Settled.settled_of_status_eq {kv kv1 : Store} (hS : Settled kv)
    (h : ∀ id, kv1.status id = kv.status id) : Settled kv1 := by
  intro id st hst
  rw [h id] at hst
  exact hS id st hst

theorem chain_append_last {α : Type} {R : α → α → Prop} (l2 : List α) :
    ∀ (l1 : List α) (a : α), List.Chain R a l1 → List.Chain R (l1.getLastD a) l2 →
      List.Chain R a (l1 ++ l2) := by
  intro l1
  induction l1 with
  | nil => intro a _ h; exact h
  | cons b l1 ih =>
    intro a h1 h2
    rw [List.chain_cons] at h1
    rw [List.cons_append, List.chain_cons]
    refine ⟨h1.1, ih b h1.2 ?_⟩
    rw [List.getLastD_cons] at h2
    exact h2

theorem getLastD_append_last {α : Type} (l1 l2 : List α) (a : α) :
    (l1 ++ l2).getLastD a = l2.getLastD (l1.getLastD a) := by
  induction l1 generalizing a with
  | nil => rfl
  | cons b l1 ih =>
    rw [List.cons_append, List.getLastD_cons, List.getLastD_cons, ih]

/-! ## The life cycle, call by call -/

theorem legalTransition_creating (st : String) (h : st = "running" ∨ st = "failed") :
    legalTransition (some "creating") (some st) = true := by
  rcases h with rfl | rfl <;> decide

theorem legalTransition_deleting (st : String)
    (h : st = "running" ∨ st = "failed") :
    legalTransition (some st) (some "deleting") = true := by
  rcases h with rfl | rfl <;> decide

theorem StatusWritesOk.savedWhole {w : World} {op : Op} (h : StatusWritesOk w op) :
    SavedWhole w op := by
  cases op with
  | create e req => exact ⟨h.1, h.2.1, h.2.2.1⟩
  | delete e botID => trivial
  | updateReplicas e botID req => trivial
  | updateStatus e botID status => trivial

theorem Service.create_moves (s : Service) {w : World} (hK : StoreWellFormed w.kv)
    (hS : Settled w.kv) (e : CreateEnv) (req : CreateBotRequest)
    (hop : StatusWritesOk w (.create e req)) :
    List.Chain StatusMoves w.kv (s.kvPath w (.create e req)) ∧
    (s.kvPath w (.create e req)).getLastD w.kv = (s.CreateBot e req w).1.kv ∧
    Settled (s.CreateBot e req w).1.kv := by
  obtain ⟨h2, h3, hfresh, hg, hw⟩ := hop
  have hnone : w.kv.status (generateBotID e.rnd) = none := by
    unfold Store.status
    rw [hfresh]
  rcases hv : validateCreateRequest req with _ | err
  · have hpath : s.kvPath w (.create e req) =
        [(RedisStorage.SaveBot e.save (newBotConfig e req) w.kv).1, (s.CreateBot e req w).1.kv] := by
      simp only [Service.kvPath, hv]
      rfl
    rw [hpath]
    rcases hs : w.saveBot e.save (newBotConfig e req) with ⟨w1, _ | err⟩
    · obtain ⟨hk, hr⟩ := w.saveBot_eq e.save (newBotConfig e req) hs
      obtain ⟨r1, _, _⟩ := RedisStorage.SaveBot_ok_record hr
      have hst1 : ∀ id, (RedisStorage.SaveBot e.save (newBotConfig e req) w.kv).1.status id =
          if id = generateBotID e.rnd then some "creating" else w.kv.status id := by
        intro id
        by_cases hid : id = generateBotID e.rnd
        · rw [if_pos hid, hid]
          unfold Store.status
          have r1' : (RedisStorage.SaveBot e.save (newBotConfig e req) w.kv).1
              (configKey (generateBotID e.rnd)) = some (.json (newBotConfig e req)) := r1
          rw [r1']
          rfl
        · rw [if_neg hid, Store.status_saveBot, if_neg]
          exact fun hh => hid hh.2
      have hfinal : ∃ st, (st = "running" ∨ st = "failed") ∧
          (s.CreateBot e req w).1.kv =
            (RedisStorage.UpdateBotStatus e.status (generateBotID e.rnd) st
              (RedisStorage.SaveBot e.save (newBotConfig e req) w.kv).1).1 := by
        rcases s.CreateBot_saved e req hv hs with ⟨_, hh⟩ | ⟨_, hh⟩
        · exact ⟨"running", Or.inl rfl, by rw [hh, hk]⟩
        · exact ⟨"failed", Or.inr rfl, by rw [hh, hk]⟩
      obtain ⟨st, hst, hfin⟩ := hfinal
      have hst2 : ∀ id, (s.CreateBot e req w).1.kv.status id =
          if id = generateBotID e.rnd then some st else w.kv.status id := by
        intro id
        rw [hfin, Store.status_updateBotStatus e.status (generateBotID e.rnd) st _
          (fun c hc => by
            have r1' : (RedisStorage.SaveBot e.save (newBotConfig e req) w.kv).1
              (configKey (generateBotID e.rnd)) = some (.json (newBotConfig e req)) := r1
            rw [r1'] at hc
            cases hc
            rfl) id]
        by_cases hid : id = generateBotID e.rnd
        · rw [if_pos hid, if_pos]
          refine ⟨hg, hw, hid, ?_⟩
          rw [hst1, if_pos rfl]
          rfl
        · rw [if_neg hid, if_neg (fun hh => hid hh.2.2.1), hst1, if_neg hid]
      refine ⟨?_, rfl, ?_⟩
      · rw [List.chain_cons, List.chain_cons]
        refine ⟨?_, ?_, List.Chain.nil⟩
        · intro id
          rw [hst1]
          by_cases hid : id = generateBotID e.rnd
          · right
            rw [if_pos hid, hid, hnone]
            rfl
          · left
            rw [if_neg hid]
        · intro id
          rw [hst1, hst2]
          by_cases hid : id = generateBotID e.rnd
          · right
            rw [if_pos hid, if_pos hid]
            exact legalTransition_creating st hst
          · left
            rw [if_neg hid, if_neg hid]
      · intro id x hx
        rw [hst2] at hx
        by_cases hid : id = generateBotID e.rnd
        · rw [if_pos hid] at hx
          cases hx
          rcases hst with h | h
          · exact Or.inl h
          · exact Or.inr (Or.inl h)
        · rw [if_neg hid] at hx
          exact hS id x hx
    · obtain ⟨hk, hr⟩ := w.saveBot_eq e.save (newBotConfig e req) hs
      have hsame : (RedisStorage.SaveBot e.save (newBotConfig e req) w.kv).1 = w.kv :=
        RedisStorage.SaveBot_failed (newBotConfig e req) h2 h3 hK.2.2.2
          (by rw [hr]; exact fun hh => by cases hh)
      have hfin : (s.CreateBot e req w).1.kv = w.kv := by
        obtain ⟨st, hst⟩ := s.CreateBot_kv e req w hv
        rw [hst, if_neg (by rw [hr]; exact fun hh => by cases hh), hsame]
      rw [hsame, hfin]
      exact ⟨List.Chain.cons (StatusMoves.same _) (List.Chain.cons (StatusMoves.same _)
        List.Chain.nil), rfl, hS⟩
  · have hpath : s.kvPath w (.create e req) = [] := by
      simp only [Service.kvPath, hv]
    rw [hpath, s.CreateBot_kv_invalid e req w hv]
    exact ⟨List.Chain.nil, rfl, hS⟩

theorem Service.delete_moves (s : Service) {w : World} (hK : StoreWellFormed w.kv)
    (hS : Settled w.kv) (e : DeleteEnv) (botID : String)
    (hop : StatusWritesOk w (.delete e botID)) :
    List.Chain StatusMoves w.kv (s.kvPath w (.delete e botID)) ∧
    (s.kvPath w (.delete e botID)).getLastD w.kv = (s.DeleteBot e botID w).1.kv ∧
    Settled (s.DeleteBot e botID w).1.kv := by
  obtain ⟨hg, hw⟩ := hop
  have hkv := s.DeleteBot_kv e botID w
  rcases hget : RedisStorage.GetBot e.get botID w.kv with err | cfg
  · rw [hget] at hkv
    dsimp only at hkv
    have hpath : s.kvPath w (.delete e botID) = [] := by
      simp only [Service.kvPath, World.getBot, hget]
    rw [hpath, hkv]
    exact ⟨List.Chain.nil, rfl, hS⟩
  · rw [hget] at hkv
    dsimp only at hkv
    have hr := RedisStorage.GetBot_ok hget
    have hpath : s.kvPath w (.delete e botID) =
        [(RedisStorage.UpdateBotStatus e.status botID "deleting" w.kv).1,
         (s.DeleteBot e botID w).1.kv] := by
      simp only [Service.kvPath, World.getBot, hget]
      rfl
    have hcur : w.kv.status botID = some cfg.status := by
      unfold Store.status
      rw [hr]
    have hst1 : ∀ id, (RedisStorage.UpdateBotStatus e.status botID "deleting" w.kv).1.status id =
        if id = botID then some "deleting" else w.kv.status id := by
      intro id
      rw [Store.status_updateBotStatus e.status botID "deleting" w.kv
        (fun c hc => hK.2.2.1 botID c hc) id]
      by_cases hid : id = botID
      · rw [if_pos hid, if_pos]
        refine ⟨hg, hw, hid, ?_⟩
        rw [hcur]
        rfl
      · rw [if_neg hid, if_neg (fun hh => hid hh.2.2.1)]
    have hst2 : ∀ id, (s.DeleteBot e botID w).1.kv.status id =
        if e.exec = none ∧ id = botID then none
        else if id = botID then some "deleting" else w.kv.status id := by
      intro id
      rw [hkv, Store.status_deleteBot, hst1]
    rw [hpath]
    refine ⟨?_, rfl, ?_⟩
    · rw [List.chain_cons, List.chain_cons]
      refine ⟨?_, ?_, List.Chain.nil⟩
      · intro id
        rw [hst1]
        by_cases hid : id = botID
        · rw [if_pos hid, hid, hcur]
          rcases hS botID cfg.status hcur with h | h | h
          · right
            rw [h]
            rfl
          · right
            rw [h]
            rfl
          · left
            rw [h]
        · left
          rw [if_neg hid]
      · intro id
        rw [hst1, hst2]
        by_cases hid : id = botID
        · by_cases hx : e.exec = none
          · right
            rw [if_pos hid, if_pos (show e.exec = none ∧ id = botID from ⟨hx, hid⟩)]
            rfl
          · left
            rw [if_neg (show ¬ (e.exec = none ∧ id = botID) from fun hh => hx hh.1)]
        · left
          rw [if_neg (show ¬ (e.exec = none ∧ id = botID) from fun hh => hid hh.2)]
    · intro id x hx
      rw [hst2] at hx
      by_cases hid : id = botID
      · by_cases hxe : e.exec = none
        · rw [if_pos (show e.exec = none ∧ id = botID from ⟨hxe, hid⟩)] at hx
          cases hx
        · rw [if_neg (show ¬ (e.exec = none ∧ id = botID) from fun hh => hxe hh.1),
            if_pos hid] at hx
          cases hx
          exact Or.inr (Or.inr rfl)
      · rw [if_neg (show ¬ (e.exec = none ∧ id = botID) from fun hh => hid hh.2),
          if_neg hid] at hx
        exact hS id x hx

theorem Service.updateReplicas_status (s : Service) {w : World} (hK : StoreWellFormed w.kv)
    (e : UpdateEnv) (botID : String) (req : UpdateReplicasRequest) (id : String) :
    (s.UpdateReplicas e botID req w).1.kv.status id = w.kv.status id := by
  rw [s.UpdateReplicas_kv e botID req w]
  rcases hget : RedisStorage.GetBot e.get botID w.kv with err | cfg
  · rfl
  · dsimp only
    have hr := RedisStorage.GetBot_ok hget
    have hid := hK.2.2.1 botID cfg hr
    rw [Store.status_saveBot, applyReplicas_eq]
    dsimp only
    by_cases h : e.save.setConfig = none ∧ id = cfg.botID
    · rw [if_pos h, h.2, hid]
      unfold Store.status
      rw [hr]
    · rw [if_neg h]

theorem Service.step_moves (s : Service) {w : World} (hK : StoreWellFormed w.kv)
    (hS : Settled w.kv) {op : Op} (hop : StatusWritesOk w op) :
    List.Chain StatusMoves w.kv (s.kvPath w op) ∧
    (s.kvPath w op).getLastD w.kv = (s.step w op).kv ∧
    Settled (s.step w op).kv := by
  cases op with
  | create e req => exact s.create_moves hK hS e req hop
  | delete e botID => exact s.delete_moves hK hS e botID hop
  | updateReplicas e botID req =>
    have h := s.updateReplicas_status hK e botID req
    exact ⟨List.Chain.cons (StatusMoves.moves_of_status_eq h) List.Chain.nil, rfl,
      hS.settled_of_status_eq h⟩
  | updateStatus e botID status => exact absurd hop (fun hh => hh)

theorem Service.run_moves (s : Service) (ops : List Op) :
    ∀ w : World, StoreWellFormed w.kv → Settled w.kv → s.Admissible StatusWritesOk w ops →
      List.Chain StatusMoves w.kv (s.runPath w ops) ∧
      (s.runPath w ops).getLastD w.kv = (s.run w ops).kv ∧
      Settled (s.run w ops).kv := by
  induction ops with
  | nil =>
    intro w _ hS _
    exact ⟨List.Chain.nil, rfl, hS⟩
  | cons op ops ih =>
    intro w hK hS h
    obtain ⟨c1, l1, s1⟩ := s.step_moves hK hS h.1
    obtain ⟨c2, l2, s2⟩ := ih (s.step w op) (hK.wf_step s h.1.savedWhole) s1 h.2
    refine ⟨?_, ?_, s2⟩
    · show List.Chain StatusMoves w.kv (s.kvPath w op ++ s.runPath (s.step w op) ops)
      apply chain_append_last _ _ _ c1
      rw [l1]
      exact c2
    · show (s.kvPath w op ++ s.runPath (s.step w op) ops).getLastD w.kv = _
      rw [getLastD_append_last, l1, l2]
      rfl

theorem Settled.settled_empty : Settled Store.empty := by
  intro id st h
  simp [Store.status, Store.empty] at h

/-! ## The generated id -/

theorem hexDigit_mem (n : Nat) (h : n < 16) : hexDigit n ∈ "0123456789abcdef".data := by
  interval_cases n <;> decide

theorem hexDigit_inj (a b : Nat) (ha : a < 16) (hb : b < 16) (h : hexDigit a = hexDigit b) :
    a = b := by
  interval_cases a <;> interval_cases b <;> first | rfl | (revert h; decide)

theorem hexEncode_length (b : List Nat) : (hexEncode b).length = 2 * b.length := by
  induction b with
  | nil => rfl
  | cons x xs ih =>
    simp only [hexEncode, List.length_cons, ih]
    omega

theorem hexEncode_mem (b : List Nat) : ∀ c, c ∈ hexEncode b → c ∈ "0123456789abcdef".data := by
  induction b with
  | nil => intro c h; cases h
  | cons x xs ih =>
    intro c h
    simp only [hexEncode, List.mem_cons] at h
    rcases h with h | h | h
    · rw [h]
      exact hexDigit_mem _ (by omega)
    · rw [h]
      exact hexDigit_mem _ (by omega)
    · exact ih c h

theorem hexEncode_inj (b : List Nat) :
    ∀ b1 : List Nat, b.length = b1.length → (∀ x, x ∈ b → x < 256) →
      (∀ x, x ∈ b1 → x < 256) → hexEncode b = hexEncode b1 → b = b1 := by
  induction b with
  | nil =>
    intro b1 hl _ _ _
    cases b1 with
    | nil => rfl
    | cons y ys => cases hl
  | cons x xs ih =>
    intro b1 hl hx hy h
    cases b1 with
    | nil => cases hl
    | cons y ys =>
      simp only [hexEncode, List.cons.injEq] at h
      obtain ⟨h1, h2, h3⟩ := h
      have hx1 := hx x (List.mem_cons_self _ _)
      have hy1 := hy y (List.mem_cons_self _ _)
      have e1 := hexDigit_inj _ _ (by omega) (by omega) h1
      have e2 := hexDigit_inj _ _ (by omega) (by omega) h2
      have hxy : x = y := by omega
      rw [hxy, ih ys (by simpa using hl) (fun z hz => hx z (List.mem_cons_of_mem _ hz))
        (fun z hz => hy z (List.mem_cons_of_mem _ hz)) h3]

theorem generateBotID_data (b : List Nat) :
    (generateBotID b).data = "bot_".data ++ hexEncode b := by
  unfold generateBotID
  rw [String.data_append]

/-! ## The request that is not accepted -/

theorem validateCreateRequest_none_iff (req : CreateBotRequest) :
    validateCreateRequest req = none ↔
      req.botToken ≠ "" ∧ req.botName ≠ "" ∧ req.workerImage ≠ "" ∧
      0 ≤ req.minReplicas ∧ 1 ≤ req.maxReplicas ∧ req.minReplicas ≤ req.maxReplicas := by
  unfold validateCreateRequest
  constructor
  · intro h
    split_ifs at h
    refine ⟨‹_›, ‹_›, ‹_›, ?_, ?_, ?_⟩ <;> omega
  · rintro ⟨h1, h2, h3, h4, h5, h6⟩
    simp only [h1, h2, h3, if_false]
    rw [if_neg (by omega), if_neg (by omega), if_neg (by omega)]

/-! ## `GetBot` and `ListBots` read only -/

theorem Service.GetBot_eq (s : Service) (e : GetEnv) (botID : String) (w : World) :
    s.GetBot e botID w =
      match RedisStorage.GetBot e.get botID w.kv with
      | .error err => (w.log (.storageGetBot botID), .error err)
      | .ok botConfig =>
        ((w.log (.storageGetBot botID)).log (.k8sGetDeployment (deploymentName botID)),
         .ok (statusResponse botConfig e.deployment)) := by
  unfold Service.GetBot World.getBot
  rcases RedisStorage.GetBot e.get botID w.kv with err | botConfig
  · rfl
  · rfl

theorem Service.GetBot_kv (s : Service) (e : GetEnv) (botID : String) (w : World) :
    (s.GetBot e botID w).1.kv = w.kv := by
  rw [Service.GetBot_eq]
  rcases RedisStorage.GetBot e.get botID w.kv with err | botConfig <;> rfl

theorem Service.GetBot_result_of_kv (s : Service) (e : GetEnv) (botID : String)
    (w w1 : World) (h : w1.kv = w.kv) : (s.GetBot e botID w1).2 = (s.GetBot e botID w).2 := by
  rw [Service.GetBot_eq, Service.GetBot_eq, h]
  rcases RedisStorage.GetBot e.get botID w.kv with err | botConfig <;> rfl

theorem Service.ListBots_fold (s : Service) (each : String → GetEnv) (w : World)
    (botIDs : List String) :
    ∀ (w1 : World) (acc : List BotStatusResponse), w1.kv = w.kv →
      (botIDs.foldl
        (fun (acc : World × List BotStatusResponse) botID =>
          match s.GetBot (each botID) botID acc.1 with
          | (w2, .error _) => (w2, acc.2)
          | (w2, .ok bot) => (w2, acc.2 ++ [bot]))
        (w1, acc)).2 = acc ++ botIDs.filterMap (listEntry s each w) ∧
      (botIDs.foldl
        (fun (acc : World × List BotStatusResponse) botID =>
          match s.GetBot (each botID) botID acc.1 with
          | (w2, .error _) => (w2, acc.2)
          | (w2, .ok bot) => (w2, acc.2 ++ [bot]))
        (w1, acc)).1.kv = w.kv := by
  induction botIDs with
  | nil =>
    intro w1 acc h
    exact ⟨by simp, h⟩
  | cons botID rest ih =>
    intro w1 acc h
    rw [List.foldl_cons]
    have hk := s.GetBot_kv (each botID) botID w1
    have hr := s.GetBot_result_of_kv (each botID) botID w w1 h
    rcases hg : s.GetBot (each botID) botID w1 with ⟨w2, err | bot⟩
    · rw [hg] at hk hr
      dsimp only at hk hr ⊢
      obtain ⟨i1, i2⟩ := ih w2 acc (hk.trans h)
      refine ⟨?_, i2⟩
      rw [i1, List.filterMap_cons]
      unfold listEntry
      rw [← hr]
    · rw [hg] at hk hr
      dsimp only at hk hr ⊢
      obtain ⟨i1, i2⟩ := ih w2 (acc ++ [bot]) (hk.trans h)
      refine ⟨?_, i2⟩
      rw [i1, List.filterMap_cons]
      unfold listEntry
      rw [← hr]
      simp

/-! ## The trace of `CreateBot`, step by step -/

theorem QuietSteps.quiet_none {w w1 : World} (h : w1.trace = w.trace) : QuietSteps w w1 :=
  ⟨[], by rw [h, List.append_nil], fun _ hc => by cases hc⟩

theorem QuietSteps.quiet_one {w w1 : World} {c : Call} (h : w1.trace = w.trace ++ [c])
    (hc : c.isQuiet = true) : QuietSteps w w1 :=
  ⟨[c], h, fun x hx => by rw [List.mem_singleton] at hx; rw [hx]; exact hc⟩

theorem QuietSteps.quiet_two {w w1 : World} {c1 c2 : Call}
    (h : w1.trace = w.trace ++ [c1] ++ [c2])
    (h1 : c1.isQuiet = true) (h2 : c2.isQuiet = true) : QuietSteps w w1 :=
  ⟨[c1, c2], by rw [h, List.append_assoc]; rfl, fun x hx => by
    rcases List.mem_cons.1 hx with rfl | hx
    · exact h1
    · rw [List.mem_singleton] at hx
      rw [hx]
      exact h2⟩

theorem QuietSteps.quiet_then {w w1 w2 : World} (h1 : QuietSteps w w1) (h2 : QuietSteps w1 w2) :
    QuietSteps w w2 := by
  obtain ⟨c1, e1, q1⟩ := h1
  obtain ⟨c2, e2, q2⟩ := h2
  refine ⟨c1 ++ c2, by rw [e2, e1, List.append_assoc], fun c hc => ?_⟩
  rcases List.mem_append.1 hc with h | h
  · exact q1 c h
  · exact q2 c h

theorem World.saveBot_quiet (w : World) (e : SaveEnv) (cfg : BotConfig) :
    QuietSteps w (w.saveBot e cfg).1 :=
  QuietSteps.quiet_one rfl rfl

theorem World.updateBotStatus_quiet (w : World) (e : StatusEnv) (botID status : String) :
    QuietSteps w (w.updateBotStatus e botID status).1 :=
  QuietSteps.quiet_one rfl rfl

theorem Admin.CreateTopics_quiet (e : KafkaEnv) (botID : String) (w : World) :
    QuietSteps w (Admin.CreateTopics e botID w).1 := by
  rcases e with ⟨_ | _, _ | _, _ | _, _ | _⟩ <;> exact QuietSteps.quiet_one rfl rfl

theorem Client.CreateBotResources_quiet (e : ResourcesEnv) (cfg : BotConfig) (w : World) :
    QuietSteps w (Client.CreateBotResources e cfg w).1 := by
  rcases e with ⟨_ | _ | _ | _, _ | _ | _ | _⟩ <;>
    first
    | exact QuietSteps.quiet_two rfl rfl rfl
    | exact QuietSteps.quiet_one rfl rfl

theorem Client.CreateScaledObject_quiet (e : ScalerCreateEnv) (cfg : BotConfig) (w : World) :
    QuietSteps w (Client.CreateScaledObject e cfg w).1 := by
  rcases e with ⟨_ | _, _ | _, _ | _, _ | _ | _ | _⟩ <;>
    first
    | exact QuietSteps.quiet_one rfl rfl
    | exact QuietSteps.quiet_none rfl

theorem Service.registerWebhook_trace (s : Service) (e : CreateEnv) (req : CreateBotRequest)
    (url : String) (w : World) :
    ∃ cert, (s.registerWebhook e req url w).trace =
      w.trace ++
        (if s.isHttps = true then
          (if s.tlsCaSecretName ≠ "" then [Call.k8sGetSecret s.tlsCaSecretName] else []) ++
            [Call.tgSetWebhook req.botToken url cert]
         else []) := by
  refine ⟨(match e.caSecret.get, e.caSecret.caCrt with
    | none, some cert => if s.tlsCaSecretName = "" then [] else cert
    | _, _ => []), ?_⟩
  unfold Service.registerWebhook
  by_cases hs : s.isHttps = true
  · simp only [hs, if_true]
    by_cases hn : s.tlsCaSecretName = ""
    · rcases e with ⟨_, _, _, _, _, _, _, ⟨_ | _, _ | cert⟩, _ | _, _⟩ <;>
        simp [Telegram.SetWebhook, World.log, hn]
    · rcases e with ⟨_, _, _, _, _, _, _, ⟨_ | _, _ | cert⟩, _ | _, _⟩ <;>
        simp [Client.GetSecret, Telegram.SetWebhook, World.log, hn]
  · simp only [hs, if_false]
    simp

theorem Call.isQuiet_iff (c : Call) :
    c.isQuiet = true ↔ c.isSetWebhook = false ∧ c.isGetSecret = false := by
  unfold Call.isQuiet
  cases c.isSetWebhook <;> cases c.isGetSecret <;> simp

theorem countP_quiet (calls : List Call) (h : ∀ c, c ∈ calls → c.isQuiet = true) :
    calls.countP Call.isSetWebhook = 0 ∧ calls.countP Call.isGetSecret = 0 := by
  constructor
  · rw [List.countP_eq_zero]
    intro c hc
    rw [((Call.isQuiet_iff c).1 (h c hc)).1]
    exact Bool.false_ne_true
  · rw [List.countP_eq_zero]
    intro c hc
    rw [((Call.isQuiet_iff c).1 (h c hc)).2]
    exact Bool.false_ne_true

/-- The calls of one `CreateBot`: quiet calls, then, when the bot was
provisioned, the calls of the webhook step, then one quiet call. -/
theorem Service.CreateBot_calls (s : Service) (e : CreateEnv) (req : CreateBotRequest)
    (w : World) :
    (∃ err calls, (s.CreateBot e req w).2 = .error err ∧
      (s.CreateBot e req w).1.trace = w.trace ++ calls ∧
      ∀ c, c ∈ calls → c.isQuiet = true) ∨
    (∃ resp cert before after, (s.CreateBot e req w).2 = .ok resp ∧
      (s.CreateBot e req w).1.trace =
        w.trace ++ (before ++
          ((if s.isHttps = true then
            (if s.tlsCaSecretName ≠ "" then [Call.k8sGetSecret s.tlsCaSecretName] else []) ++
              [Call.tgSetWebhook req.botToken (s.gatewayURL ++ "/webhook/" ++ req.botToken)
                cert]
            else []) ++ after)) ∧
      (∀ c, c ∈ before → c.isQuiet = true) ∧ (∀ c, c ∈ after → c.isQuiet = true)) := by
  rcases hv : validateCreateRequest req with _ | verr
  · rcases hs : w.saveBot e.save (newBotConfig e req) with ⟨w1, _ | err⟩
    · have q1 : QuietSteps w w1 := by
        have := w.saveBot_quiet e.save (newBotConfig e req)
        rw [hs] at this
        exact this
      rcases ht : Admin.CreateTopics e.topics (generateBotID e.rnd) w1 with ⟨w2, _ | err⟩
      · have q2 : QuietSteps w1 w2 := by
          have := Admin.CreateTopics_quiet e.topics (generateBotID e.rnd) w1
          rw [ht] at this
          exact this
        rcases hr : Client.CreateBotResources e.resources (newBotConfig e req) w2
          with ⟨w3, _ | err⟩
        · have q3 : QuietSteps w2 w3 := by
            have := Client.CreateBotResources_quiet e.resources (newBotConfig e req) w2
            rw [hr] at this
            exact this
          rcases hc : Client.CreateScaledObject e.scaler (newBotConfig e req) w3
            with ⟨w4, _ | err⟩
          · have q4 : QuietSteps w3 w4 := by
              have := Client.CreateScaledObject_quiet e.scaler (newBotConfig e req) w3
              rw [hc] at this
              exact this
            right
            rw [s.CreateBot_provisioned e req hv hs ht hr hc]
            obtain ⟨before, hb, qb⟩ := ((q1.quiet_then q2).quiet_then q3).quiet_then q4
            obtain ⟨cert, hw⟩ := s.registerWebhook_trace e req
              (s.gatewayURL ++ "/webhook/" ++ req.botToken) w4
            refine ⟨_, cert, before,
              [.storageUpdateBotStatus (generateBotID e.rnd) "running"], rfl, ?_, qb, ?_⟩
            · show (s.registerWebhook e req _ w4).trace ++ [_] = _
              rw [hw, hb]
              simp only [List.append_assoc]
            · intro c hc
              rw [List.mem_singleton] at hc
              rw [hc]
              rfl
          · left
            rw [s.CreateBot_scaler_fail e req hv hs ht hr hc]
            have q4 : QuietSteps w3 w4 := by
              have := Client.CreateScaledObject_quiet e.scaler (newBotConfig e req) w3
              rw [hc] at this
              exact this
            obtain ⟨calls, h1, h2⟩ := ((((q1.quiet_then q2).quiet_then q3).quiet_then q4).quiet_then
              (w4.updateBotStatus_quiet e.status (generateBotID e.rnd) "failed"))
            exact ⟨_, calls, rfl, h1, h2⟩
        · left
          rw [s.CreateBot_resources_fail e req hv hs ht hr]
          have q3 : QuietSteps w2 w3 := by
            have := Client.CreateBotResources_quiet e.resources (newBotConfig e req) w2
            rw [hr] at this
            exact this
          obtain ⟨calls, h1, h2⟩ := (((q1.quiet_then q2).quiet_then q3).quiet_then
            (w3.updateBotStatus_quiet e.status (generateBotID e.rnd) "failed"))
          exact ⟨_, calls, rfl, h1, h2⟩
      · left
        rw [s.CreateBot_topics_fail e req hv hs ht]
        have q2 : QuietSteps w1 w2 := by
          have := Admin.CreateTopics_quiet e.topics (generateBotID e.rnd) w1
          rw [ht] at this
          exact this
        obtain ⟨calls, h1, h2⟩ := ((q1.quiet_then q2).quiet_then
          (w2.updateBotStatus_quiet e.status (generateBotID e.rnd) "failed"))
        exact ⟨_, calls, rfl, h1, h2⟩
    · left
      have heq : s.CreateBot e req w = (w1, .error ("failed to save bot config: " ++ err)) := by
        unfold Service.CreateBot
        simp only [hv, hs]
      rw [heq]
      have q1 : QuietSteps w w1 := by
        have := w.saveBot_quiet e.save (newBotConfig e req)
        rw [hs] at this
        exact this
      obtain ⟨calls, h1, h2⟩ := q1
      exact ⟨_, calls, rfl, h1, h2⟩
  · left
    have heq : s.CreateBot e req w = (w, .error ("invalid request: " ++ verr)) := by
      unfold Service.CreateBot
      simp only [hv]
    rw [heq]
    exact ⟨_, [], rfl, by simp, by simp⟩

/-! ## Maps and their entries -/

theorem lookupKey_mapAssign_same {α : Type} (k : String) (v : α) (l : List (String × α)) :
    lookupKey k (mapAssign k v l) = some v := by
  induction l with
  | nil => simp [mapAssign, lookupKey]
  | cons e rest ih =>
    obtain ⟨k1, v1⟩ := e
    unfold mapAssign
    by_cases h1 : keyLt k k1 = true
    · rw [if_pos h1]
      simp [lookupKey]
    · rw [if_neg h1]
      by_cases h2 : k = k1
      · rw [if_pos h2]
        simp [lookupKey]
      · rw [if_neg h2]
        unfold lookupKey
        rw [if_neg (fun h => h2 h.symm)]
        exact ih

theorem lookupKey_mapAssign_other {α : Type} (k k2 : String) (v : α) (l : List (String × α))
    (h : k2 ≠ k) : lookupKey k2 (mapAssign k v l) = lookupKey k2 l := by
  induction l with
  | nil => simp [mapAssign, lookupKey, h.symm]
  | cons e rest ih =>
    obtain ⟨k1, v1⟩ := e
    unfold mapAssign
    by_cases h1 : keyLt k k1 = true
    · rw [if_pos h1]
      conv_lhs => unfold lookupKey
      rw [if_neg h.symm]
    · rw [if_neg h1]
      by_cases h2 : k = k1
      · rw [if_pos h2]
        unfold lookupKey
        rw [if_neg h.symm, if_neg (fun hh => h (hh.symm.trans h2.symm))]
      · rw [if_neg h2]
        unfold lookupKey
        by_cases h3 : k1 = k2
        · rw [if_pos h3, if_pos h3]
        · rw [if_neg h3, if_neg h3]
          exact ih

theorem length_mapAssign {α : Type} (k : String) (v : α) (l : List (String × α))
    (h : lookupKey k l = none) : (mapAssign k v l).length = l.length + 1 := by
  induction l with
  | nil => rfl
  | cons e rest ih =>
    obtain ⟨k1, v1⟩ := e
    unfold lookupKey at h
    by_cases h0 : k1 = k
    · rw [if_pos h0] at h
      cases h
    · rw [if_neg h0] at h
      unfold mapAssign
      by_cases h1 : keyLt k k1 = true
      · rw [if_pos h1]
        rfl
      · rw [if_neg h1, if_neg (fun hh => h0 hh.symm)]
        simp only [List.length_cons, ih h]

theorem lookupKey_encodeEntries (c : FloatCodec) (k : String) (m : List (String × GoValue)) :
    lookupKey k (encodeEntries c m) = (lookupKey k m).map (GoValue.encode c) := by
  induction m with
  | nil => rfl
  | cons e rest ih =>
    obtain ⟨k1, v1⟩ := e
    simp only [encodeEntries, lookupKey]
    by_cases h : k1 = k
    · rw [if_pos h, if_pos h]
      rfl
    · rw [if_neg h, if_neg h]
      exact ih

theorem length_encodeEntries (c : FloatCodec) (m : List (String × GoValue)) :
    (encodeEntries c m).length = m.length := by
  induction m with
  | nil => rfl
  | cons e rest ih =>
    obtain ⟨k1, v1⟩ := e
    simp only [encodeEntries, List.length_cons, ih]

/-! ## Decoding a plain value and encoding it again -/

theorem Json.ofDecimal_integer (m : Int) : Json.ofDecimal ⟨m, 0⟩ = .num m := rfl

theorem Json.ofDecimal_real (m e : Int) (h : e ≠ 0) : Json.ofDecimal ⟨m, e⟩ = .real m e :=
  if_neg h

theorem Json.num_sameAs_ofDecimal (n : Int) (d : Decimal) :
    (Json.num n).sameAs (Json.ofDecimal d) = Decimal.sameValue ⟨n, 0⟩ d := by
  obtain ⟨m, e⟩ := d
  by_cases h : e = 0
  · subst h
    rfl
  · rw [Json.ofDecimal_real m e h]
    rfl

theorem Json.real_sameAs_ofDecimal (m e : Int) (d : Decimal) :
    (Json.real m e).sameAs (Json.ofDecimal d) = Decimal.sameValue ⟨m, e⟩ d := by
  obtain ⟨m1, e1⟩ := d
  by_cases h : e1 = 0
  · subst h
    rfl
  · rw [Json.ofDecimal_real m1 e1 h]
    rfl

theorem Json.depth_nestedArrays (depth : Nat) : (nestedArrays depth).depth = depth := by
  induction depth with
  | zero => rfl
  | succ n ih => simp [nestedArrays, Json.depth, depthItems, ih]

mutual
theorem Json.decode_same (c : FloatCodec) :
    ∀ v : Json, v.plain c = true →
      ∃ g, v.decode c = some g ∧ v.sameAs (g.encode c) = true
  | .null, _ => ⟨.nil, rfl, rfl⟩
  | .bool b, _ => ⟨.bool b, rfl, by simp [GoValue.encode, Json.sameAs]⟩
  | .str s, _ => ⟨.string s, rfl, by simp [GoValue.encode, Json.sameAs]⟩
  | .ustr units, h => by
    simp only [Json.plain] at h
    exact ⟨.string (String.mk (repairUnits units)), rfl, by simpa [GoValue.encode, Json.sameAs] using h⟩
  | .num n, h => by
    simp only [Json.plain] at h
    rcases hp : c.parse ⟨n, 0⟩ with _ | f
    · rw [hp] at h
      cases h
    · rw [hp] at h
      refine ⟨.float64 f, by simp [Json.decode, hp], ?_⟩
      simp only [GoValue.encode]
      rw [Json.num_sameAs_ofDecimal]
      exact h
  | .real m e, h => by
    simp only [Json.plain] at h
    rcases hp : c.parse ⟨m, e⟩ with _ | f
    · rw [hp] at h
      cases h
    · rw [hp] at h
      refine ⟨.float64 f, by simp [Json.decode, hp], ?_⟩
      simp only [GoValue.encode]
      rw [Json.real_sameAs_ofDecimal]
      exact h
  | .arr items, h => by
    simp only [Json.plain] at h
    obtain ⟨gs, h1, h2⟩ := decodeItems_same c items h
    exact ⟨.slice gs, by simp [Json.decode, h1], by simpa [GoValue.encode, Json.sameAs] using h2⟩
  | .obj members, h => by
    simp only [Json.plain] at h
    obtain ⟨m, h1, h2, _, h4⟩ := decodeMembers_same c members [] h (fun _ _ => rfl)
    refine ⟨.map m, by simp [Json.decode, h1], ?_⟩
    simp only [GoValue.encode, Json.sameAs, Bool.and_eq_true, beq_iff_eq]
    refine ⟨?_, h4⟩
    rw [length_encodeEntries, h2]
    simp
theorem decodeItems_same (c : FloatCodec) :
    ∀ items : List Json, plainItems c items = true →
      ∃ gs, decodeItems c items = some gs ∧ sameItems items (encodeItems c gs) = true
  | [], _ => ⟨[], rfl, rfl⟩
  | item :: items, h => by
    simp only [plainItems, Bool.and_eq_true] at h
    obtain ⟨g, h1, h2⟩ := Json.decode_same c item h.1
    obtain ⟨gs, h3, h4⟩ := decodeItems_same c items h.2
    exact ⟨g :: gs, by simp [decodeItems, h1, h3], by simp [encodeItems, sameItems, h2, h4]⟩
theorem decodeMembers_same (c : FloatCodec) :
    ∀ (members : List (String × Json)) (m : List (String × GoValue)),
      plainMembers c members = true →
      (∀ k, lookupKey k members ≠ none → lookupKey k m = none) →
      ∃ m1, decodeMembers c members m = some m1 ∧
        m1.length = m.length + members.length ∧
        (∀ k, lookupKey k members = none → lookupKey k m1 = lookupKey k m) ∧
        sameMembers members (encodeEntries c m1) = true
  | [], m, _, _ => ⟨m, rfl, rfl, fun _ _ => rfl, rfl⟩
  | (k, v) :: members, m, h, hd => by
    simp only [plainMembers, Bool.and_eq_true, Option.isNone_iff_eq_none] at h
    obtain ⟨⟨hv, hk⟩, hrest⟩ := h
    obtain ⟨g, h1, h2⟩ := Json.decode_same c v hv
    have hkm : lookupKey k m = none := hd k (by simp [lookupKey])
    have hd1 : ∀ k1, lookupKey k1 members ≠ none → lookupKey k1 (mapAssign k g m) = none := by
      intro k1 hk1
      have hne : k1 ≠ k := by
        intro he
        rw [he] at hk1
        exact hk1 hk
      rw [lookupKey_mapAssign_other k k1 g m hne]
      apply hd k1
      unfold lookupKey
      rw [if_neg (fun hh => hne hh.symm)]
      exact hk1
    obtain ⟨m1, h3, h4, h5, h6⟩ := decodeMembers_same c members (mapAssign k g m) hrest hd1
    refine ⟨m1, by simp [decodeMembers, h1, h3], ?_, ?_, ?_⟩
    · rw [h4, length_mapAssign k g m hkm, List.length_cons]
      omega
    · intro k1 hk1
      unfold lookupKey at hk1
      by_cases he : k = k1
      · rw [if_pos he] at hk1
        cases hk1
      · rw [if_neg he] at hk1
        rw [h5 k1 hk1, lookupKey_mapAssign_other k k1 g m (fun hh => he hh.symm)]
    · simp only [sameMembers, Bool.and_eq_true]
      refine ⟨?_, h6⟩
      rw [lookupKey_encodeEntries, h5 k hk, lookupKey_mapAssign_same]
      exact h2
end

/-! ## The three fields of a command -/

theorem CommandFields.assign_token (c : FloatCodec) (cmd : CommandFields) (s : String) :
    cmd.assign c "bot_token" (.str s) = some { cmd with botToken := s } := rfl

theorem CommandFields.assign_method (c : FloatCodec) (cmd : CommandFields) (s : String) :
    cmd.assign c "method" (.str s) = some { cmd with method := s } := rfl

theorem CommandFields.assign_params (c : FloatCodec) (cmd : CommandFields)
    (members : List (String × Json)) :
    cmd.assign c "params" (.obj members) =
      match decodeMembers c members (cmd.params.getD []) with
      | some m => some { cmd with params := some m }
      | none => none := rfl

/-- A command whose three members come in any order, nested no deeper than
the decoder reads, is stored as its token, its method and the map of its
parameters. -/
theorem unmarshalCommand_orders (c : FloatCodec) (token method : String)
    (params top : List (String × Json)) (m : List (String × GoValue))
    (hm : decodeMembers c params [] = some m)
    (horder : top ∈ orders (("bot_token", Json.str token) : String × Json)
      ("method", Json.str method) ("params", Json.obj params))
    (hdepth : (Json.obj top).depth ≤ maxNestingDepth) :
    unmarshalCommand c (.obj top) =
      .ok { botToken := token, method := method, params := some m } := by
  simp only [orders, List.mem_cons, List.mem_singleton, List.not_mem_nil, or_false] at horder
  rcases horder with h | h | h | h | h | h <;>
    · subst h
      simp only [unmarshalCommand, if_neg (Nat.not_lt.mpr hdepth), CommandFields.assignAll,
        CommandFields.assign_token, CommandFields.assign_method, CommandFields.assign_params,
        CommandFields.zero, Option.getD, hm]

/-- The depth of a command `sendMessage`: two more than its parameters. -/
theorem depth_sendCommand (params : List (String × Json)) :
    (sendCommand params).depth = depthMembers params + 2 := by
  simp [sendCommand, Json.depth, depthMembers]

/-- The depth of one member. -/
theorem depthMembers_one (k : String) (v : Json) : depthMembers [(k, v)] = v.depth := by
  simp [depthMembers]

/-- A text that is nested too deep is not decoded. -/
theorem reencode_too_deep (c : FloatCodec) (j : Json) (h : maxNestingDepth < j.depth) :
    reencode c j = none := by
  simp only [reencode, unmarshalCommand, if_pos h]

/-! ## The sidecar reads envelopes as updates -/

theorem unmarshalUpdate_envelope (fits : String → Json → Bool) (botID : String)
    (update : Json) :
    unmarshalUpdate fits (some (envelope botID update)) = .ok ProxyUpdate.zero := rfl

theorem collectUpdates_envelopes (fits : String → Json → Bool) :
    ∀ messages : List TopicMessage,
      (∀ msg, msg ∈ messages → ∃ botID update, msg.payload = some (envelope botID update)) →
      collectUpdates fits messages = messages.map (fun _ => ProxyUpdate.zero)
  | [], _ => rfl
  | msg :: messages, h => by
    obtain ⟨botID, update, hp⟩ := h msg (List.mem_cons_self _ _)
    unfold collectUpdates
    rw [hp, unmarshalUpdate_envelope,
      collectUpdates_envelopes fits messages (fun m hm => h m (List.mem_cons_of_mem _ hm))]
    rfl

/-! ## Theorems -/

/-- C1: `validateCreateRequest` accepts a request exactly when the three
strings are non-empty, `min_replicas >= 0`, `max_replicas >= 1` and
`min_replicas <= max_replicas`; with bounds (0,1) a request is accepted as soon
as its strings are non-empty, with bounds (0,0) or (2,1) it is rejected
whatever its strings. -/
theorem validateCreateRequest_accepts_iff (req : CreateBotRequest) :
    (validateCreateRequest req = none ↔
      req.botToken ≠ "" ∧ req.botName ≠ "" ∧ req.workerImage ≠ "" ∧
      0 ≤ req.minReplicas ∧ 1 ≤ req.maxReplicas ∧
      req.minReplicas ≤ req.maxReplicas) ∧
    (validateCreateRequest { req with minReplicas := 0, maxReplicas := 1 } = none ↔
      req.botToken ≠ "" ∧ req.botName ≠ "" ∧ req.workerImage ≠ "") ∧
    validateCreateRequest { req with minReplicas := 0, maxReplicas := 0 } ≠ none ∧
    validateCreateRequest { req with minReplicas := 2, maxReplicas := 1 } ≠ none := by
  refine ⟨?_, ?_, ?_, ?_⟩
  · unfold validateCreateRequest
    constructor
    · intro h
      split_ifs at h
      refine ⟨‹_›, ‹_›, ‹_›, ?_, ?_, ?_⟩ <;> omega
    · rintro ⟨h1, h2, h3, h4, h5, h6⟩
      simp only [h1, h2, h3, if_false]
      rw [if_neg (by omega), if_neg (by omega), if_neg (by omega)]
  · unfold validateCreateRequest
    constructor
    · intro h
      split_ifs at h
      exact ⟨‹_›, ‹_›, ‹_›⟩
    · rintro ⟨h1, h2, h3⟩
      simp [h1, h2, h3]
  · unfold validateCreateRequest
    split_ifs <;> simp_all
  · unfold validateCreateRequest
    split_ifs <;> simp_all

/-- C2 (amended): in every store reached from the empty store by calls of
`CreateBot`, `DeleteBot`, `UpdateReplicas` (and status updates) in which no
`CreateBot` fails to write the token key and every `CreateBot` request carries
a token that no record in the store has, every record whose status is
`creating` or `running` has `TokenIndex[record.bot_token] = record.bot_id`. -/
theorem tokenIndex_of_admissible (s : Service) (ops : List Op)
    (h : s.Admissible TokenUnused World.empty ops) :
    TokenIndexHolds (s.run World.empty ops).kv := by
  intro id cfg hc _
  obtain ⟨h1, h2⟩ :=
    RecordsIndexed.indexed_run s ops World.empty RecordsIndexed.indexed_empty h id cfg hc
  rw [h1]; exact h2

/-- C2, witness: a create followed by a replica update is such a sequence. -/
theorem tokenIndex_of_admissible_witness :
    demoService.Admissible TokenUnused World.empty
      [.create (okCreate rndA) demoRequest, .updateReplicas okUpdate idA raiseMax] ∧
    TokenIndexHolds
      (demoService.run World.empty
        [.create (okCreate rndA) demoRequest, .updateReplicas okUpdate idA raiseMax]).kv :=
  have h : demoService.Admissible TokenUnused World.empty
      [.create (okCreate rndA) demoRequest, .updateReplicas okUpdate idA raiseMax] :=
    ⟨⟨rfl, fun _ _ hc => by simp [World.empty, Store.empty] at hc⟩, trivial, trivial⟩
  ⟨h, tokenIndex_of_admissible _ _ h⟩

/-- C2 (as stated, refuted): first, two `CreateBot` calls with the same token
and different generated ids, no failure anywhere: the record of the first bot
is `running` and the token key holds the id of the second bot.  Second, one
`CreateBot` whose write of the token key fails: the record is `creating` and
the token key does not exist. -/
theorem tokenIndex_duplicate_token_counterexample :
    [Op.create (okCreate rndA) demoRequest, Op.create (okCreate rndB) demoRequest].all
      Op.isApi = true ∧
    (demoService.run World.empty
      [.create (okCreate rndA) demoRequest, .create (okCreate rndB) demoRequest]).kv
        (configKey idA) = some (.json (recordA "running")) ∧
    (demoService.run World.empty
      [.create (okCreate rndA) demoRequest, .create (okCreate rndB) demoRequest]).kv
        (tokenKey "T") = some (.str idB) ∧
    ¬ TokenIndexHolds
      (demoService.run World.empty
        [.create (okCreate rndA) demoRequest, .create (okCreate rndB) demoRequest]).kv ∧
    (demoService.run World.empty [.create tokenFailEnv demoRequest]).kv (configKey idA) =
      some (.json (recordA "creating")) ∧
    (demoService.run World.empty [.create tokenFailEnv demoRequest]).kv (tokenKey "T") =
      none ∧
    ¬ TokenIndexHolds (demoService.run World.empty [.create tokenFailEnv demoRequest]).kv := by
  refine ⟨by decide, by decide, by decide, ?_, by decide, by decide, ?_⟩
  · intro h
    have h1 := h idA (recordA "running") (by decide) (Or.inr rfl)
    revert h1
    decide
  · intro h
    have h1 := h idA (recordA "creating") (by decide) (Or.inl rfl)
    revert h1
    decide

/-- C3 (amended): the store stays consistent (an id is in `bots:all` exactly
when its `bot:config:` key exists, no two token keys hold the same id, a token
key holds the id of a record with that token) through every sequence of
`CreateBot`, `DeleteBot`, `UpdateReplicas` and `UpdateBotStatus` steps from the
empty store in which no `CreateBot` fails to write the token key or the bot
set and every generated id is not yet a key of the store. -/
theorem storeConsistent_of_admissible (s : Service) (ops : List Op)
    (h : s.Admissible SavedWhole World.empty ops) :
    StoreConsistent (s.run World.empty ops).kv :=
  (StoreWellFormed.wf_run s ops World.empty StoreWellFormed.wf_empty h).consistent

/-- C3, witness: two creates with the same token, a status update and a
delete form such a sequence. -/
theorem storeConsistent_of_admissible_witness :
    demoService.Admissible SavedWhole World.empty
      [.create (okCreate rndA) demoRequest, .create (okCreate rndB) demoRequest,
       .updateStatus okStatus idA "failed", .delete okDelete idB] ∧
    StoreConsistent
      (demoService.run World.empty
        [.create (okCreate rndA) demoRequest, .create (okCreate rndB) demoRequest,
         .updateStatus okStatus idA "failed", .delete okDelete idB]).kv :=
  have h : demoService.Admissible SavedWhole World.empty
      [.create (okCreate rndA) demoRequest, .create (okCreate rndB) demoRequest,
       .updateStatus okStatus idA "failed", .delete okDelete idB] :=
    ⟨⟨rfl, rfl, rfl⟩, ⟨rfl, rfl, by decide⟩, trivial, trivial, trivial⟩
  ⟨h, storeConsistent_of_admissible _ _ h⟩

/-- C3 (as stated, refuted): first, one `CreateBot` whose `SADD` fails: the
key `bot:config:<bot_id>` exists and the id is not a member of `bots:all`.
Second, two `CreateBot` calls without failure that draw the same random bytes,
with the tokens `T` and `U`: both token keys hold the one id, whose record has
the token `U`. -/
theorem storeConsistent_partial_save_counterexample :
    (demoService.CreateBot saddFailEnv demoRequest World.empty).2 =
      .error "failed to save bot config: failed to add bot to list: timeout" ∧
    (demoService.run World.empty [.create saddFailEnv demoRequest]).kv (configKey idA) =
      some (.json (recordA "creating")) ∧
    idA ∉ (demoService.run World.empty [.create saddFailEnv demoRequest]).kv.members ∧
    ¬ StoreConsistent (demoService.run World.empty [.create saddFailEnv demoRequest]).kv ∧
    (demoService.run World.empty
      [.create (okCreate rndA) demoRequest, .create (okCreate rndA) otherRequest]).kv
        (tokenKey "T") = some (.str idA) ∧
    (demoService.run World.empty
      [.create (okCreate rndA) demoRequest, .create (okCreate rndA) otherRequest]).kv
        (tokenKey "U") = some (.str idA) ∧
    ¬ StoreConsistent
      (demoService.run World.empty
        [.create (okCreate rndA) demoRequest, .create (okCreate rndA) otherRequest]).kv := by
  refine ⟨rfl, by decide, by decide, ?_, by decide, by decide, ?_⟩
  · intro h
    have h1 := (h.1 idA).2 (by decide)
    revert h1
    decide
  · intro h
    have h1 := h.2.1 "T" "U" idA (by decide) (by decide)
    revert h1
    decide

/-- C4 (amended): a second `DeleteBot` of the same id after a successful first
one returns the error "bot not found: ..." of the guard at lines 134-137; it
only makes the load, so that the store (and every other resource) stays
exactly as the first call left it. -/
theorem deleteBot_second_call (s : Service) (e1 e2 : DeleteEnv) (botID : String)
    (w : World) (h : (s.DeleteBot e1 botID w).2 = none) :
    (∃ err, s.DeleteBot e2 botID (s.DeleteBot e1 botID w).1 =
      ((s.DeleteBot e1 botID w).1.log (.storageGetBot botID),
       some ("bot not found: " ++ err))) ∧
    (s.DeleteBot e2 botID (s.DeleteBot e1 botID w).1).1.kv = (s.DeleteBot e1 botID w).1.kv := by
  obtain ⟨cfg, hg, hd⟩ := s.DeleteBot_ok_loaded e1 botID w h
  have hkv : (s.DeleteBot e1 botID w).1.kv (configKey botID) = none := by
    rw [Service.DeleteBot_kv, hg]
    dsimp only
    rw [RedisStorage.DeleteBot_configKey, if_pos ⟨(RedisStorage.DeleteBot_ok_exec hd).1, rfl⟩]
  have hg2 : ∃ err, RedisStorage.GetBot e2.get botID (s.DeleteBot e1 botID w).1.kv =
      .error err := by
    unfold RedisStorage.GetBot
    rcases e2.get with _ | err
    · exact ⟨"bot not found", by simp only [hkv]⟩
    · exact ⟨_, rfl⟩
  obtain ⟨err, herr⟩ := hg2
  have h2 := s.DeleteBot_not_loaded e2 botID (s.DeleteBot e1 botID w).1 herr
  refine ⟨⟨err, h2⟩, ?_⟩
  rw [h2]; rfl

/-- C4, witness: the bot of `demoRequest`, deleted twice without any
failure. -/
theorem deleteBot_second_call_witness :
    (demoService.DeleteBot okDelete idA worldA).2 = none ∧
    (∃ err, demoService.DeleteBot okDelete idA (demoService.DeleteBot okDelete idA worldA).1 =
      ((demoService.DeleteBot okDelete idA worldA).1.log (.storageGetBot idA),
       some ("bot not found: " ++ err))) ∧
    (demoService.DeleteBot okDelete idA (demoService.DeleteBot okDelete idA worldA).1).1.kv =
      (demoService.DeleteBot okDelete idA worldA).1.kv :=
  ⟨rfl, deleteBot_second_call demoService okDelete okDelete idA worldA rfl⟩

/-- C4 (as stated, refuted): the bot of `demoRequest` is created and deleted
without any failure; the second `DeleteBot` returns an error, and the answer
of the handler to it is not a 200. -/
theorem deleteBot_idempotent_counterexample :
    (demoService.DeleteBot okDelete idA worldA).2 = none ∧
    (demoService.DeleteBot okDelete idA (demoService.DeleteBot okDelete idA worldA).1).2 =
      some "bot not found: bot not found" ∧
    (Handlers.DeleteBot demoService okDelete idA
      (demoService.DeleteBot okDelete idA worldA).1).2.status ≠ 200 := by
  decide

/-- C5 (amended): after a successful `CreateBot` and a following successful
`DeleteBot` of the returned id, the store has no `bot:config:<bot_id>` key, no
`bot:token:<bot_token>` key and no member `bot_id` of `bots:all`; the two
topics of the bot are gone from the cluster when the four steps of that
`DeleteBot` for the topic deletion succeeded (its failure is only logged). -/
theorem create_then_delete (s : Service) (e : CreateEnv) (req : CreateBotRequest)
    (w : World) (d : DeleteEnv) (resp : CreateBotResponse)
    (hc : (s.CreateBot e req w).2 = .ok resp)
    (hd : (s.DeleteBot d resp.botID (s.CreateBot e req w).1).2 = none) :
    (s.DeleteBot d resp.botID (s.CreateBot e req w).1).1.kv (configKey resp.botID) = none ∧
    (s.DeleteBot d resp.botID (s.CreateBot e req w).1).1.kv (tokenKey req.botToken) = none ∧
    resp.botID ∉ (s.DeleteBot d resp.botID (s.CreateBot e req w).1).1.kv.members ∧
    (d.topics = okKafka →
      incomingTopic resp.botID ∉ (s.DeleteBot d resp.botID (s.CreateBot e req w).1).1.topics ∧
      outgoingTopic resp.botID ∉
        (s.DeleteBot d resp.botID (s.CreateBot e req w).1).1.topics) := by
  obtain ⟨hv, hs, hid⟩ := s.CreateBot_ok e req w hc
  -- the record of the new bot, after `CreateBot`
  have hs' : w.saveBot e.save (newBotConfig e req) =
      ((w.saveBot e.save (newBotConfig e req)).1, none) := by
    rw [← hs]
  obtain ⟨hk, hr⟩ := w.saveBot_eq e.save (newBotConfig e req) hs'
  have hrec0 : (w.saveBot e.save (newBotConfig e req)).1.kv (configKey (generateBotID e.rnd)) =
      some (.json (newBotConfig e req)) := by
    rw [hk]
    exact (RedisStorage.SaveBot_ok_record hr).1
  have hrec : ∃ c, (s.CreateBot e req w).1.kv (configKey resp.botID) = some (.json c) ∧
      c.botToken = req.botToken := by
    rw [hid]
    rcases s.CreateBot_saved e req hv hs' with ⟨_, h2⟩ | ⟨_, h2⟩
    · rw [h2]
      exact RedisStorage.UpdateBotStatus_record hrec0 e.status "running"
    · rw [h2]
      exact RedisStorage.UpdateBotStatus_record hrec0 e.status "failed"
  obtain ⟨c, hc1, hc2⟩ := hrec
  -- the load and the removal of `DeleteBot`
  obtain ⟨cfg, hg, hdel⟩ := s.DeleteBot_ok_loaded d resp.botID _ hd
  have hcfg : cfg = c := by
    have := RedisStorage.GetBot_ok hg
    rw [hc1] at this
    cases this
    rfl
  subst hcfg
  obtain ⟨hexec, hset⟩ := RedisStorage.DeleteBot_ok_exec hdel
  refine ⟨?_, ?_, ?_, ?_⟩
  · rw [Service.DeleteBot_kv, hg]
    dsimp only
    rw [RedisStorage.DeleteBot_configKey, if_pos ⟨hexec, rfl⟩]
  · rw [Service.DeleteBot_kv, hg]
    dsimp only
    rw [RedisStorage.DeleteBot_tokenKey, if_pos ⟨hexec, hc2.symm⟩]
  · rw [Service.DeleteBot_kv, hg]
    dsimp only
    rw [(RedisStorage.DeleteBot_members _ _ _ _ hset _).2]
    intro hm
    exact hm.2 ⟨hexec, rfl⟩
  · intro hok
    rw [s.DeleteBot_loaded d resp.botID _ hg, hok]
    exact Admin.DeleteTopics_ok_topics _ _

/-- C5, witness: the bot of `demoRequest`, created and deleted without any
failure. -/
theorem create_then_delete_witness :
    (demoService.CreateBot (okCreate rndA) demoRequest World.empty).2 = .ok responseA ∧
    (demoService.DeleteBot okDelete idA worldA).2 = none ∧
    (demoService.DeleteBot okDelete idA worldA).1.kv (configKey idA) = none ∧
    (demoService.DeleteBot okDelete idA worldA).1.kv (tokenKey "T") = none ∧
    idA ∉ (demoService.DeleteBot okDelete idA worldA).1.kv.members ∧
    incomingTopic idA ∉ (demoService.DeleteBot okDelete idA worldA).1.topics ∧
    outgoingTopic idA ∉ (demoService.DeleteBot okDelete idA worldA).1.topics :=
  have h := create_then_delete demoService (okCreate rndA) demoRequest World.empty okDelete
    responseA rfl rfl
  ⟨rfl, rfl, h.1, h.2.1, h.2.2.1, (h.2.2.2 rfl).1, (h.2.2.2 rfl).2⟩

/-- C5 (as stated, refuted): the bot of `demoRequest` is created; in the
following `DeleteBot` the admin cannot reach the brokers; `DeleteBot` still
returns no error, and both topics are still on the cluster. -/
theorem create_then_delete_topics_counterexample :
    (demoService.CreateBot (okCreate rndA) demoRequest World.empty).2 = .ok responseA ∧
    (demoService.DeleteBot topicsFailDelete idA worldA).2 = none ∧
    "bot_bot_000000000000000a_incoming" ∈
      (demoService.DeleteBot topicsFailDelete idA worldA).1.topics ∧
    "bot_bot_000000000000000a_outgoing" ∈
      (demoService.DeleteBot topicsFailDelete idA worldA).1.topics :=
  ⟨rfl, by decide, by decide, by decide⟩

/-- C6 (amended): for a valid request that was saved, a failure of topic
creation, of workload/secret creation or of autoscaler creation makes
`CreateBot` return that error (wrapped); the world it leaves is the world of
the failing step with the status update to `failed` applied and nothing else,
so no later provisioning step and no webhook registration is made; and the
record of the generated id has status `failed` provided the load and the
record write of that status update succeed (their error is ignored by the
code). -/
theorem createBot_provisioning_failure (s : Service) (e : CreateEnv)
    (req : CreateBotRequest) (w w1 : World)
    (hv : validateCreateRequest req = none)
    (hs : w.saveBot e.save (newBotConfig e req) = (w1, none)) :
    (∀ w2 err, Admin.CreateTopics e.topics (generateBotID e.rnd) w1 = (w2, some err) →
      s.CreateBot e req w =
        ((w2.updateBotStatus e.status (generateBotID e.rnd) "failed").1,
         .error ("failed to create kafka topics: " ++ err))) ∧
    (∀ w2 w3 err, Admin.CreateTopics e.topics (generateBotID e.rnd) w1 = (w2, none) →
      Client.CreateBotResources e.resources (newBotConfig e req) w2 = (w3, some err) →
      s.CreateBot e req w =
        ((w3.updateBotStatus e.status (generateBotID e.rnd) "failed").1,
         .error ("failed to create k8s resources: " ++ err))) ∧
    (∀ w2 w3 w4 err, Admin.CreateTopics e.topics (generateBotID e.rnd) w1 = (w2, none) →
      Client.CreateBotResources e.resources (newBotConfig e req) w2 = (w3, none) →
      Client.CreateScaledObject e.scaler (newBotConfig e req) w3 = (w4, some err) →
      s.CreateBot e req w =
        ((w4.updateBotStatus e.status (generateBotID e.rnd) "failed").1,
         .error ("failed to create scaledobject: " ++ err))) ∧
    (∀ err, (s.CreateBot e req w).2 = .error err →
      e.status.get = none → e.status.save.setConfig = none →
      (s.CreateBot e req w).1.kv (configKey (generateBotID e.rnd)) =
        some (.json { newBotConfig e req with status := "failed" })) := by
  refine ⟨?_, ?_, ?_, ?_⟩
  · intro w2 err ht
    exact s.CreateBot_topics_fail e req hv hs ht
  · intro w2 w3 err ht hr
    exact s.CreateBot_resources_fail e req hv hs ht hr
  · intro w2 w3 w4 err ht hr hc
    exact s.CreateBot_scaler_fail e req hv hs ht hr hc
  · intro err herr hg hw
    rcases s.CreateBot_saved_status e req hv hs hg hw with ⟨⟨r, hr⟩, _⟩ | ⟨_, h2⟩
    · rw [hr] at herr
      cases herr
    · exact h2

/-- C6, witness: topic creation fails and the status update succeeds; the
trace shows the three calls made and the record has status `failed`. -/
theorem createBot_provisioning_failure_witness :
    validateCreateRequest demoRequest = none ∧
    demoService.CreateBot topicsOnlyFailEnv demoRequest World.empty =
      (((Admin.CreateTopics topicsOnlyFailEnv.topics idA
          (World.empty.saveBot okSave (recordA "creating")).1).1.updateBotStatus
            okStatus idA "failed").1,
       .error "failed to create kafka topics: failed to create topics: boom") ∧
    (demoService.CreateBot topicsOnlyFailEnv demoRequest World.empty).1.trace =
      [.storageSaveBot (recordA "creating"), .kafkaCreateTopics idA,
       .storageUpdateBotStatus idA "failed"] ∧
    (demoService.CreateBot topicsOnlyFailEnv demoRequest World.empty).1.kv (configKey idA) =
      some (.json (recordA "failed")) :=
  have h := createBot_provisioning_failure demoService topicsOnlyFailEnv demoRequest
    World.empty (World.empty.saveBot okSave (recordA "creating")).1 rfl rfl
  ⟨rfl, h.1 _ _ rfl, by decide, h.2.2.2 _ rfl rfl rfl⟩

/-- C6 (as stated, refuted): a valid request, topic creation fails, and the
status update cannot load the record; `CreateBot` returns the error of the
topic creation and the persisted record still has status `creating`. -/
theorem createBot_failure_status_counterexample :
    validateCreateRequest demoRequest = none ∧
    (demoService.CreateBot topicsFailEnv demoRequest World.empty).2 =
      .error "failed to create kafka topics: failed to create topics: boom" ∧
    (demoService.CreateBot topicsFailEnv demoRequest World.empty).1.kv (configKey idA) =
      some (.json (recordA "creating")) :=
  ⟨rfl, rfl, rfl⟩

/-- C7 (amended): for a valid request whose record persistence, topic
creation, workload creation and autoscaler creation all succeed, `CreateBot`
returns its response without error whatever the CA-certificate fetch, the
`setWebhook` call and the last status update do; the persisted record has
status `running` provided the load and the record write of that status
update succeed (their error is only logged). -/
theorem createBot_provisioned_running (s : Service) (e : CreateEnv)
    (req : CreateBotRequest) (w w1 w2 w3 w4 : World)
    (hv : validateCreateRequest req = none)
    (hs : w.saveBot e.save (newBotConfig e req) = (w1, none))
    (ht : Admin.CreateTopics e.topics (generateBotID e.rnd) w1 = (w2, none))
    (hr : Client.CreateBotResources e.resources (newBotConfig e req) w2 = (w3, none))
    (hc : Client.CreateScaledObject e.scaler (newBotConfig e req) w3 = (w4, none)) :
    (s.CreateBot e req w).2 =
      .ok { botID := generateBotID e.rnd
            status := "created"
            kafkaTopics :=
              { incoming := incomingTopic (generateBotID e.rnd)
                outgoing := outgoingTopic (generateBotID e.rnd) }
            webhookURL := s.gatewayURL ++ "/webhook/" ++ req.botToken } ∧
    (e.status.get = none → e.status.save.setConfig = none →
      (s.CreateBot e req w).1.kv (configKey (generateBotID e.rnd)) =
        some (.json { newBotConfig e req with status := "running" })) := by
  have hres := s.CreateBot_provisioned e req hv hs ht hr hc
  refine ⟨by rw [hres], ?_⟩
  intro hg hw
  rcases s.CreateBot_saved_status e req hv hs hg hw with ⟨_, h2⟩ | ⟨⟨err, herr⟩, _⟩
  · exact h2
  · rw [hres] at herr
    cases herr

/-- C7, witness: the CA-certificate fetch and `setWebhook` both fail, the
response is returned and the record is `running`. -/
theorem createBot_provisioned_running_witness :
    validateCreateRequest demoRequest = none ∧
    (tlsService.CreateBot webhookFailEnv demoRequest World.empty).2 = .ok responseA ∧
    (tlsService.CreateBot webhookFailEnv demoRequest World.empty).1.kv (configKey idA) =
      some (.json (recordA "running")) :=
  have h := createBot_provisioned_running tlsService webhookFailEnv demoRequest
    World.empty _ _ _ _ rfl rfl rfl rfl rfl
  ⟨rfl, h.1, h.2 rfl rfl⟩

/-- C7 (as stated, refuted): every provisioning step succeeds and the last
status update cannot load the record; `CreateBot` returns its response and the
persisted record still has status `creating`. -/
theorem createBot_running_counterexample :
    validateCreateRequest demoRequest = none ∧
    (demoService.CreateBot statusFailEnv demoRequest World.empty).2 = .ok responseA ∧
    (demoService.CreateBot statusFailEnv demoRequest World.empty).1.kv (configKey idA) =
      some (.json (recordA "creating")) :=
  ⟨rfl, rfl, rfl⟩

/-- C8 (amended): when the first load of `DeleteBot` returns the record, it
calls, in this order, the status update to `deleting`, the webhook
unregistration, the autoscaler removal, the workload removal followed (unless
that removal failed with an error other than "not found") by the secret
removal, the topic removal and the record removal; it returns an error exactly
when the record removal does, whatever the outcomes of the webhook, autoscaler,
workload and topic steps are. -/
theorem deleteBot_steps (s : Service) (e : DeleteEnv) (botID : String) (w : World)
    (cfg : BotConfig) (hg : RedisStorage.GetBot e.get botID w.kv = .ok cfg) :
    (s.DeleteBot e botID w).1.trace =
      w.trace ++
        [.storageGetBot botID, .storageUpdateBotStatus botID "deleting",
         .tgDeleteWebhook cfg.botToken, .k8sDeleteScaledObject (scaledObjectName botID),
         .k8sDeleteDeployment (deploymentName botID)] ++
        (if e.resources.deployment = none ∨ e.resources.deployment = some .notFound
         then [.k8sDeleteSecret (secretName botID)] else []) ++
        [.kafkaDeleteTopics botID, .storageDeleteBot botID cfg.botToken] ∧
    ((s.DeleteBot e botID w).2 ≠ none ↔
      (RedisStorage.DeleteBot e.exec botID cfg.botToken
        (RedisStorage.UpdateBotStatus e.status botID "deleting" w.kv).1).2 ≠ none) ∧
    (∀ (hook : Option String) (scaler : Option ApiError) (resources : ResourcesEnv)
        (topics : KafkaEnv),
      (s.DeleteBot { e with deleteWebhook := hook, scaler := scaler,
                            resources := resources, topics := topics } botID w).2 =
        (s.DeleteBot e botID w).2) := by
  refine ⟨s.DeleteBot_trace e botID w hg, ?_, ?_⟩
  · rw [s.DeleteBot_loaded e botID w hg]
    simp
  · intro hook scaler resources topics
    rw [s.DeleteBot_loaded e botID w hg,
      s.DeleteBot_loaded { e with deleteWebhook := hook, scaler := scaler,
                                  resources := resources, topics := topics } botID w hg]

/-- C8, witness: the calls of a `DeleteBot` of the bot of `demoRequest`, and
a failing topic removal that does not change the result. -/
theorem deleteBot_steps_witness :
    RedisStorage.GetBot okDelete.get idA worldA.kv = .ok (recordA "running") ∧
    (demoService.DeleteBot okDelete idA worldA).1.trace =
      worldA.trace ++
        [.storageGetBot idA, .storageUpdateBotStatus idA "deleting",
         .tgDeleteWebhook "T", .k8sDeleteScaledObject "bot-bot_000000000000000a-scaler",
         .k8sDeleteDeployment "bot-bot_000000000000000a",
         .k8sDeleteSecret "bot-bot_000000000000000a-secrets",
         .kafkaDeleteTopics idA, .storageDeleteBot idA "T"] ∧
    (demoService.DeleteBot topicsFailDelete idA worldA).2 =
      (demoService.DeleteBot okDelete idA worldA).2 :=
  have h := deleteBot_steps demoService okDelete idA worldA (recordA "running") rfl
  ⟨rfl, h.1, h.2.2 _ _ _ _⟩

/-- C8 (as stated, refuted): the record of the bot exists in both cases.
First, the load of `DeleteBot` fails in transport: `DeleteBot` returns an error
after that single call, although the record removal did not fail (it was never
tried).  Second, the deletion of the deployment fails: the secret removal is
not attempted and the secret stays. -/
theorem deleteBot_steps_counterexample :
    worldA.kv (configKey idA) = some (.json (recordA "running")) ∧
    (demoService.DeleteBot getFailDelete idA worldA).2 =
      some "bot not found: failed to get bot config: timeout" ∧
    (demoService.DeleteBot getFailDelete idA worldA).1.trace =
      worldA.trace ++ [.storageGetBot idA] ∧
    Call.k8sDeleteSecret (secretName idA) ∉
      (demoService.DeleteBot deploymentFailDelete idA worldA).1.trace ∧
    secretName idA ∈ (demoService.DeleteBot deploymentFailDelete idA worldA).1.secrets ∧
    (demoService.DeleteBot deploymentFailDelete idA worldA).2 = none := by
  decide

/-- C9: for a bot whose record is stored under its id with bounds
`(min0, max0)` and every request, once `UpdateReplicas` has written the record
(also when a later store command or the autoscaler patch fails), every
response of `GetBot` reports `replicas.min` = the requested min if present,
else `min0`, and `replicas.max` = the requested max if present, else `max0`;
and `GetBot` does respond unless its own load fails in transport. -/
theorem updateReplicas_then_getBot (s : Service) (e : UpdateEnv) (botID : String)
    (req : UpdateReplicasRequest) (w : World) (cfg0 : BotConfig) (g : GetEnv)
    (h0 : RedisStorage.GetBot e.get botID w.kv = .ok cfg0)
    (hid : cfg0.botID = botID)
    (hsave : e.save.setConfig = none) :
    (∀ r, (s.GetBot g botID (s.UpdateReplicas e botID req w).1).2 = .ok r →
      r.replicas.min = req.minReplicas.getD cfg0.minReplicas ∧
      r.replicas.max = req.maxReplicas.getD cfg0.maxReplicas) ∧
    (g.get = none →
      ∃ r, (s.GetBot g botID (s.UpdateReplicas e botID req w).1).2 = .ok r) := by
  have hrec : (s.UpdateReplicas e botID req w).1.kv (configKey botID) =
      some (.json (applyReplicas e req cfg0)) := by
    have hb : botID = (applyReplicas e req cfg0).botID := by
      rw [applyReplicas_eq]
      exact hid.symm
    rw [Service.UpdateReplicas_kv, h0]
    dsimp only
    rw [RedisStorage.SaveBot_configKey, if_pos ⟨hsave, hb⟩]
  have hget : (s.GetBot g botID (s.UpdateReplicas e botID req w).1).2 =
      match g.get with
      | some err => .error ("failed to get bot config: " ++ err)
      | none => .ok
        { botID := (applyReplicas e req cfg0).botID
          botName := (applyReplicas e req cfg0).botName
          status := (applyReplicas e req cfg0).status
          replicas :=
            { current := (match g.deployment with | .ok n => n | .error _ => 0)
              min := (applyReplicas e req cfg0).minReplicas
              max := (applyReplicas e req cfg0).maxReplicas }
          kafkaLag := 0
          createdAt := (applyReplicas e req cfg0).createdAt } := by
    unfold Service.GetBot World.getBot RedisStorage.GetBot
    rcases hgg : g.get with _ | err
    · simp only [hrec]
      rfl
    · rfl
  constructor
  · intro r hr
    rw [hget] at hr
    rcases hgg : g.get with _ | err
    · rw [hgg] at hr
      cases hr
      rw [applyReplicas_eq]
      exact ⟨rfl, rfl⟩
    · rw [hgg] at hr
      cases hr
  · intro hgg
    rw [hget, hgg]
    exact ⟨_, rfl⟩


/-- C9, witness: the scenario "replica update" with a failing autoscaler
patch: `max` becomes 5 and `min` stays 1. -/
theorem updateReplicas_then_getBot_witness :
    RedisStorage.GetBot patchFailUpdate.get idA worldA.kv = .ok (recordA "running") ∧
    (demoService.UpdateReplicas patchFailUpdate idA raiseMax worldA).2 =
      some "failed to update scaledobject: failed to get scaledobject: boom" ∧
    (demoService.GetBot readyGet idA
      (demoService.UpdateReplicas patchFailUpdate idA raiseMax worldA).1).2 = .ok statusA ∧
    statusA.replicas.min = 1 ∧ statusA.replicas.max = 5 :=
  ⟨rfl, rfl, rfl,
    (updateReplicas_then_getBot demoService patchFailUpdate idA raiseMax worldA
      (recordA "running") readyGet rfl rfl rfl).1 statusA rfl⟩

/-- C10 (the code at the failing input): the bot is created with the valid
bounds (0, 1); `UpdateReplicas` with the body `min_replicas = 5` succeeds and
persists a record with `min_replicas = 5 > max_replicas = 1`. -/
theorem updateReplicas_persists_invalid_bounds :
    validateCreateRequest narrowRequest = none ∧
    (demoService.UpdateReplicas okUpdate idA raiseMin
      (demoService.CreateBot (okCreate rndA) narrowRequest World.empty).1).2 = none ∧
    (demoService.UpdateReplicas okUpdate idA raiseMin
      (demoService.CreateBot (okCreate rndA) narrowRequest World.empty).1).1.kv (configKey idA) =
      some (.json { recordA "running" with minReplicas := 5, maxReplicas := 1,
                                            updatedAt := 200 }) := by
  decide

/-- C11 (amended): over every sequence of `CreateBot`, `DeleteBot` and
`UpdateReplicas` calls, starting from the empty store, in which every
`CreateBot` generates an id that is not yet a key and writes the token key
and the bot set without failure, and every status update of `CreateBot` and
`DeleteBot` reads and writes the record without failure, the status of each
record changes, from one write of the store to the next, only along
absent to `creating`, `creating` to `running`, `creating` to `failed`,
`running` to `deleting`, `failed` to `deleting` and `deleting` to absent; the
stores written end in the store of the run, in which every record is
`running`, `failed` or `deleting`. -/
theorem status_moves_of_admissible (s : Service) (ops : List Op)
    (h : s.Admissible StatusWritesOk World.empty ops) :
    List.Chain StatusMoves World.empty.kv (s.runPath World.empty ops) ∧
    (s.runPath World.empty ops).getLastD World.empty.kv = (s.run World.empty ops).kv ∧
    Settled (s.run World.empty ops).kv :=
  s.run_moves ops World.empty StoreWellFormed.wf_empty Settled.settled_empty h

/-- C11, witness: a create, a replica update and a delete without any
failure. -/
theorem status_moves_of_admissible_witness :
    demoService.Admissible StatusWritesOk World.empty
      [.create (okCreate rndA) demoRequest, .updateReplicas okUpdate idA raiseMax,
       .delete okDelete idA] ∧
    List.Chain StatusMoves World.empty.kv
      (demoService.runPath World.empty
        [.create (okCreate rndA) demoRequest, .updateReplicas okUpdate idA raiseMax,
         .delete okDelete idA]) ∧
    ((demoService.runPath World.empty
        [.create (okCreate rndA) demoRequest, .updateReplicas okUpdate idA raiseMax,
         .delete okDelete idA]).map (fun kv => kv.status idA)) =
      [some "creating", some "running", some "running", some "deleting", none] :=
  have h : demoService.Admissible StatusWritesOk World.empty
      [.create (okCreate rndA) demoRequest, .updateReplicas okUpdate idA raiseMax,
       .delete okDelete idA] :=
    ⟨⟨rfl, rfl, rfl, rfl, rfl⟩, trivial, ⟨rfl, rfl⟩, trivial⟩
  ⟨h, (status_moves_of_admissible _ _ h).1, by decide⟩

/-- C11 (as stated, refuted): four runs from the empty store, each showing the
status of the bot `idA` after every write.  A `CreateBot` whose last status
update cannot load the record leaves `creating`, and the `DeleteBot` that
follows moves `creating` to `deleting`; the same happens after a `CreateBot`
whose write of the token key fails; a `DeleteBot` whose status update fails
removes a `running` record; a second `CreateBot` that generates the same id
moves `running` to `creating`.  None of these is a transition of the life
cycle. -/
theorem status_moves_counterexample :
    ((demoService.runPath World.empty
        [.create statusFailEnv demoRequest, .delete okDelete idA]).map
        (fun kv => kv.status idA)) =
      [some "creating", some "creating", some "deleting", none] ∧
    ((demoService.runPath World.empty
        [.create tokenFailEnv demoRequest, .delete okDelete idA]).map
        (fun kv => kv.status idA)) =
      [some "creating", some "creating", some "deleting", none] ∧
    ((demoService.runPath World.empty
        [.create (okCreate rndA) demoRequest, .delete statusFailDelete idA]).map
        (fun kv => kv.status idA)) =
      [some "creating", some "running", some "running", none] ∧
    ((demoService.runPath World.empty
        [.create (okCreate rndA) demoRequest, .create (okCreate rndA) otherRequest]).map
        (fun kv => kv.status idA)) =
      [some "creating", some "running", some "creating", some "running"] ∧
    legalTransition (some "creating") (some "deleting") = false ∧
    legalTransition (some "running") none = false ∧
    legalTransition (some "running") (some "creating") = false ∧
    ¬ List.Chain StatusMoves World.empty.kv
      (demoService.runPath World.empty
        [.create statusFailEnv demoRequest, .delete okDelete idA]) := by
  refine ⟨by decide, by decide, by decide, by decide, by decide, by decide, by decide, ?_⟩
  intro hc
  have hp : demoService.runPath World.empty
      [.create statusFailEnv demoRequest, .delete okDelete idA] =
      [(demoService.runPath World.empty
          [.create statusFailEnv demoRequest, .delete okDelete idA]).getD 0 Store.empty,
       (demoService.runPath World.empty
          [.create statusFailEnv demoRequest, .delete okDelete idA]).getD 1 Store.empty,
       (demoService.runPath World.empty
          [.create statusFailEnv demoRequest, .delete okDelete idA]).getD 2 Store.empty,
       (demoService.runPath World.empty
          [.create statusFailEnv demoRequest, .delete okDelete idA]).getD 3 Store.empty] := rfl
  rw [hp, List.chain_cons, List.chain_cons, List.chain_cons] at hc
  have h12 := hc.2.2.1 idA
  revert h12
  decide

/-- C12 (amended): when the store answers the lookup, `HandleWebhook` answers
400 for an empty token or a body that is not an update, else 404 when the
token is not in the token index, else 500 when the publish fails, else 200
with the text `ok`; `PublishMessage` is called once in the last two cases and
not at all in the others, where the writer also receives nothing. -/
theorem handleWebhook_response (encode : BotConfig → String) (e : WebhookEnv)
    (botToken : String) (body : Option TelegramUpdate) (w : GatewayWorld)
    (hget : e.get = none) :
    (botToken = "" →
      Handler.HandleWebhook encode e botToken body w =
        (w, { status := 400, body := "bot_token is required" })) ∧
    (botToken ≠ "" → body = none →
      Handler.HandleWebhook encode e botToken body w =
        (w, { status := 400, body := "invalid json" })) ∧
    (botToken ≠ "" → body ≠ none → tokenIndex encode w.kv botToken = none →
      Handler.HandleWebhook encode e botToken body w =
        (w, { status := 404, body := "bot not found" })) ∧
    (∀ update botID, botToken ≠ "" → body = some update →
      tokenIndex encode w.kv botToken = some botID →
      (Handler.HandleWebhook encode e botToken body w).1.publishCalls.length =
        w.publishCalls.length + 1 ∧
      (Handler.HandleWebhook encode e botToken body w).2 =
        (if (Producer.PublishMessage e.publish ("bot_" ++ botID ++ "_incoming")
              (sprintfD update.updateID) { botID := botID, update := update } w).2 = none
         then { status := 200, body := "ok" }
         else { status := 500, body := "internal error" }) ∧
      ((Producer.PublishMessage e.publish ("bot_" ++ botID ++ "_incoming")
          (sprintfD update.updateID) { botID := botID, update := update } w).2 = none ↔
        e.publish.marshal = none ∧ e.publish.write = none)) := by
  refine ⟨?_, ?_, ?_, ?_⟩
  · intro h
    unfold Handler.HandleWebhook
    rw [if_pos h]
  · intro h hb
    unfold Handler.HandleWebhook
    rw [if_neg h, hb]
  · intro h hb hi
    unfold Handler.HandleWebhook
    rw [if_neg h, hget, Gateway.RedisStorage.GetBotIDByToken_eq, hi]
    rcases body with _ | update
    · exact absurd rfl hb
    · rfl
  · intro update botID h hb hi
    have hpub : ∀ topic key value,
        (Producer.PublishMessage e.publish topic key value w).1.publishCalls.length =
          w.publishCalls.length + 1 ∧
        ((Producer.PublishMessage e.publish topic key value w).2 = none ↔
          e.publish.marshal = none ∧ e.publish.write = none) := by
      intro topic key value
      unfold Producer.PublishMessage
      rcases e.publish.marshal with _ | err
      · rcases e.publish.write with _ | err
        · simp
        · simp
      · simp
    unfold Handler.HandleWebhook
    rw [if_neg h, hb, hget, Gateway.RedisStorage.GetBotIDByToken_eq, hi]
    dsimp only
    have hp := hpub ("bot_" ++ botID ++ "_incoming") (sprintfD update.updateID)
      { botID := botID, update := update }
    rcases hr : Producer.PublishMessage e.publish ("bot_" ++ botID ++ "_incoming")
      (sprintfD update.updateID) { botID := botID, update := update } w with ⟨w1, _ | err⟩
    · rw [hr] at hp
      exact ⟨hp.1, by simp, hp.2⟩
    · rw [hr] at hp
      exact ⟨hp.1, by simp, hp.2⟩

/-- C12, witness: the store answers, the token `T` is in the index and the
publish succeeds. -/
theorem handleWebhook_response_witness :
    okWebhook.get = none ∧
    tokenIndex noEncode gatewayA.kv "T" = some "bot_a" ∧
    (Handler.HandleWebhook noEncode okWebhook "T" (some updateA) gatewayA).2 =
      { status := 200, body := "ok" } ∧
    (Handler.HandleWebhook noEncode okWebhook "T" (some updateA) gatewayA).1.publishCalls.length
      = 1 :=
  have h := (handleWebhook_response noEncode okWebhook "T" (some updateA) gatewayA rfl).2.2.2
    updateA "bot_a" (by decide) rfl (by decide)
  ⟨rfl, by decide, h.2.1, h.1⟩

/-- C12 (as stated, refuted): the token `T` is in the token index and the
publish would succeed, but the store cannot be reached: `HandleWebhook`
answers 404 and publishes nothing. -/
theorem handleWebhook_unreadable_index_counterexample :
    tokenIndex noEncode gatewayA.kv "T" = some "bot_a" ∧
    (Handler.HandleWebhook noEncode downWebhook "T" (some updateA) gatewayA).2 =
      { status := 404, body := "bot not found" } ∧
    (Handler.HandleWebhook noEncode downWebhook "T" (some updateA) gatewayA).1.publishCalls = [] :=
  ⟨by decide, by decide, by decide⟩

/-- C13: when `HandleWebhook` has accepted the update and resolved the token
to `botID`, the one call of `PublishMessage` it makes has the topic
`bot_<botID>_incoming`, the key `sprintfD update.updateID` and the value
`(botID, update)`, the message handed to the writer (when marshalling
succeeds and the writer accepts it) has that topic and key, and reading the
key as a decimal integer gives `update.updateID` for every integer, also 0
and the negative ones. -/
theorem handleWebhook_publishes (encode : BotConfig → String) (e : WebhookEnv)
    (botToken : String) (update : TelegramUpdate) (w : GatewayWorld) (botID : String)
    (htoken : botToken ≠ "")
    (hid : Gateway.RedisStorage.GetBotIDByToken encode e.get botToken w.kv = .ok botID) :
    (Handler.HandleWebhook encode e botToken (some update) w).1.publishCalls =
      w.publishCalls ++
        [{ topic := "bot_" ++ botID ++ "_incoming"
           key := sprintfD update.updateID
           value := { botID := botID, update := update } }] ∧
    (e.publish.marshal = none → e.publish.write = none →
      (Handler.HandleWebhook encode e botToken (some update) w).1.written =
        w.written ++
          [{ topic := "bot_" ++ botID ++ "_incoming"
             key := sprintfD update.updateID
             value := { botID := botID, update := update }
             time := e.publish.now }]) ∧
    ((e.publish.marshal ≠ none ∨ e.publish.write ≠ none) →
      (Handler.HandleWebhook encode e botToken (some update) w).1.written = w.written) ∧
    parseDecimal (sprintfD update.updateID) = some update.updateID ∧
    (∀ n : Int, parseDecimal (sprintfD n) = some n) ∧
    sprintfD 0 = "0" ∧ sprintfD (-42) = "-42" := by
  refine ⟨?_, ?_, ?_, parseDecimal_sprintfD _, parseDecimal_sprintfD, by decide, by decide⟩
  · unfold Handler.HandleWebhook
    rw [if_neg htoken]
    dsimp only
    rw [hid]
    unfold Producer.PublishMessage
    rcases e.publish.marshal with _ | err
    · rcases e.publish.write with _ | err <;> rfl
    · rfl
  · intro hm hw
    unfold Handler.HandleWebhook
    rw [if_neg htoken]
    dsimp only
    rw [hid]
    unfold Producer.PublishMessage
    rw [hm, hw]
  · intro hf
    unfold Handler.HandleWebhook
    rw [if_neg htoken]
    dsimp only
    rw [hid]
    unfold Producer.PublishMessage
    rcases hm : e.publish.marshal with _ | err
    · rcases hw : e.publish.write with _ | err
      · rw [hm, hw] at hf
        rcases hf with hf | hf <;> exact absurd rfl hf
      · rfl
    · rfl

/-- C13, witness: the update 7 for the token `T` of the bot `bot_a`. -/
theorem handleWebhook_publishes_witness :
    Gateway.RedisStorage.GetBotIDByToken noEncode okWebhook.get "T" gatewayA.kv = .ok "bot_a" ∧
    (Handler.HandleWebhook noEncode okWebhook "T" (some updateA) gatewayA).1.publishCalls =
      [{ topic := "bot_bot_a_incoming", key := "7"
         value := { botID := "bot_a", update := updateA } }] ∧
    parseDecimal "7" = some 7 :=
  have h := handleWebhook_publishes noEncode okWebhook "T" updateA gatewayA "bot_a"
    (by decide) rfl
  ⟨rfl, h.1, h.2.2.2.1⟩

/-- C14 (amended): when `CallMethod` has received an answer, a status other
than 200 gives an error; with status 200, a body that `json.Unmarshal` does
not accept (not a JSON object, or a member of the wrong type) gives an error;
a body accepted with `ok = false` that has `error_code` and `description`
gives the error that carries both; a body accepted with `ok = true` that has
`result` gives exactly this result.  This holds whatever `apiResp` held
before the call. -/
theorem callMethod_response (baseURL : String) (decode : String → Decoded) (e : CallEnv)
    (botToken method : String) (params : Option String) (st : TelegramState)
    (resp : HttpReply)
    (hmarshal : params = none ∨ e.marshal = none) (hreq : e.newRequest = none)
    (hsend : e.send = .ok resp) (hread : e.read = none) :
    (resp.statusCode ≠ 200 →
      (Gateway.Client.CallMethod baseURL decode e botToken method params st).2 =
        .error ("telegram handlers returned status " ++ sprintfD resp.statusCode ++ ": " ++
          resp.body)) ∧
    (resp.statusCode = 200 → ∀ err, decode resp.body = .invalid err →
      (Gateway.Client.CallMethod baseURL decode e botToken method params st).2 =
        .error ("failed to unmarshal response: " ++ err)) ∧
    (resp.statusCode = 200 → ∀ ok result description errorCode,
      decode resp.body = .object ok result description errorCode →
      (ok.isMismatch || description.isMismatch || errorCode.isMismatch) = true →
      ∃ err, (Gateway.Client.CallMethod baseURL decode e botToken method params st).2 =
        .error err) ∧
    (resp.statusCode = 200 → ∀ result description errorCode,
      decode resp.body = .object (.value false) result (.value description)
        (.value errorCode) →
      (Gateway.Client.CallMethod baseURL decode e botToken method params st).2 =
        .error ("telegram handlers error [" ++ sprintfD errorCode ++ "]: " ++ description)) ∧
    (resp.statusCode = 200 → ∀ result description errorCode,
      decode resp.body = .object (.value true) (some result) description errorCode →
      description.isMismatch = false → errorCode.isMismatch = false →
      (Gateway.Client.CallMethod baseURL decode e botToken method params st).2 =
        .ok result) := by
  have hm : (match params with
      | none => (Except.ok "" : Except String String)
      | some p =>
        match e.marshal with
        | some err => .error err
        | none => .ok p) = .ok (params.getD "") := by
    rcases params with _ | p
    · rfl
    · rcases hmarshal with h | h
      · cases h
      · rw [h]; rfl
  refine ⟨?_, ?_, ?_, ?_, ?_⟩
  · intro hs
    unfold Gateway.Client.CallMethod
    simp only [hm, hreq, hsend, hread]
    rw [if_pos hs]
  · intro hs err hd
    unfold Gateway.Client.CallMethod
    simp only [hm, hreq, hsend, hread]
    rw [if_neg (not_not.2 hs), hd]
    rfl
  · intro hs ok result description errorCode hd hmis
    unfold Gateway.Client.CallMethod
    simp only [hm, hreq, hsend, hread]
    rw [if_neg (not_not.2 hs), hd]
    unfold unmarshalApiResp
    dsimp only
    rw [if_pos hmis]
    exact ⟨_, rfl⟩
  · intro hs result description errorCode hd
    unfold Gateway.Client.CallMethod
    simp only [hm, hreq, hsend, hread]
    rw [if_neg (not_not.2 hs), hd]
    rfl
  · intro hs result description errorCode hd h1 h2
    unfold Gateway.Client.CallMethod
    simp only [hm, hreq, hsend, hread]
    rw [if_neg (not_not.2 hs), hd]
    unfold unmarshalApiResp
    dsimp only
    have hmis : (Field.isMismatch (Field.value true) || description.isMismatch ||
        errorCode.isMismatch) = false := by
      rw [h1, h2]; rfl
    rw [hmis]
    rfl

/-- C14, witness: the answer 200 with the body `fineBody`, received by the
first call. -/
theorem callMethod_response_witness :
    (answered { statusCode := 200, body := fineBody }).send =
      .ok { statusCode := 200, body := fineBody } ∧
    demoDecode fineBody = .object (.value true) (some "\x7b\x7d") .absent .absent ∧
    (Gateway.Client.CallMethod "https://api.telegram.org" demoDecode
      (answered { statusCode := 200, body := fineBody }) "T" "getMe" none
      TelegramState.start).2 = .ok "\x7b\x7d" :=
  ⟨rfl, by decide,
    (callMethod_response "https://api.telegram.org" demoDecode
      (answered { statusCode := 200, body := fineBody }) "T" "getMe" none
      TelegramState.start { statusCode := 200, body := fineBody }
      (Or.inl rfl) rfl rfl rfl).2.2.2.2 rfl "\x7b\x7d" .absent .absent (by decide) rfl rfl⟩

/-- C14 (as stated, refuted): the answer has status 200 and its body is a JSON
object with `ok = true` and the result `\x7b\x7d`, but its `description` is a number:
`json.Unmarshal` returns an error and `CallMethod` returns it, not the
result. -/
theorem callMethod_mistyped_member_counterexample :
    demoDecode oddBody = .object (.value true) (some "\x7b\x7d") .mismatch .absent ∧
    (Gateway.Client.CallMethod "https://api.telegram.org" demoDecode
      (answered { statusCode := 200, body := oddBody }) "T" "getMe" none
      TelegramState.start).2 =
      .error "failed to unmarshal response: json: cannot unmarshal into Go struct field" :=
  ⟨by decide, rfl⟩

/-- C15: for every handler and every course of the loop, `ConsumeMessages`
calls the handler once for each message fetched before the context is done
and issues the commit of that message right after it, once, whatever the
handler returned: the calls and commits are, in order, `handled m`,
`committed m` for each fetched message `m`, and the loop ends only when the
context is done.  With the handler of the processor, a message handled
without error, one that does not decode and one the Bot API rejects are all
three committed. -/
theorem consumeMessages_commits {σ μ : Type} (handler : μ → σ → σ × Option String)
    (script : List (Tick μ)) (st : σ) :
    (∃ outs : List (Option String), outs.length = (fetched script).length ∧
      (Consumer.ConsumeMessages handler script st).2.1.filter ConsumerEvent.isProcessing =
        ((fetched script).zip outs).flatMap
          (fun p => [.handled p.1.1 p.2, .committed p.1.1 p.1.2])) ∧
    (Consumer.ConsumeMessages handler script st).2.1.filterMap ConsumerEvent.commitOf =
      (fetched script).map Prod.fst ∧
    ((Consumer.ConsumeMessages handler script st).2.2 ≠ none ↔ Tick.cancelled ∈ script) ∧
    (((Consumer.ConsumeMessages demoHandler demoScript TelegramState.start).2.1.filter
        ConsumerEvent.isProcessing).map
        (fun ev => match ev with
          | .handled msg err => (msg.offset, "handled", err)
          | .committed msg err => (msg.offset, "committed", err)
          | _ => (0, "", none))) =
      [(0, "handled", none), (0, "committed", none),
       (1, "handled", some "failed to unmarshal command: invalid character"),
       (1, "committed", none),
       (2, "handled", some "telegram handlers returned status 400: bad"),
       (2, "committed", some "rebalance")] := by
  refine ⟨?_, ?_, ?_, ?_⟩
  · induction script generalizing st with
    | nil => exact ⟨[], rfl, rfl⟩
    | cons t script ih =>
      cases t with
      | cancelled => exact ⟨[], rfl, rfl⟩
      | fetchError err =>
        obtain ⟨outs, h1, h2⟩ := ih st
        refine ⟨outs, h1, ?_⟩
        simp only [Consumer.ConsumeMessages, fetched]
        rw [List.filter_append, h2]
        rfl
      | message msg commit =>
        obtain ⟨outs, h1, h2⟩ := ih (handler msg st).1
        refine ⟨(handler msg st).2 :: outs, by simp [fetched, h1], ?_⟩
        simp only [Consumer.ConsumeMessages, fetched]
        rw [List.filter_append, h2]
        rfl
  · induction script generalizing st with
    | nil => rfl
    | cons t script ih =>
      cases t with
      | cancelled => rfl
      | fetchError err =>
        simp only [Consumer.ConsumeMessages, fetched]
        rw [List.filterMap_append, ih st]
        rfl
      | message msg commit =>
        simp only [Consumer.ConsumeMessages, fetched]
        rw [List.filterMap_append, ih (handler msg st).1]
        rfl
  · induction script generalizing st with
    | nil => simp [Consumer.ConsumeMessages]
    | cons t script ih =>
      cases t with
      | cancelled => simp [Consumer.ConsumeMessages]
      | fetchError err =>
        simp only [Consumer.ConsumeMessages]
        rw [ih st]
        simp
      | message msg commit =>
        simp only [Consumer.ConsumeMessages]
        rw [ih (handler msg st).1]
        simp
  · rfl

/-- C16 (amended): successive calls of `discoverAndSubscribe` never panic, and
after them the keys of the consumers map are the keys it had before together
with every topic of the egress form that a successful listing has shown so
far; in particular, after a successful call every matching topic now on the
cluster is a key, and a key whose topic has vanished stays. -/
theorem discoveries_key_set (es : List ListingEnv) (p : Processor) :
    ∃ p1, Processor.discoveries es p = some p1 ∧
      (∀ t, t ∈ p1.keys ↔ t ∈ p.keys ∨ ∃ e, e ∈ es ∧ e.shows t) ∧
      (∀ t, t ∈ p.keys → p1.consumer t = p.consumer t) := by
  obtain ⟨p1, h1, h2⟩ := Processor.discoveries_keys es p
  refine ⟨p1, h1, h2, ?_⟩
  clear h2
  induction es generalizing p with
  | nil =>
    intro t _
    cases h1
    rfl
  | cons e es ih =>
    intro t ht
    unfold Processor.discoveries at h1
    obtain ⟨q, err, hq, hk⟩ := Processor.discoverAndSubscribe_keys e p
    rw [hq] at h1
    dsimp only at h1
    rw [ih q h1 t ((hk t).2 (Or.inl ht))]
    obtain ⟨topics, _, _, h3⟩ := Processor.discoverAndSubscribe_eq e p
    rw [hq] at h3
    rcases hd : e.dial with _ | derr
    · rcases hr : e.readPartitions with _ | rerr
      · rw [hd, hr] at h3
        have hq1 : q = Processor.subscribe topics p := congrArg Prod.fst (Option.some.inj h3)
        obtain ⟨added, ha, _⟩ := Processor.subscribe_spec topics p
        rw [hq1]
        exact Processor.consumer_append p added t ht _ ha
      · rw [hd, hr] at h3
        have hq1 : q = p := congrArg Prod.fst (Option.some.inj h3)
        rw [hq1]
    · rw [hd] at h3
      have hq1 : q = p := congrArg Prod.fst (Option.some.inj h3)
      rw [hq1]

/-- C16 (as stated, refuted): the first listing shows the topic
`bot_a_outgoing`, the second listing succeeds and shows no topic at all;
after the second call the topic is still a key of the consumers map, while
no topic on the cluster matches. -/
theorem discoveries_vanished_topic_counterexample :
    Processor.discoverAndSubscribe (listing [])
        (Processor.subscribe [ascii "bot_a_outgoing"] demoProcessor) =
      some (Processor.subscribe [ascii "bot_a_outgoing"] demoProcessor, none) ∧
    Processor.discoveries [listing [ascii "bot_a_outgoing"], listing []] demoProcessor =
      some (Processor.subscribe [ascii "bot_a_outgoing"] demoProcessor) ∧
    (Processor.subscribe [ascii "bot_a_outgoing"] demoProcessor).keys =
      [ascii "bot_a_outgoing"] ∧
    Gateway.TopicManager.GetAllOutgoingTopics (listing []) = some (.ok []) :=
  ⟨by decide, by decide, by decide, rfl⟩

/-- C17: for every processor (map `M`) and every list `L` of discovered
topics, the loop of `discoverAndSubscribe` appends entries to the map and
changes nothing else in it: the keys afterwards are the keys of `M` and the
topics of `L`; a topic that was a key keeps its consumer; the entries added
are exactly one for each topic of `L` that was not a key, each with a
consumer made by `NewConsumer` then, and a consume task is started for each
of them and for nothing else; running the loop again with `L` changes
nothing; a listing that fails leaves the processor as it was. -/
theorem subscribe_grows_only (p : Processor) (topics : List (List Nat)) :
    (∀ t, t ∈ (Processor.subscribe topics p).keys ↔ t ∈ p.keys ∨ t ∈ topics) ∧
    (∀ t, t ∈ p.keys → (Processor.subscribe topics p).consumer t = p.consumer t) ∧
    (∃ added : List (List Nat × Gateway.Consumer),
      (Processor.subscribe topics p).consumers = p.consumers ++ added ∧
      (Processor.subscribe topics p).started = p.started ++ added ∧
      (Processor.subscribe topics p).allocated = p.allocated + added.length ∧
      (added.map Prod.fst).Nodup ∧
      (∀ t, t ∈ added.map Prod.fst ↔ t ∈ topics ∧ t ∉ p.keys) ∧
      (∀ entry, entry ∈ added → ∃ n, p.allocated ≤ n ∧
        entry.2 = Gateway.NewConsumer p.brokers p.groupID [entry.1] n)) ∧
    Processor.subscribe topics (Processor.subscribe topics p) = Processor.subscribe topics p ∧
    (∀ err readPartitions partitions,
      Processor.discoverAndSubscribe
        { dial := some err, readPartitions := readPartitions, partitions := partitions } p =
        some (p, some ("failed to dial kafka: " ++ err))) ∧
    (∀ err partitions,
      Processor.discoverAndSubscribe
        { dial := none, readPartitions := some err, partitions := partitions } p =
        some (p, some ("failed to read partitions: " ++ err))) ∧
    (∀ partitions, ∃ listed, listed.Nodup ∧
      (∀ t, t ∈ listed ↔
        t ∈ partitions ∧ startsWithBot t = true ∧ endsWithOutgoing t = true) ∧
      Processor.discoverAndSubscribe (listing partitions) p =
        some (Processor.subscribe listed p, none)) := by
  obtain ⟨added, h1, h2, h3, h4, h5, h6, h7, h8⟩ := Processor.subscribe_spec topics p
  refine ⟨Processor.subscribe_keys topics p, ?_, ⟨added, h1, h2, h3, h6, h7, h8⟩, ?_, ?_, ?_, ?_⟩
  · intro t ht
    exact Processor.consumer_append p added t ht _ h1
  · exact Processor.subscribe_known topics _
      (fun t ht => (Processor.subscribe_keys topics p t).2 (Or.inr ht))
  · intro err readPartitions partitions
    rfl
  · intro err partitions
    rfl
  · intro partitions
    obtain ⟨listed, g1, g2, g3⟩ := Processor.discoverAndSubscribe_eq (listing partitions) p
    exact ⟨listed, g1, g2, g3⟩

/-- C18: for every list of partitions, `GetAllOutgoingTopics` evaluates its
test on every topic name without a slice out of range (also on names shorter
than 9 bytes and on the empty name), the test holds exactly for the names that
start with `bot_` and end with `_outgoing` (also for `bot_outgoing`, where the
two share the underscore), and, when the two calls to the
cluster succeed, the list returned has no duplicates and holds precisely the
partition topics that pass the test. -/
theorem getAllOutgoingTopics_spec (e : ListingEnv) :
    (∀ topic, Gateway.isOutgoingTopic topic =
      some (startsWithBot topic && endsWithOutgoing topic)) ∧
    Gateway.isOutgoingTopic [] = some false ∧
    Gateway.isOutgoingTopic (ascii "bot_outgoing") = some true ∧
    ∃ topics, topics.Nodup ∧
      (∀ t, t ∈ topics ↔
        t ∈ e.partitions ∧ startsWithBot t = true ∧ endsWithOutgoing t = true) ∧
      Gateway.TopicManager.GetAllOutgoingTopics e =
        some (match e.dial with
          | some err => .error ("failed to dial kafka: " ++ err)
          | none =>
            match e.readPartitions with
            | some err => .error ("failed to read partitions: " ++ err)
            | none => .ok topics) := by
  refine ⟨Gateway.isOutgoingTopic_eq, by decide, by decide, ?_⟩
  obtain ⟨topics, h1, h2, h3⟩ := Gateway.collectOutgoing_spec e.partitions [] List.nodup_nil
  refine ⟨topics, h2, fun t => by simpa using h3 t, ?_⟩
  unfold Gateway.TopicManager.GetAllOutgoingTopics
  rcases e.dial with _ | err
  · rcases e.readPartitions with _ | err
    · simp only [h1]
    · rfl
  · rfl

/-- C19: `maskToken` never slices out of range; it returns `***` for a token
shorter than 10 bytes, and for a token of 10 bytes or more its first 5 bytes,
then `***`, then its last 5 bytes, 13 bytes in all. -/
theorem maskToken_spec (token : List Nat) :
    ∃ masked, Gateway.maskToken token = some masked ∧
      masked = (if token.length < 10 then ascii "***"
        else token.take 5 ++ ascii "***" ++ token.drop (token.length - 5)) ∧
      masked.length = (if token.length < 10 then 3 else 13) := by
  unfold Gateway.maskToken
  by_cases h : token.length < 10
  · have h' : (token.length : Int) < 10 := by omega
    rw [if_pos h', if_pos h, if_pos h]
    exact ⟨_, rfl, rfl, by decide⟩
  · have h' : ¬ (token.length : Int) < 10 := by omega
    have h5 := goSlice_head token 5 (by omega)
    have ht := goSlice_tail token 5 (by omega)
    simp only [Nat.cast_ofNat] at h5 ht
    rw [if_neg h', if_neg h, if_neg h, h5, ht]
    refine ⟨_, rfl, rfl, ?_⟩
    simp only [List.length_append, List.length_take, List.length_drop, ascii_stars_length]
    omega

/-- C20: when `CreateBot` returns a response, the request is valid, the
response carries the generated id, the topic pair `bot_<id>_incoming`,
`bot_<id>_outgoing` and the webhook URL `<gateway>/webhook/<token>`; the
admin was called for this id and the topics on the cluster afterwards are the
earlier ones and these two; the set `bots:all` holds the id and the key
`bot:token:<token>` holds it too. -/
theorem createBot_response (s : Service) (e : CreateEnv) (req : CreateBotRequest) (w : World)
    (resp : CreateBotResponse) (h : (s.CreateBot e req w).2 = .ok resp) :
    validateCreateRequest req = none ∧
    resp.botID = generateBotID e.rnd ∧
    resp.kafkaTopics =
      { incoming := "bot_" ++ resp.botID ++ "_incoming"
        outgoing := "bot_" ++ resp.botID ++ "_outgoing" } ∧
    resp.webhookURL = s.gatewayURL ++ "/webhook/" ++ req.botToken ∧
    (∀ t, t ∈ (s.CreateBot e req w).1.topics ↔
      t ∈ w.topics ∨ t = resp.kafkaTopics.incoming ∨ t = resp.kafkaTopics.outgoing) ∧
    Call.kafkaCreateTopics resp.botID ∈ (s.CreateBot e req w).1.trace ∧
    resp.botID ∈ (s.CreateBot e req w).1.kv.members ∧
    (s.CreateBot e req w).1.kv (tokenKey req.botToken) = some (.str resp.botID) := by
  obtain ⟨hv, hsave, hid⟩ := s.CreateBot_ok e req w h
  rcases hs : w.saveBot e.save (newBotConfig e req) with ⟨w1, r⟩
  rw [hs] at hsave
  dsimp only at hsave
  subst hsave
  obtain ⟨hk, hr⟩ := w.saveBot_eq e.save (newBotConfig e req) hs
  have hw1 : w1.topics = w.topics := by
    have h1 := congrArg Prod.fst hs
    dsimp only at h1
    rw [← h1]
    rfl
  rcases ht : Admin.CreateTopics e.topics (generateBotID e.rnd) w1 with ⟨w2, _ | err⟩
  · rcases hres : Client.CreateBotResources e.resources (newBotConfig e req) w2
      with ⟨w3, _ | err⟩
    · rcases hc : Client.CreateScaledObject e.scaler (newBotConfig e req) w3
        with ⟨w4, _ | err⟩
      · have heq := s.CreateBot_provisioned e req hv hs ht hres hc
        rw [heq] at h
        cases h
        rw [heq]
        have t2 := Admin.CreateTopics_ok_topics e.topics (generateBotID e.rnd) ht
        have t3 := Client.CreateBotResources_topics e.resources (newBotConfig e req) w2
        rw [hres] at t3
        have t4 := Client.CreateScaledObject_topics e.scaler (newBotConfig e req) w3
        rw [hc] at t4
        dsimp only at t3 t4
        have hfin := RedisStorage.UpdateBotStatus_after_save hr e.status "running"
        have k2 := Admin.CreateTopics_kv e.topics (generateBotID e.rnd) w1
        rw [ht] at k2
        have k3 := Client.CreateBotResources_kv e.resources (newBotConfig e req) w2
        rw [hres] at k3
        have k4 := Client.CreateScaledObject_kv e.scaler (newBotConfig e req) w3
        rw [hc] at k4
        dsimp only at k2 k3 k4
        have hkv : ((s.registerWebhook e req (s.gatewayURL ++ "/webhook/" ++ req.botToken)
              w4).updateBotStatus e.status (generateBotID e.rnd) "running").1.kv =
            (RedisStorage.UpdateBotStatus e.status (generateBotID e.rnd) "running"
              (RedisStorage.SaveBot e.save (newBotConfig e req) w.kv).1).1 := by
          rw [World.updateBotStatus_kv, Service.registerWebhook_kv, k4, k3, k2, hk]
        refine ⟨hv, rfl, rfl, rfl, ?_, ?_, ?_, ?_⟩
        · intro t
          show t ∈ (s.registerWebhook e req _ w4).topics ↔ _
          rw [Service.registerWebhook_topics, t4, t3, t2, addName_mem, addName_mem, hw1]
          constructor
          · rintro ((h1 | h1) | h1)
            · exact Or.inl h1
            · exact Or.inr (Or.inl h1)
            · exact Or.inr (Or.inr h1)
          · rintro (h1 | h1 | h1)
            · exact Or.inl (Or.inl h1)
            · exact Or.inl (Or.inr h1)
            · exact Or.inr h1
        · show Call.kafkaCreateTopics (generateBotID e.rnd) ∈
            (s.registerWebhook e req _ w4).trace ++ [_]
          apply List.mem_append_left
          apply Service.registerWebhook_trace_mono
          have g2 := Admin.CreateTopics_logged e.topics (generateBotID e.rnd) w1
          rw [ht] at g2
          have g3 := Client.CreateBotResources_trace_mono e.resources (newBotConfig e req) w2 _ g2
          rw [hres] at g3
          have g4 := Client.CreateScaledObject_trace_mono e.scaler (newBotConfig e req) w3 _ g3
          rw [hc] at g4
          exact g4
        · dsimp only
          rw [hkv]
          exact hfin.2
        · dsimp only
          rw [hkv]
          exact hfin.1
      · rw [s.CreateBot_scaler_fail e req hv hs ht hres hc] at h
        cases h
    · rw [s.CreateBot_resources_fail e req hv hs ht hres] at h
      cases h
  · rw [s.CreateBot_topics_fail e req hv hs ht] at h
    cases h

/-- C20, witness: the request `demoRequest` with the random bytes `rndA`, no
failure anywhere, from the empty world. -/
theorem createBot_response_witness :
    (demoService.CreateBot (okCreate rndA) demoRequest World.empty).2 = .ok responseA ∧
    responseA.botID = idA ∧
    responseA.kafkaTopics =
      { incoming := "bot_" ++ idA ++ "_incoming", outgoing := "bot_" ++ idA ++ "_outgoing" } ∧
    idA ∈ (demoService.CreateBot (okCreate rndA) demoRequest World.empty).1.kv.members ∧
    (demoService.CreateBot (okCreate rndA) demoRequest World.empty).1.kv
      (tokenKey demoRequest.botToken) = some (.str idA) :=
  have h := createBot_response demoService (okCreate rndA) demoRequest World.empty responseA rfl
  ⟨rfl, h.2.1, h.2.2.1, h.2.2.2.2.2.2.1, h.2.2.2.2.2.2.2⟩

/-- C21: for every 8 bytes, `generateBotID` returns a string of 20
characters: `bot_` followed by 16 characters, each of them one of
`0123456789abcdef`; and two lists of 8 bytes with the same id are the same
list. -/
theorem generateBotID_format (b b1 : List Nat) (hb : b.length = 8) (hb1 : b1.length = 8)
    (hr : ∀ x, x ∈ b → x < 256) (hr1 : ∀ x, x ∈ b1 → x < 256) :
    (generateBotID b).length = 20 ∧
    (∃ hex : List Char, (generateBotID b).data = ['b', 'o', 't', '_'] ++ hex ∧
      hex.length = 16 ∧ ∀ c, c ∈ hex → c ∈ "0123456789abcdef".data) ∧
    (generateBotID b = generateBotID b1 → b = b1) := by
  refine ⟨?_, ⟨hexEncode b, generateBotID_data b, ?_, hexEncode_mem b⟩, ?_⟩
  · show (generateBotID b).data.length = 20
    rw [generateBotID_data, List.length_append, hexEncode_length, hb]
    rfl
  · rw [hexEncode_length, hb]
  · intro h
    have hd : (generateBotID b).data = (generateBotID b1).data := by rw [h]
    rw [generateBotID_data, generateBotID_data] at hd
    exact hexEncode_inj b b1 (by rw [hb, hb1]) hr hr1 (List.append_cancel_left hd)

/-- C21, witness: the bytes `rndA` and `rndB`. -/
theorem generateBotID_format_witness :
    rndA.length = 8 ∧ generateBotID rndA = "bot_000000000000000a" ∧
    (generateBotID rndA).length = 20 ∧
    (generateBotID rndA = generateBotID rndB → rndA = rndB) :=
  have h := generateBotID_format rndA rndB rfl rfl (by decide) (by decide)
  ⟨rfl, by decide, h.1, h.2.2⟩

/-- C22: when a request violates one of the constraints of
`validateCreateRequest`, `CreateBot` returns the validation error and the
world it returns is the world it was given: the store, the topics, the
secrets, deployments and scaled objects, the webhooks, and the trace of calls,
to which nothing is added. -/
theorem createBot_invalid_no_effect (s : Service) (e : CreateEnv) (req : CreateBotRequest)
    (w : World)
    (h : ¬ (req.botToken ≠ "" ∧ req.botName ≠ "" ∧ req.workerImage ≠ "" ∧
      0 ≤ req.minReplicas ∧ 1 ≤ req.maxReplicas ∧ req.minReplicas ≤ req.maxReplicas)) :
    ∃ err, validateCreateRequest req = some err ∧
      s.CreateBot e req w = (w, .error ("invalid request: " ++ err)) ∧
      (s.CreateBot e req w).1.kv = w.kv ∧
      (s.CreateBot e req w).1.topics = w.topics ∧
      (s.CreateBot e req w).1.secrets = w.secrets ∧
      (s.CreateBot e req w).1.deployments = w.deployments ∧
      (s.CreateBot e req w).1.scaledObjects = w.scaledObjects ∧
      (s.CreateBot e req w).1.webhooks = w.webhooks ∧
      (s.CreateBot e req w).1.trace = w.trace := by
  rcases hv : validateCreateRequest req with _ | err
  · exact absurd ((validateCreateRequest_none_iff req).1 hv) h
  · have heq : s.CreateBot e req w = (w, .error ("invalid request: " ++ err)) := by
      unfold Service.CreateBot
      simp only [hv]
    refine ⟨err, rfl, heq, ?_, ?_, ?_, ?_, ?_, ?_, ?_⟩ <;> rw [heq]

/-- C22, witness: the request without a token, sent after the bot of
`demoRequest` was created. -/
theorem createBot_invalid_no_effect_witness :
    ∃ err, validateCreateRequest tokenlessRequest = some err ∧
      demoService.CreateBot (okCreate rndB) tokenlessRequest worldA =
        (worldA, .error ("invalid request: " ++ err)) :=
  have h := createBot_invalid_no_effect demoService (okCreate rndB) tokenlessRequest worldA
    (by decide)
  h.imp (fun _ hh => ⟨hh.1, hh.2.1⟩)

/-- C23: `GetBot` returns an error exactly when loading the record from the
store returns one, and then it is that error; when the load gives the record
stored under the key of the bot, the answer has `bot_id`, `bot_name`,
`status`, `replicas.min`, `replicas.max` and `created_at` of that record,
`replicas.current` is the ready count the status lookup reports, or 0 when
that lookup fails, and `kafka_lag` is 0; the store is not written. -/
theorem getBot_result (s : Service) (e : GetEnv) (botID : String) (w : World) :
    ((∃ err, (s.GetBot e botID w).2 = .error err) ↔
      ∃ err, RedisStorage.GetBot e.get botID w.kv = .error err) ∧
    (∀ err, RedisStorage.GetBot e.get botID w.kv = .error err →
      (s.GetBot e botID w).2 = .error err) ∧
    (∀ botConfig, RedisStorage.GetBot e.get botID w.kv = .ok botConfig →
      w.kv (configKey botID) = some (.json botConfig) ∧
      (s.GetBot e botID w).2 =
        .ok { botID := botConfig.botID
              botName := botConfig.botName
              status := botConfig.status
              replicas :=
                { current :=
                    match e.deployment with
                    | .ok ready => ready
                    | .error _ => 0
                  min := botConfig.minReplicas
                  max := botConfig.maxReplicas }
              kafkaLag := 0
              createdAt := botConfig.createdAt }) ∧
    (s.GetBot e botID w).1.kv = w.kv := by
  refine ⟨?_, ?_, ?_, s.GetBot_kv e botID w⟩
  · rw [Service.GetBot_eq]
    rcases RedisStorage.GetBot e.get botID w.kv with err | botConfig
    · exact ⟨fun _ => ⟨err, rfl⟩, fun _ => ⟨err, rfl⟩⟩
    · constructor
      · rintro ⟨err, h⟩
        cases h
      · rintro ⟨err, h⟩
        cases h
  · intro err h
    rw [Service.GetBot_eq, h]
  · intro botConfig h
    refine ⟨RedisStorage.GetBot_ok h, ?_⟩
    rw [Service.GetBot_eq, h]
    rfl

/-- C24: `ListBots` returns an error exactly when reading `bots:all` returns
one; otherwise its result is, in the order of the ids read, the answers of
`GetBot` for the ids whose `GetBot` succeeds: an id whose `GetBot` fails has no
entry, every entry is the answer of `GetBot` for a member of `bots:all`, and
the store is not written. -/
theorem listBots_result (s : Service) (smembers : Option String) (each : String → GetEnv)
    (w : World) :
    (s.ListBots smembers each w).2 =
      (match RedisStorage.ListBots smembers w.kv with
       | .error err => .error err
       | .ok botIDs => .ok (botIDs.filterMap (listEntry s each w))) ∧
    (∀ botIDs, RedisStorage.ListBots smembers w.kv = .ok botIDs →
      botIDs = w.kv.members ∧
      ∀ bot, bot ∈ botIDs.filterMap (listEntry s each w) ↔
        ∃ botID, botID ∈ w.kv.members ∧ (s.GetBot (each botID) botID w).2 = .ok bot) ∧
    (s.ListBots smembers each w).1.kv = w.kv := by
  have hfold := s.ListBots_fold each w
  refine ⟨?_, ?_, ?_⟩
  · unfold Service.ListBots World.listBots
    rcases RedisStorage.ListBots smembers w.kv with err | botIDs
    · rfl
    · have h1 := (hfold botIDs (w.log .storageListBots) [] rfl).1
      exact congrArg Except.ok (h1.trans (List.nil_append _))
  · intro botIDs h
    have hm : botIDs = w.kv.members := by
      unfold RedisStorage.ListBots at h
      unfold Store.members
      rcases smembers with _ | err
      · dsimp only at h
        rcases hs : w.kv.smembers allKey with _ | ids
        · rw [hs] at h
          cases h
        · rw [hs] at h
          cases h
          rfl
      · cases h
    refine ⟨hm, fun bot => ?_⟩
    rw [List.mem_filterMap, ← hm]
    constructor
    · rintro ⟨botID, hin, he⟩
      refine ⟨botID, hin, ?_⟩
      unfold listEntry at he
      rcases hg : (s.GetBot (each botID) botID w).2 with err | b
      · rw [hg] at he
        cases he
      · rw [hg] at he
        cases he
        rfl
    · rintro ⟨botID, hin, he⟩
      refine ⟨botID, hin, ?_⟩
      unfold listEntry
      rw [he]
  · unfold Service.ListBots World.listBots
    rcases RedisStorage.ListBots smembers w.kv with err | botIDs
    · rfl
    · dsimp only
      exact (hfold botIDs (w.log .storageListBots) [] rfl).2

/-- C25 (what the handlers do): a create request that fails validation is
answered with 500 and the text of the validation error; `DeleteBot` and
`UpdateReplicas` for an id without a record are answered with 500; `GetBot`
answers 404 for an id without a record and also when the store cannot be
reached; 400 is the answer to a body that does not parse, for create and
update only. -/
theorem handlers_error_status (s : Service) (w : World) :
    (∀ e req err, validateCreateRequest req = some err →
      (Handlers.CreateBot s e (some req) w).2 =
        { status := 500, body := .error ("invalid request: " ++ err) }) ∧
    (∀ e botID, e.get = none → w.kv (configKey botID) = none →
      (Handlers.DeleteBot s e botID w).2 =
        { status := 500, body := .error "bot not found: bot not found" }) ∧
    (∀ e botID req, e.get = none → w.kv (configKey botID) = none →
      (Handlers.UpdateReplicas s e botID (some req) w).2 =
        { status := 500, body := .error "bot not found" }) ∧
    (∀ e botID, e.get = none → w.kv (configKey botID) = none →
      (Handlers.GetBot s e botID w).2 = { status := 404, body := .error "bot not found" }) ∧
    (∀ e botID err, e.get = some err →
      (Handlers.GetBot s e botID w).2 = { status := 404, body := .error "bot not found" }) ∧
    (∀ e, (Handlers.CreateBot s e none w).2 =
      { status := 400, body := .error "invalid request body" }) ∧
    (∀ e botID, (Handlers.UpdateReplicas s e botID none w).2 =
      { status := 400, body := .error "invalid request body" }) := by
  refine ⟨?_, ?_, ?_, ?_, ?_, fun _ => rfl, fun _ _ => rfl⟩
  · intro e req err hv
    unfold Handlers.CreateBot Service.CreateBot
    simp only [hv]
  · intro e botID hg hk
    unfold Handlers.DeleteBot Service.DeleteBot World.getBot RedisStorage.GetBot
    simp only [hg, hk]
    rfl
  · intro e botID req hg hk
    unfold Handlers.UpdateReplicas Service.UpdateReplicas World.getBot RedisStorage.GetBot
    simp only [hg, hk]
  · intro e botID hg hk
    unfold Handlers.GetBot Service.GetBot World.getBot RedisStorage.GetBot
    simp only [hg, hk]
  · intro e botID err hg
    unfold Handlers.GetBot Service.GetBot World.getBot RedisStorage.GetBot
    simp only [hg]

/-- C26 (amended): a JSON object whose members are, in any order, `bot_token`
with a string, `method` with a string and `params` with an object, in which
no object repeats a key, every number (with or without fraction and
exponent) is given back as the same number by the conversion to `float64`
and back, no string has a surrogate without its partner, and no place is
nested deeper than `maxNestingDepth`, is stored by `json.Unmarshal` in an
`OutgoingCommand` with that token and that method, and `json.Marshal` of this
command is the same JSON value up to the order of the members of objects. -/
theorem reencode_same (c : FloatCodec) (token method : String)
    (params top : List (String × Json))
    (horder : top ∈ orders (("bot_token", Json.str token) : String × Json)
      ("method", Json.str method) ("params", Json.obj params))
    (hplain : plainMembers c params = true)
    (hdepth : (Json.obj top).depth ≤ maxNestingDepth) :
    ∃ cmd, unmarshalCommand c (.obj top) = .ok cmd ∧
      cmd.botToken = token ∧ cmd.method = method ∧
      reencode c (.obj top) = some (marshalCommand c cmd) ∧
      (Json.obj top).sameAs (marshalCommand c cmd) = true := by
  obtain ⟨m, h1, h2, _, h4⟩ := decodeMembers_same c params [] hplain (fun _ _ => rfl)
  have hu := unmarshalCommand_orders c token method params top m h1 horder hdepth
  refine ⟨_, hu, rfl, rfl, by simp only [reencode, hu], ?_⟩
  have hlen : (params.length == (encodeEntries c m).length) = true := by
    rw [length_encodeEntries, h2]
    simp
  simp only [orders, List.mem_cons, List.mem_singleton, List.not_mem_nil, or_false] at horder
  rcases horder with h | h | h | h | h | h <;>
    · subst h
      simp [marshalCommand, Json.sameAs, sameMembers, lookupKey, h4, hlen]

/-- C26, witness: a `sendLocation` whose parameters hold an integer, a number
with a fraction (55.75), a string and a nested object, with the member
`params` first. -/
theorem reencode_same_witness :
    plainMembers float64Codec
      [("text", .str "hi"), ("latitude", .real 5575 (-2)), ("chat_id", .num 1),
       ("reply_markup", .obj [("remove_keyboard", .bool true)])] = true ∧
    reencode float64Codec
      (.obj [("params", .obj [("text", .str "hi"), ("latitude", .real 5575 (-2)),
          ("chat_id", .num 1), ("reply_markup", .obj [("remove_keyboard", .bool true)])]),
        ("bot_token", .str "T"), ("method", .str "sendMessage")]) =
      some (sendCommand [("chat_id", .num 1), ("latitude", .real 5575 (-2)),
        ("reply_markup", .obj [("remove_keyboard", .bool true)]), ("text", .str "hi")]) ∧
    ∃ cmd, unmarshalCommand float64Codec
        (.obj [("params", .obj [("text", .str "hi"), ("latitude", .real 5575 (-2)),
            ("chat_id", .num 1), ("reply_markup", .obj [("remove_keyboard", .bool true)])]),
          ("bot_token", .str "T"), ("method", .str "sendMessage")]) = .ok cmd ∧
      (Json.obj [("params", .obj [("text", .str "hi"), ("latitude", .real 5575 (-2)),
            ("chat_id", .num 1), ("reply_markup", .obj [("remove_keyboard", .bool true)])]),
          ("bot_token", .str "T"), ("method", .str "sendMessage")]).sameAs
        (marshalCommand float64Codec cmd) = true :=
  have h := reencode_same float64Codec "T" "sendMessage"
    [("text", .str "hi"), ("latitude", .real 5575 (-2)), ("chat_id", .num 1),
     ("reply_markup", .obj [("remove_keyboard", .bool true)])]
    [("params", .obj [("text", .str "hi"), ("latitude", .real 5575 (-2)),
        ("chat_id", .num 1), ("reply_markup", .obj [("remove_keyboard", .bool true)])]),
      ("bot_token", .str "T"), ("method", .str "sendMessage")]
    (by simp [orders]) rfl (by decide)
  ⟨rfl, rfl, h.imp (fun _ hh => ⟨hh.1, hh.2.2.2.2⟩)⟩

/-- C26 (as stated, refuted): the command `sendMessage` with the parameter
`chat_id` 9007199254740993 (2^53 + 1) is encoded again with `chat_id`
9007199254740992, the `float64` nearest to it; with the parameter `latitude`
55.750000000000000001 it is encoded again with 55.75; with the parameters `a`
with 1 and `a` with 2 it is encoded again with the one member `a` with 2; with
the parameter `text` that is the one escape `\ud800` it is encoded again with
the character U+FFFD.  In these cases the result is not the original up to
the order of members.  With a parameter that is 9999 arrays one inside the
other, `Unmarshal` returns an error. -/
theorem reencode_differs_counterexample :
    reencode float64Codec (sendCommand [("chat_id", .num 9007199254740993)]) =
      some (sendCommand [("chat_id", .num 9007199254740992)]) ∧
    (sendCommand [("chat_id", .num 9007199254740993)]).sameAs
      (sendCommand [("chat_id", .num 9007199254740992)]) = false ∧
    reencode float64Codec (sendCommand [("latitude", .real 55750000000000000001 (-18))]) =
      some (sendCommand [("latitude", .real 5575 (-2))]) ∧
    (sendCommand [("latitude", .real 55750000000000000001 (-18))]).sameAs
      (sendCommand [("latitude", .real 5575 (-2))]) = false ∧
    reencode float64Codec (sendCommand [("a", .num 1), ("a", .num 2)]) =
      some (sendCommand [("a", .num 2)]) ∧
    (sendCommand [("a", .num 1), ("a", .num 2)]).sameAs (sendCommand [("a", .num 2)]) = false ∧
    (sendCommand [("a", .num 2)]).sameAs (sendCommand [("a", .num 1), ("a", .num 2)]) = false ∧
    reencode float64Codec (sendCommand [("text", .ustr [0xD800])]) =
      some (sendCommand [("text", .str (String.mk [Char.ofNat 0xFFFD]))]) ∧
    (sendCommand [("text", .ustr [0xD800])]).sameAs
      (sendCommand [("text", .str (String.mk [Char.ofNat 0xFFFD]))]) = false ∧
    reencode float64Codec (sendCommand [("a", nestedArrays 9999)]) = none := by
  refine ⟨?_, ?_, ?_, ?_, ?_, ?_, ?_, ?_, ?_, ?_⟩
  · rfl
  · rfl
  · rfl
  · rfl
  · rfl
  · rfl
  · rfl
  · rfl
  · rfl
  · apply reencode_too_deep
    rw [depth_sendCommand, depthMembers_one, Json.depth_nestedArrays]
    norm_num [maxNestingDepth]

/-- C27 (amended): the calls one `CreateBot` makes contain a `SetWebhook` only
if the gateway URL starts with `https://`, and a fetch of the CA secret only
if moreover the name of the CA secret is not empty; a `CreateBot` that returns
a response (the request is valid and the bot is provisioned) calls
`SetWebhook` exactly once when the gateway URL starts with `https://` and not
at all otherwise, and fetches the CA secret exactly once when the URL starts
with `https://` and the name is not empty and not at all otherwise; a
`CreateBot` that returns an error makes neither call.  The URLs
`http://gw.example` and the empty URL do not start with `https://`. -/
theorem createBot_webhook_calls (s : Service) (e : CreateEnv) (req : CreateBotRequest)
    (w : World) :
    ∃ calls, (s.CreateBot e req w).1.trace = w.trace ++ calls ∧
      ((∃ c, c ∈ calls ∧ c.isSetWebhook = true) → s.isHttps = true) ∧
      ((∃ c, c ∈ calls ∧ c.isGetSecret = true) →
        s.isHttps = true ∧ s.tlsCaSecretName ≠ "") ∧
      (∀ resp, (s.CreateBot e req w).2 = .ok resp →
        calls.countP Call.isSetWebhook = (if s.isHttps = true then 1 else 0) ∧
        calls.countP Call.isGetSecret =
          (if s.isHttps = true ∧ s.tlsCaSecretName ≠ "" then 1 else 0)) ∧
      (∀ err, (s.CreateBot e req w).2 = .error err →
        calls.countP Call.isSetWebhook = 0 ∧ calls.countP Call.isGetSecret = 0) ∧
      (s.isHttps = true ↔ "https://".data.isPrefixOf s.gatewayURL.data = true) ∧
      plainService.isHttps = false ∧ blankService.isHttps = false := by
  rcases s.CreateBot_calls e req w with ⟨err, calls, hr, ht, hq⟩ | ⟨resp, cert, before, after, hr, ht, hb, ha⟩
  · have hz := countP_quiet calls hq
    refine ⟨calls, ht, ?_, ?_, ?_, ?_, Iff.rfl, by decide, by decide⟩
    · rintro ⟨c, hc, hw⟩
      rw [((Call.isQuiet_iff c).1 (hq c hc)).1] at hw
      cases hw
    · rintro ⟨c, hc, hw⟩
      rw [((Call.isQuiet_iff c).1 (hq c hc)).2] at hw
      cases hw
    · intro resp h
      rw [hr] at h
      cases h
    · intro _ _
      exact hz
  · have hzb := countP_quiet before hb
    have hza := countP_quiet after ha
    refine ⟨_, ht, ?_, ?_, ?_, ?_, Iff.rfl, by decide, by decide⟩
    · rintro ⟨c, hc, hw⟩
      by_contra hs
      rw [if_neg hs] at hc
      rcases List.mem_append.1 hc with h | h
      · rw [((Call.isQuiet_iff c).1 (hb c h)).1] at hw
        cases hw
      · rw [List.nil_append] at h
        rw [((Call.isQuiet_iff c).1 (ha c h)).1] at hw
        cases hw
    · rintro ⟨c, hc, hw⟩
      by_cases hs : s.isHttps = true
      · refine ⟨hs, fun hn => ?_⟩
        rw [if_pos hs, if_neg (not_not.2 hn)] at hc
        rcases List.mem_append.1 hc with h | h
        · rw [((Call.isQuiet_iff c).1 (hb c h)).2] at hw
          cases hw
        · rcases List.mem_append.1 h with h | h
          · simp only [List.nil_append, List.mem_singleton] at h
            rw [h] at hw
            cases hw
          · rw [((Call.isQuiet_iff c).1 (ha c h)).2] at hw
            cases hw
      · rw [if_neg hs] at hc
        rcases List.mem_append.1 hc with h | h
        · rw [((Call.isQuiet_iff c).1 (hb c h)).2] at hw
          cases hw
        · rw [List.nil_append] at h
          rw [((Call.isQuiet_iff c).1 (ha c h)).2] at hw
          cases hw
    · intro _ _
      rw [List.countP_append, List.countP_append, List.countP_append, List.countP_append,
        hzb.1, hzb.2, hza.1, hza.2]
      by_cases hs : s.isHttps = true
      · by_cases hn : s.tlsCaSecretName ≠ ""
        · simp [hs, hn, Call.isSetWebhook, Call.isGetSecret, List.countP_cons]
        · simp [hs, hn, Call.isSetWebhook, Call.isGetSecret, List.countP_cons]
      · simp [hs]
    · intro err h
      rw [hr] at h
      cases h

/-- C27 (as stated, refuted): the gateway URL starts with `https://`, the
request has no token; `CreateBot` returns the validation error and calls
neither `SetWebhook` nor anything else.  The same service, with a valid request
whose topics cannot be created, makes three calls, none of them
`SetWebhook`. -/
theorem createBot_no_webhook_counterexample :
    demoService.isHttps = true ∧
    (demoService.CreateBot (okCreate rndA) tokenlessRequest World.empty).1.trace = [] ∧
    ((demoService.CreateBot topicsOnlyFailEnv demoRequest World.empty).1.trace.map
      Call.isSetWebhook) = [false, false, false] :=
  ⟨by decide, by decide, by decide⟩

/-- C28 (what the code does): when the messages read from the ingress topic
are inbound envelopes, `GetUpdates` answers 200 with one update for each
message and every one of these updates is the zero `TelegramUpdate`, with
`update_id` 0 and without a message, whatever update the envelope carries: the
keys `bot_id` and `update` of the envelope name no field of the struct.  A
topic message that holds the update itself is returned with its `update_id`
and its message. -/
theorem getUpdates_envelopes (fits : String → Json → Bool) (e : ReadEnv)
    (messages : List TopicMessage)
    (hread : Proxy.Consumer.ReadAllMessages e = .ok messages)
    (henv : ∀ msg, msg ∈ messages → ∃ botID update, msg.payload = some (envelope botID update)) :
    Proxy.Handlers.GetUpdates fits e =
      .updates 200 (messages.map (fun _ => ProxyUpdate.zero)) ∧
    (∀ u, u ∈ collectUpdates fits messages → u.updateID = 0 ∧ u.message = none) := by
  have hc := collectUpdates_envelopes fits messages henv
  refine ⟨?_, ?_⟩
  · unfold Proxy.Handlers.GetUpdates
    rw [hread, ← hc]
  · intro u hu
    rw [hc, List.mem_map] at hu
    obtain ⟨_, _, rfl⟩ := hu
    exact ⟨rfl, rfl⟩

/-- C28, witness: the topic holds the envelope of the update 7 twice; the
answer holds two updates with `update_id` 0 and no message.  When the topic
holds the update 7 itself, the answer holds it with `update_id` 7 and its
message. -/
theorem getUpdates_envelopes_witness :
    Proxy.Consumer.ReadAllMessages
        (twoReads (envelope "bot_a" updateSeven) (envelope "bot_a" updateSeven)) =
      .ok [{ offset := 0, payload := some (envelope "bot_a" updateSeven) },
           { offset := 1, payload := some (envelope "bot_a" updateSeven) }] ∧
    Proxy.Handlers.GetUpdates allFit
        (twoReads (envelope "bot_a" updateSeven) (envelope "bot_a" updateSeven)) =
      .updates 200 [ProxyUpdate.zero, ProxyUpdate.zero] ∧
    Proxy.Handlers.GetUpdates allFit (twoReads updateSeven updateSeven) =
      .updates 200
        [{ updateID := 7
           message := some (.obj [("message_id", .num 1), ("chat", .obj [("id", .num 5)]),
             ("text", .str "hi")])
           callback := none, inlineQuery := none },
         { updateID := 7
           message := some (.obj [("message_id", .num 1), ("chat", .obj [("id", .num 5)]),
             ("text", .str "hi")])
           callback := none, inlineQuery := none }] :=
  ⟨rfl,
   (getUpdates_envelopes allFit
      (twoReads (envelope "bot_a" updateSeven) (envelope "bot_a" updateSeven))
      [{ offset := 0, payload := some (envelope "bot_a" updateSeven) },
       { offset := 1, payload := some (envelope "bot_a" updateSeven) }] rfl
      (fun msg hm => by
        simp only [List.mem_cons, List.mem_singleton, List.not_mem_nil, or_false] at hm
        rcases hm with rfl | rfl
        · exact ⟨"bot_a", updateSeven, rfl⟩
        · exact ⟨"bot_a", updateSeven, rfl⟩)).1,
   rfl⟩

/-- C29 (what the code does): the answer 200 with the body `\x7b\x7d` gives an
error when it is the first answer of the program, and gives the result of the
earlier call, as a success, when an earlier call got `ok = true` with a
result; the answer 200 with the body `\x7b"ok":false\x7d` gives the error
`[0]` with an empty description as the first answer, and the error code and the
description of the earlier call after a call that was refused with them.  The
same status code and body, two different outcomes. -/
theorem callMethod_inherits_earlier_answer :
    (Gateway.Client.CallMethod "https://api.telegram.org" memberDecode
      (answered { statusCode := 200, body := emptyBody }) "T" "sendMessage" none
      TelegramState.start).2 = .error "telegram handlers error [0]: " ∧
    (Gateway.Client.CallMethod "https://api.telegram.org" memberDecode
      (answered { statusCode := 200, body := emptyBody }) "T" "sendMessage" none
      (afterCall { statusCode := 200, body := meBody })).2 = .ok "\x7b\"id\":1\x7d" ∧
    (Gateway.Client.CallMethod "https://api.telegram.org" memberDecode
      (answered { statusCode := 200, body := refusedBody }) "T" "sendMessage" none
      TelegramState.start).2 = .error "telegram handlers error [0]: " ∧
    (Gateway.Client.CallMethod "https://api.telegram.org" memberDecode
      (answered { statusCode := 200, body := refusedBody }) "T" "sendMessage" none
      (afterCall { statusCode := 200, body := blockedBody })).2 =
      .error "telegram handlers error [403]: blocked" ∧
    (afterCall { statusCode := 200, body := meBody }).apiResp =
      { ok := true, result := "\x7b\"id\":1\x7d", description := "", errorCode := 0 } :=
  ⟨rfl, rfl, rfl, rfl, rfl⟩

/-- C30 (what the code does): for every broker list, group id and topic list,
the reader configuration built by `NewConsumer` has the brokers and the group
id given and neither `Topic` nor `GroupTopics`: it is the same for every topic
list; so the consumers that `discoverAndSubscribe` stores under the keys
`bot_a_outgoing` and `bot_b_outgoing` have the same reader configuration, which
names no topic. -/
theorem newConsumer_ignores_topics (brokers : List String) (groupID : String)
    (topics topics1 : List (List Nat)) (serial : Nat) :
    (Gateway.NewConsumer brokers groupID topics serial).reader.brokers = brokers ∧
    (Gateway.NewConsumer brokers groupID topics serial).reader.groupID = groupID ∧
    (Gateway.NewConsumer brokers groupID topics serial).reader.topic = [] ∧
    (Gateway.NewConsumer brokers groupID topics serial).reader.groupTopics = [] ∧
    (Gateway.NewConsumer brokers groupID topics serial).reader =
      (Gateway.NewConsumer brokers groupID topics1 serial).reader ∧
    ((Processor.subscribe [ascii "bot_a_outgoing", ascii "bot_b_outgoing"]
        demoProcessor).consumers.map (fun entry => (entry.1, entry.2.reader.topic,
          entry.2.reader.groupTopics))) =
      [(ascii "bot_a_outgoing", [], []), (ascii "bot_b_outgoing", [], [])] :=
  ⟨rfl, rfl, rfl, rfl, rfl, by decide⟩

end TgServerless
